import Mathlib

/-!
# Collaborative drawing canvas: action history, rooms and message handling

A shallow embedding of the server side of the repository
(`src/server/drawing-state.js`, `src/server/rooms.js`, `src/server/server.js`).

Modelling conventions.

* JavaScript values that the server only copies or uses as `Map` keys are values
  of `JsVal` (the JSON primitives plus `undefined`). Objects and arrays in
  identifier position are not modelled.
* `Date.now()` and `Math.random()` are inputs: every call that reads them takes
  an `Env` holding the readings. No relation between readings is assumed.
* A `Map` is an association list in insertion order with unique keys.
* A method that assigns to `this` returns the new object next to its result.
-/

namespace Canvas

/-! ## JavaScript values -/

/-- JSON primitives and `undefined`, as they occur in identifier and payload
position of a decoded message. Numbers are integers here: the server copies and
compares these values and tests their truthiness, and does no arithmetic on them. -/
inductive JsVal where
  | undefined
  | null
  | bool (b : Bool)
  | num (n : Int)
  | str (s : String)
  deriving DecidableEq, Repr, Inhabited

/-- Truthiness as used by `!x`, `x && y` and `x || y`. -/
def JsVal.truthy : JsVal → Bool
  | .undefined => false
  | .null => false
  | .bool b => b
  | .num n => decide (n ≠ 0)
  | .str s => decide (s ≠ "")

/-- The expression `a || b`. -/
def JsVal.or (a b : JsVal) : JsVal :=
  if a.truthy then a else b

/-- Readings of the clock and of the random source taken while one call runs:
`tRoom` in the `Room` constructor, `tState` in the `DrawingState` constructor,
`tId` and `rnd` in the identifier template, `tStamp` in the timestamp default. -/
structure Env where
  tRoom : Nat
  tState : Nat
  tId : Nat
  rnd : Nat
  tStamp : Nat
  deriving DecidableEq, Repr, Inhabited

/-! ## Array helpers -/

/-- The call `xs.slice(0, e)` for an integer `e`: a negative end counts from the
end of the array, and the end is clamped to the array bounds. -/
def jsSlice0 {α : Type} (xs : List α) (e : Int) : List α :=
  let len : Int := xs.length
  let k : Int := if e < 0 then max (len + e) 0 else min e len
  xs.take k.toNat

/-- The expression `xs[i]` for an integer `i`; `none` stands for `undefined`. -/
def jsIndex {α : Type} (xs : List α) (i : Int) : Option α :=
  if 0 ≤ i then xs[i.toNat]? else none

/-! ## Actions -/

/-- The `id` given to a stored action: `stamped t r` stands for the template
string made of `Date.now()`, an underscore and `Math.random()`; `cleared t`
stands for the string `clear_` followed by `Date.now()`. -/
inductive ActionId where
  | stamped (now : Nat) (rnd : Nat)
  | cleared (now : Nat)
  deriving DecidableEq, Repr, Inhabited

/-- The object literal passed to `recordAction` (built in `handleDraw`). -/
structure ActionInput where
  type : String
  userId : JsVal
  fromX : JsVal
  fromY : JsVal
  toX : JsVal
  toY : JsVal
  color : JsVal
  width : JsVal
  tool : JsVal
  timestamp : JsVal
  deriving DecidableEq, Repr, Inhabited

/-- One element of `DrawingState.actions`. For a clear action the stroke fields
are absent, which is `undefined` here. -/
structure Action where
  type : String
  userId : JsVal
  fromX : JsVal
  fromY : JsVal
  toX : JsVal
  toY : JsVal
  color : JsVal
  width : JsVal
  tool : JsVal
  id : ActionId
  timestamp : JsVal
  deriving DecidableEq, Repr, Inhabited

/-- The object pushed by `recordAction`: the spread of `action`, then `id`, then
`timestamp: action.timestamp || Date.now()`. -/
def Action.ofInput (a : ActionInput) (env : Env) : Action :=
  { type := a.type, userId := a.userId, fromX := a.fromX, fromY := a.fromY,
    toX := a.toX, toY := a.toY, color := a.color, width := a.width, tool := a.tool,
    id := ActionId.stamped env.tId env.rnd,
    timestamp := a.timestamp.or (JsVal.num env.tStamp) }

/-- The object pushed by `clear`. -/
def Action.clearAction (env : Env) : Action :=
  { type := "clear", userId := .undefined, fromX := .undefined, fromY := .undefined,
    toX := .undefined, toY := .undefined, color := .undefined, width := .undefined,
    tool := .undefined,
    id := ActionId.cleared env.tId,
    timestamp := JsVal.num env.tStamp }

/-! ## DrawingState -/

/-- The fields of class `DrawingState`. -/
structure DrawingState where
  roomId : JsVal
  actions : List Action
  historyIndex : Int
  maxHistorySize : Nat
  lastCanvasSnapshot : JsVal
  createdAt : Nat
  deriving DecidableEq, Repr, Inhabited

/-- Result object of `recordAction`. -/
structure RecordResult where
  actionId : ActionId
  historyIndex : Int
  totalActions : Nat
  deriving DecidableEq, Repr

/-- Result object of `undo` and of `redo`. -/
structure StepResult where
  success : Bool
  historyIndex : Int
  actionCount : Nat
  deriving DecidableEq, Repr

/-- Result object of `clear`. -/
structure ClearResult where
  historyIndex : Int
  actionCount : Nat
  deriving DecidableEq, Repr

namespace DrawingState

/-- The constructor `new DrawingState(roomId)`. -/
def new (roomId : JsVal) (now : Nat) : DrawingState :=
  { roomId := roomId, actions := [], historyIndex := -1, maxHistorySize := 100,
    lastCanvasSnapshot := .null, createdAt := now }

/-- The truncation at the head of `recordAction` and of `clear`. -/
def truncated (s : DrawingState) : List Action :=
  if s.historyIndex < (s.actions.length : Int) - 1 then
    jsSlice0 s.actions (s.historyIndex + 1)
  else s.actions

/-- The part shared by `recordAction` and `clear`: truncate, push `a`, advance
the index, and shift when the size bound is exceeded. -/
def pushAction (s : DrawingState) (a : Action) : DrawingState :=
  let pushed := s.truncated ++ [a]
  let idx := s.historyIndex + 1
  if pushed.length > s.maxHistorySize then
    { s with actions := pushed.tail, historyIndex := idx - 1 }
  else
    { s with actions := pushed, historyIndex := idx }

/-- The method `recordAction(action)`. The result is `none` when the final
`this.actions[this.historyIndex].id` reads a property of `undefined` and throws;
the assignments made before that point stay. -/
def recordAction (s : DrawingState) (action : ActionInput) (env : Env) :
    Option RecordResult × DrawingState :=
  let s1 := s.pushAction (Action.ofInput action env)
  ((jsIndex s1.actions s1.historyIndex).map fun a =>
      { actionId := a.id, historyIndex := s1.historyIndex, totalActions := s1.actions.length },
   s1)

/-- The method `undo()`. -/
def undo (s : DrawingState) : StepResult × DrawingState :=
  if s.historyIndex > 0 then
    let s1 := { s with historyIndex := s.historyIndex - 1 }
    ({ success := true, historyIndex := s1.historyIndex, actionCount := s1.actions.length }, s1)
  else
    ({ success := false, historyIndex := s.historyIndex, actionCount := s.actions.length }, s)

/-- The method `redo()`. -/
def redo (s : DrawingState) : StepResult × DrawingState :=
  if s.historyIndex < (s.actions.length : Int) - 1 then
    let s1 := { s with historyIndex := s.historyIndex + 1 }
    ({ success := true, historyIndex := s1.historyIndex, actionCount := s1.actions.length }, s1)
  else
    ({ success := false, historyIndex := s.historyIndex, actionCount := s.actions.length }, s)

/-- The method `clear()`. -/
def clear (s : DrawingState) (env : Env) : ClearResult × DrawingState :=
  let s1 := s.pushAction (Action.clearAction env)
  ({ historyIndex := s1.historyIndex, actionCount := s1.actions.length }, s1)

/-- The object after `a` is pushed at the end of the list without truncation and
without a shift; the index moves to the new last position. -/
def appended (s : DrawingState) (a : Action) : DrawingState :=
  { s with actions := s.actions ++ [a], historyIndex := (s.actions.length : Int) }

/-- The method `getCurrentActionSequence()`, with the object after the call. -/
def getCurrentActionSequence (s : DrawingState) : List Action × DrawingState :=
  (jsSlice0 s.actions (s.historyIndex + 1), s)

/-- The method `getHistoryIndex()`. -/
def getHistoryIndex (s : DrawingState) : Int := s.historyIndex

/-- The method `getActionCount()`. -/
def getActionCount (s : DrawingState) : Nat := s.actions.length

end DrawingState

/-- One call of a mutating method of `DrawingState`. -/
inductive HistoryOp where
  | recordAction (action : ActionInput) (env : Env)
  | undo
  | redo
  | clear (env : Env)
  deriving DecidableEq, Repr

namespace DrawingState

/-- The object after one call. -/
def applyOp (s : DrawingState) : HistoryOp → DrawingState
  | .recordAction a env => (s.recordAction a env).2
  | .undo => s.undo.2
  | .redo => s.redo.2
  | .clear env => (s.clear env).2

/-- The object after a sequence of calls, first call first. -/
def runOps (s : DrawingState) (ops : List HistoryOp) : DrawingState :=
  ops.foldl applyOp s

/-- The history invariant: the index lies between -1 and the last position, and
the list is no longer than the bound. -/
def Inv (s : DrawingState) : Prop :=
  -1 ≤ s.historyIndex ∧ s.historyIndex < (s.actions.length : Int) ∧
    s.actions.length ≤ s.maxHistorySize

instance (s : DrawingState) : Decidable s.Inv := by
  unfold Inv; infer_instance

/-- A state is reachable when some sequence of calls on a fresh object yields it. -/
def Reachable (s : DrawingState) : Prop :=
  ∃ (roomId : JsVal) (now : Nat) (ops : List HistoryOp), s = (new roomId now).runOps ops

end DrawingState

/-! ## Maps -/

/-- The call `m.get(k)`; `none` stands for `undefined`. -/
def mapGet {κ ν : Type} [DecidableEq κ] : List (κ × ν) → κ → Option ν
  | [], _ => none
  | (k1, v) :: rest, k => if k1 = k then some v else mapGet rest k

/-- The call `m.set(k, v)`: an existing key keeps its position, a new key goes
to the end. -/
def mapSet {κ ν : Type} [DecidableEq κ] : List (κ × ν) → κ → ν → List (κ × ν)
  | [], k, v => [(k, v)]
  | (k1, v1) :: rest, k, v =>
    if k1 = k then (k, v) :: rest else (k1, v1) :: mapSet rest k v

/-- The call `m.delete(k)`. -/
def mapDelete {κ ν : Type} [DecidableEq κ] (m : List (κ × ν)) (k : κ) : List (κ × ν) :=
  m.filter fun p => decide (p.1 ≠ k)

/-! ## Connections, rooms and messages -/

/-- A connection stands for the closure that `wss.on("connection")` creates: it
identifies both the `clientInfo` object and its socket `ws`. -/
abbrev ConnId := Nat

/-- The `clientInfo` object of one connection. The field `wsOpen` stands for
`ws.readyState === WebSocket.OPEN`; the socket itself is always present. The
field `wsClosing` says that the closing handshake of the socket has begun and
its `close` event has not been delivered yet: the socket is then in the state
`CLOSING` and holds its pending close timer, a circular structure on which
`JSON.stringify` throws. -/
structure ClientInfo where
  wsOpen : Bool
  wsClosing : Bool
  userId : JsVal
  roomId : JsVal
  cursor : JsVal × JsVal
  deriving DecidableEq, Repr, Inhabited

/-- The `clientInfo` object as the connection handler creates it. -/
def ClientInfo.initial : ClientInfo :=
  { wsOpen := true, wsClosing := false, userId := .null, roomId := .null,
    cursor := (.num 0, .num 0) }

/-- The fields of class `Room`. A value of `users` is a reference to a
`clientInfo` object, which is the connection that owns it. -/
structure Room where
  roomId : JsVal
  users : List (JsVal × ConnId)
  createdAt : Nat
  deriving DecidableEq, Repr, Inhabited

/-- A decoded inbound message: the properties that the server reads. A property
that is absent is `undefined`. -/
structure Message where
  type : JsVal
  userId : JsVal
  roomId : JsVal
  timestamp : JsVal
  fromX : JsVal
  fromY : JsVal
  toX : JsVal
  toY : JsVal
  color : JsVal
  width : JsVal
  tool : JsVal
  x : JsVal
  y : JsVal
  deriving DecidableEq, Repr, Inhabited

/-- The data of one `message` event: `undecodable` stands for text on which
`JSON.parse` throws and for the text `null`, after which reading `message.type`
throws; both end in the `catch` block. Every other decoded value is a `Message`. -/
inductive Inbound where
  | undecodable
  | decoded (m : Message)
  deriving DecidableEq, Repr, Inhabited

/-- The object returned by `getCanvasState`; `imageData` is always `null`. -/
structure CanvasState where
  actions : List Action
  historyIndex : Int
  deriving DecidableEq, Repr, Inhabited

/-- A `clientInfo` object as it appears in the `users` array of a `joined`
message. The serialised property `ws` is left out: no code of the client reads
it. Whether the socket can be serialised at all is decided in `handleJoin`. -/
structure UserView where
  userId : JsVal
  roomId : JsVal
  cursor : JsVal × JsVal
  deriving DecidableEq, Repr, Inhabited

/-- The messages that the server sends, one constructor for each object literal
passed to `JSON.stringify`. -/
inductive OutMsg where
  | joined (userId roomId : JsVal) (users : List UserView) (canvasState : CanvasState)
  | userJoined (userId timestamp : JsVal)
  | draw (userId fromX fromY toX toY color width tool timestamp : JsVal)
  | cursor (userId x y timestamp : JsVal)
  | undo (userId historyStep timestamp : JsVal)
  | redo (userId historyStep timestamp : JsVal)
  | clear (userId timestamp : JsVal)
  | canvasSync (canvasState : CanvasState) (timestamp : JsVal)
  | userLeft (userId : JsVal)
  | pong
  | error (error : String)
  deriving DecidableEq, Repr, Inhabited

/-- The canvas state that a message carries, if it carries one. -/
def OutMsg.canvasState? : OutMsg → Option CanvasState
  | .joined _ _ _ cs => some cs
  | .canvasSync cs _ => some cs
  | _ => none

/-- One call of `ws.send`: the connection whose socket is written to, and the
message. -/
structure Send where
  dest : ConnId
  msg : OutMsg
  deriving DecidableEq, Repr, Inhabited

/-- Reading the property `historyStep` of the result of `undo` or `redo`. The
result object has the properties `success`, `historyIndex` and `actionCount`
only, so the value is `undefined`. -/
def StepResult.historyStep (_ : StepResult) : JsVal := .undefined

namespace Room

/-- The constructor `new Room(roomId)`. -/
def new (roomId : JsVal) (now : Nat) : Room :=
  { roomId := roomId, users := [], createdAt := now }

/-- The method `addUser(userId, clientInfo)`. -/
def addUser (room : Room) (userId : JsVal) (c : ConnId) : Room :=
  { room with users := mapSet room.users userId c }

/-- The method `removeUser(userId)`. -/
def removeUser (room : Room) (userId : JsVal) : Room :=
  { room with users := mapDelete room.users userId }

/-- The method `getUsers()`: the values in insertion order. -/
def getUsers (room : Room) : List ConnId := room.users.map Prod.snd

/-- The method `getUserCount()`. -/
def getUserCount (room : Room) : Nat := room.users.length

/-- The method `broadcast(message, senderUserId)`; `clientOf` reads the current
`clientInfo` object of a connection. The default of `senderUserId` is `null`. -/
def broadcast (room : Room) (clientOf : ConnId → ClientInfo) (message : OutMsg)
    (senderUserId : JsVal) : List Send :=
  room.users.filterMap fun p =>
    if senderUserId.truthy && decide (p.1 = senderUserId) then none
    else if (clientOf p.2).wsOpen then some { dest := p.2, msg := message }
    else none

/-- The method `broadcastAll(message)`. -/
def broadcastAll (room : Room) (clientOf : ConnId → ClientInfo) (message : OutMsg) :
    List Send :=
  room.users.filterMap fun p =>
    if (clientOf p.2).wsOpen then some { dest := p.2, msg := message } else none

end Room

namespace RoomManager

/-- The method `joinRoom(roomId, clientInfo)`: the room returned and the registry
after the call. The connection `c` owns `clientInfo`, whose `userId` is `userId`. -/
def joinRoom (rooms : List (JsVal × Room)) (roomId : JsVal) (userId : JsVal) (c : ConnId)
    (now : Nat) : Room × List (JsVal × Room) :=
  match mapGet rooms roomId with
  | some room => (room.addUser userId c, mapSet rooms roomId (room.addUser userId c))
  | none =>
    ((Room.new roomId now).addUser userId c,
     mapSet rooms roomId ((Room.new roomId now).addUser userId c))

/-- The method `getRoom(roomId)`. -/
def getRoom (rooms : List (JsVal × Room)) (roomId : JsVal) : Option Room :=
  mapGet rooms roomId

/-- The method `deleteRoom(roomId)`. -/
def deleteRoom (rooms : List (JsVal × Room)) (roomId : JsVal) : List (JsVal × Room) :=
  mapDelete rooms roomId

end RoomManager

namespace DrawingStateManager

/-- The method `getOrCreateState(roomId)`: the state and the map after the call. -/
def getOrCreateState (states : List (JsVal × DrawingState)) (roomId : JsVal) (now : Nat) :
    DrawingState × List (JsVal × DrawingState) :=
  match mapGet states roomId with
  | some s => (s, states)
  | none => (DrawingState.new roomId now, mapSet states roomId (DrawingState.new roomId now))

/-- The method `recordAction(roomId, action)`. -/
def recordAction (states : List (JsVal × DrawingState)) (roomId : JsVal)
    (action : ActionInput) (env : Env) : Option RecordResult × List (JsVal × DrawingState) :=
  ((((getOrCreateState states roomId env.tState).1).recordAction action env).1,
   mapSet (getOrCreateState states roomId env.tState).2 roomId
     (((getOrCreateState states roomId env.tState).1).recordAction action env).2)

/-- The method `undo(roomId)`. -/
def undo (states : List (JsVal × DrawingState)) (roomId : JsVal) (env : Env) :
    StepResult × List (JsVal × DrawingState) :=
  (((getOrCreateState states roomId env.tState).1).undo.1,
   mapSet (getOrCreateState states roomId env.tState).2 roomId
     ((getOrCreateState states roomId env.tState).1).undo.2)

/-- The method `redo(roomId)`. -/
def redo (states : List (JsVal × DrawingState)) (roomId : JsVal) (env : Env) :
    StepResult × List (JsVal × DrawingState) :=
  (((getOrCreateState states roomId env.tState).1).redo.1,
   mapSet (getOrCreateState states roomId env.tState).2 roomId
     ((getOrCreateState states roomId env.tState).1).redo.2)

/-- The method `clear(roomId)`. -/
def clear (states : List (JsVal × DrawingState)) (roomId : JsVal) (env : Env) :
    ClearResult × List (JsVal × DrawingState) :=
  ((((getOrCreateState states roomId env.tState).1).clear env).1,
   mapSet (getOrCreateState states roomId env.tState).2 roomId
     (((getOrCreateState states roomId env.tState).1).clear env).2)

/-- The method `getCanvasState(roomId)`. -/
def getCanvasState (states : List (JsVal × DrawingState)) (roomId : JsVal) (now : Nat) :
    CanvasState × List (JsVal × DrawingState) :=
  ({ actions := ((getOrCreateState states roomId now).1).getCurrentActionSequence.1,
     historyIndex := ((getOrCreateState states roomId now).1).getHistoryIndex },
   (getOrCreateState states roomId now).2)

/-- The method `deleteState(roomId)`. No function of the server calls it. -/
def deleteState (states : List (JsVal × DrawingState)) (roomId : JsVal) :
    List (JsVal × DrawingState) :=
  mapDelete states roomId

end DrawingStateManager

/-! ## The server -/

/-- The mutable state of the server process: the room registry
(`roomManager.rooms`), the histories (`drawingStateManager.states`) and the
`clientInfo` objects of the connections made so far. -/
structure ServerState where
  rooms : List (JsVal × Room)
  states : List (JsVal × DrawingState)
  clients : List (ConnId × ClientInfo)
  deriving DecidableEq, Repr, Inhabited

/-- What running a handler did: the state after it, the calls of `ws.send` in
order, and whether it ended by throwing. -/
structure Handled where
  state : ServerState
  sends : List Send
  threw : Bool
  deriving DecidableEq, Repr, Inhabited

namespace ServerState

/-- The state at process start. -/
def init : ServerState := { rooms := [], states := [], clients := [] }

/-- The `clientInfo` object of a connection; a connection that has had no event
yet has the object that the connection handler creates. -/
def clientOf (st : ServerState) (c : ConnId) : ClientInfo :=
  (mapGet st.clients c).getD ClientInfo.initial

/-- The serialised form of the `clientInfo` object of a connection. -/
def viewOf (st : ServerState) (c : ConnId) : UserView :=
  { userId := (st.clientOf c).userId, roomId := (st.clientOf c).roomId,
    cursor := (st.clientOf c).cursor }

end ServerState

/-- A handler that returns at once. -/
def Handled.skip (st : ServerState) : Handled :=
  { state := st, sends := [], threw := false }

/-- The stroke object that `handleDraw` passes to `recordAction`. -/
def Message.toActionInput (message : Message) : ActionInput :=
  { type := "draw", userId := message.userId, fromX := message.fromX, fromY := message.fromY,
    toX := message.toX, toY := message.toY, color := message.color, width := message.width,
    tool := message.tool, timestamp := message.timestamp }

/-- The object that `handleDraw` broadcasts. -/
def Message.toDrawMsg (message : Message) : OutMsg :=
  .draw message.userId message.fromX message.fromY message.toX message.toY message.color
    message.width message.tool message.timestamp

/-- The `clientInfo` objects that `handleJoin` puts into the `users` array of the
`joined` reply: `room.getUsers().filter(u => u.userId !== clientInfo.userId)`,
read after the assignments to `clientInfo` and after `joinRoom`. -/
def joinedUsers (st1 : ServerState) (room : Room) (userId : JsVal) : List ConnId :=
  room.getUsers.filter fun u => decide ((st1.clientOf u).userId ≠ userId)

/-- The function `handleJoin(message, clientInfo)`. The `joined` reply is built
by `JSON.stringify` from the `clientInfo` objects of the other participants,
sockets included; when one of these sockets is in its closing handshake the call
throws before anything is sent, so the reply and the broadcast after it are
skipped. The assignments, `joinRoom` and `getCanvasState` have run by then. -/
def handleJoin (st : ServerState) (c : ConnId) (message : Message) (env : Env) : Handled :=
  let ci : ClientInfo :=
    { st.clientOf c with userId := message.userId, roomId := message.roomId }
  let joined := RoomManager.joinRoom st.rooms ci.roomId ci.userId c env.tRoom
  let canvas := DrawingStateManager.getCanvasState st.states ci.roomId env.tState
  let st1 : ServerState :=
    { rooms := joined.2, states := canvas.2, clients := mapSet st.clients c ci }
  { state := st1,
    sends :=
      if (joinedUsers st1 joined.1 ci.userId).any fun u => (st1.clientOf u).wsClosing then []
      else
        { dest := c,
          msg := .joined ci.userId ci.roomId ((joinedUsers st1 joined.1 ci.userId).map st1.viewOf)
            canvas.1 }
        :: joined.1.broadcast st1.clientOf (.userJoined ci.userId message.timestamp) ci.userId,
    threw := (joinedUsers st1 joined.1 ci.userId).any fun u => (st1.clientOf u).wsClosing }

/-- The function `handleDraw(message, clientInfo)`. -/
def handleDraw (st : ServerState) (c : ConnId) (message : Message) (env : Env) : Handled :=
  if !(st.clientOf c).roomId.truthy then Handled.skip st
  else
    match RoomManager.getRoom st.rooms (st.clientOf c).roomId with
    | none => Handled.skip st
    | some room =>
      let rec1 := DrawingStateManager.recordAction st.states (st.clientOf c).roomId
        message.toActionInput env
      let st1 : ServerState := { st with states := rec1.2 }
      match rec1.1 with
      | none => { state := st1, sends := [], threw := true }
      | some _ =>
        { state := st1,
          sends := room.broadcast st1.clientOf message.toDrawMsg message.userId,
          threw := false }

/-- The function `handleCursor(message, clientInfo)`. -/
def handleCursor (st : ServerState) (c : ConnId) (message : Message) : Handled :=
  if !(st.clientOf c).roomId.truthy then Handled.skip st
  else
    let st1 : ServerState :=
      { st with clients :=
          mapSet st.clients c { st.clientOf c with cursor := (message.x, message.y) } }
    match RoomManager.getRoom st1.rooms (st1.clientOf c).roomId with
    | none => Handled.skip st1
    | some room =>
      { state := st1,
        sends := room.broadcast st1.clientOf
          (.cursor message.userId message.x message.y message.timestamp) message.userId,
        threw := false }

/-- The function `handleUndo(message, clientInfo)`. -/
def handleUndo (st : ServerState) (c : ConnId) (message : Message) (env : Env) : Handled :=
  if !(st.clientOf c).roomId.truthy then Handled.skip st
  else
    match RoomManager.getRoom st.rooms (st.clientOf c).roomId with
    | none => Handled.skip st
    | some room =>
      let undoState := DrawingStateManager.undo st.states (st.clientOf c).roomId env
      let st1 : ServerState := { st with states := undoState.2 }
      { state := st1,
        sends := room.broadcast st1.clientOf
          (.undo message.userId undoState.1.historyStep message.timestamp) .null,
        threw := false }

/-- The function `handleRedo(message, clientInfo)`. -/
def handleRedo (st : ServerState) (c : ConnId) (message : Message) (env : Env) : Handled :=
  if !(st.clientOf c).roomId.truthy then Handled.skip st
  else
    match RoomManager.getRoom st.rooms (st.clientOf c).roomId with
    | none => Handled.skip st
    | some room =>
      let redoState := DrawingStateManager.redo st.states (st.clientOf c).roomId env
      let st1 : ServerState := { st with states := redoState.2 }
      { state := st1,
        sends := room.broadcast st1.clientOf
          (.redo message.userId redoState.1.historyStep message.timestamp) .null,
        threw := false }

/-- The function `handleClear(message, clientInfo)`. -/
def handleClear (st : ServerState) (c : ConnId) (message : Message) (env : Env) : Handled :=
  if !(st.clientOf c).roomId.truthy then Handled.skip st
  else
    match RoomManager.getRoom st.rooms (st.clientOf c).roomId with
    | none => Handled.skip st
    | some room =>
      let st1 : ServerState :=
        { st with states := (DrawingStateManager.clear st.states (st.clientOf c).roomId env).2 }
      { state := st1,
        sends := room.broadcast st1.clientOf (.clear message.userId message.timestamp) .null,
        threw := false }

/-- The function `handleSyncRequest(message, clientInfo)`. -/
def handleSyncRequest (st : ServerState) (c : ConnId) (message : Message) (env : Env) :
    Handled :=
  if !(st.clientOf c).roomId.truthy then Handled.skip st
  else
    let canvas := DrawingStateManager.getCanvasState st.states (st.clientOf c).roomId env.tState
    { state := { st with states := canvas.2 },
      sends := [{ dest := c, msg := .canvasSync canvas.1 message.timestamp }],
      threw := false }

/-- The function `handleDisconnect(clientInfo)`. -/
def handleDisconnect (st : ServerState) (c : ConnId) : Handled :=
  match RoomManager.getRoom st.rooms (st.clientOf c).roomId with
  | none => Handled.skip st
  | some room =>
    let room1 := room.removeUser (st.clientOf c).userId
    if room1.getUsers.length > 0 then
      { state := { st with rooms := mapSet st.rooms (st.clientOf c).roomId room1 },
        sends := room1.broadcast st.clientOf (.userLeft (st.clientOf c).userId) .null,
        threw := false }
    else
      { state := { st with rooms := RoomManager.deleteRoom st.rooms (st.clientOf c).roomId },
        sends := [],
        threw := false }

/-- The function `handleMessage(message, clientInfo)`: the `switch` on
`message.type`. The default case only logs. -/
def handleMessage (st : ServerState) (c : ConnId) (message : Message) (env : Env) : Handled :=
  if message.type = .str "join" then handleJoin st c message env
  else if message.type = .str "draw" then handleDraw st c message env
  else if message.type = .str "cursor" then handleCursor st c message
  else if message.type = .str "undo" then handleUndo st c message env
  else if message.type = .str "redo" then handleRedo st c message env
  else if message.type = .str "clear" then handleClear st c message env
  else if message.type = .str "sync-request" then handleSyncRequest st c message env
  else if message.type = .str "ping" then
    { state := st, sends := [{ dest := c, msg := .pong }], threw := false }
  else Handled.skip st

/-- The reply sent from the `catch` block of the `message` listener. -/
def invalidFormat (c : ConnId) : Send :=
  { dest := c, msg := .error "Invalid message format" }

/-- The listener `ws.on("message")`: decode, dispatch, and on a throw send the
error reply. -/
def onMessage (st : ServerState) (c : ConnId) (data : Inbound) (env : Env) :
    ServerState × List Send :=
  match data with
  | .undecodable => (st, [invalidFormat c])
  | .decoded message =>
    if (handleMessage st c message env).threw then
      ((handleMessage st c message env).state,
       (handleMessage st c message env).sends ++ [invalidFormat c])
    else
      ((handleMessage st c message env).state, (handleMessage st c message env).sends)

/-- The socket of a connection has reached the state `CLOSED`: it is no longer
open, and its close timer has been cleared. -/
def markNotOpen (st : ServerState) (c : ConnId) : ServerState :=
  { st with clients :=
      mapSet st.clients c { st.clientOf c with wsOpen := false, wsClosing := false } }

/-- The socket of a connection enters its closing handshake: it leaves the state
`OPEN` for the state `CLOSING` and its close timer is set. -/
def markClosing (st : ServerState) (c : ConnId) : ServerState :=
  { st with clients :=
      mapSet st.clients c { st.clientOf c with wsOpen := false, wsClosing := true } }

/-- The listener `ws.on("close")`. The socket is in the state `CLOSED` when the
listener runs. -/
def onClose (st : ServerState) (c : ConnId) : ServerState × List Send :=
  if ((markNotOpen st c).clientOf c).roomId.truthy
      && ((markNotOpen st c).clientOf c).userId.truthy then
    ((handleDisconnect (markNotOpen st c) c).state, (handleDisconnect (markNotOpen st c) c).sends)
  else (markNotOpen st c, [])

/-- The events that the server reacts to: a `message` event with its data and
the readings it takes, a `close` event, and a socket that leaves the state
`OPEN` before its `close` event is delivered, which is the start of its closing
handshake. -/
inductive Event where
  | message (c : ConnId) (data : Inbound) (env : Env)
  | close (c : ConnId)
  | notOpen (c : ConnId)
  deriving DecidableEq, Repr, Inhabited

/-- One completely handled event: the state after it and the messages sent. -/
def step (st : ServerState) : Event → ServerState × List Send
  | .message c data env => onMessage st c data env
  | .close c => onClose st c
  | .notOpen c => (markClosing st c, [])

/-- The state after a sequence of events, first event first. -/
def runEvents (st : ServerState) (evs : List Event) : ServerState :=
  evs.foldl (fun s ev => (step s ev).1) st

/-- The state after a sequence of events together with all the messages sent, in
the order of the calls of `ws.send`. -/
def runTrace (st : ServerState) : List Event → ServerState × List Send
  | [] => (st, [])
  | ev :: rest =>
    ((runTrace (step st ev).1 rest).1, (step st ev).2 ++ (runTrace (step st ev).1 rest).2)

/-- A server state is reachable when some sequence of events leads to it from
the state at process start. -/
def ServerState.Reachable (st : ServerState) : Prop :=
  ∃ evs : List Event, st = runEvents ServerState.init evs

/-- The connection `c` is registered as a participant in some room of the
registry. -/
def ServerState.registered (st : ServerState) (c : ConnId) : Prop :=
  ∃ p ∈ st.rooms, ∃ q ∈ p.2.users, q.2 = c

instance (st : ServerState) (c : ConnId) : Decidable (st.registered c) := by
  unfold ServerState.registered; infer_instance

/-- The connection `c` is registered nowhere but in the room with key `roomId`
under the key `userId`. -/
def ServerState.registeredOnlyAs (st : ServerState) (c : ConnId) (roomId userId : JsVal) :
    Prop :=
  ∀ p ∈ st.rooms, ∀ q ∈ p.2.users, q.2 = c → p.1 = roomId ∧ q.1 = userId

/-- The keys of the rooms of the registry in which the connection `c` is
registered as a participant, in the order of the registry. -/
def ServerState.roomsOf (st : ServerState) (c : ConnId) : List JsVal :=
  (st.rooms.filter fun p => p.2.users.any fun q => decide (q.2 = c)).map Prod.fst

/-- No two entries of the registry have the same key. -/
def ServerState.RoomKeysUnique (st : ServerState) : Prop :=
  (st.rooms.map Prod.fst).Nodup

/-- The event is a `message` event of connection `c` whose decoded type is
`join`. -/
def Event.isJoinOf (c : ConnId) : Event → Bool
  | .message c1 (.decoded m) _ => decide (c1 = c) && decide (m.type = .str "join")
  | _ => false

/-- Every history held by the manager satisfies the history invariant and has
the size bound 100. -/
def ServerState.HistoriesOk (st : ServerState) : Prop :=
  ∀ p ∈ st.states, p.2.Inv ∧ p.2.maxHistorySize = 100

/-- Every room in the registry has at least one participant. -/
def ServerState.RoomsInhabited (st : ServerState) : Prop :=
  ∀ p ∈ st.rooms, 1 ≤ p.2.getUserCount

/-! ## Concrete inputs used in scenarios -/

/-- Clock and random readings for the scenarios. -/
def scenarioEnv : Env := { tRoom := 1, tState := 2, tId := 3, rnd := 4, tStamp := 5 }

/-- A message of the given type from the given user for the given room, with the
stroke from (0,0) to (10,10). -/
def scenarioMsg (type userId roomId : String) : Message :=
  { type := .str type, userId := .str userId, roomId := .str roomId, timestamp := .num 7,
    fromX := .num 0, fromY := .num 0, toX := .num 10, toY := .num 10,
    color := .str "#000000", width := .num 2, tool := .str "brush",
    x := .undefined, y := .undefined }

/-- The event that connection `c` delivers the message `scenarioMsg`. -/
def scenarioEvent (c : ConnId) (type userId roomId : String) : Event :=
  .message c (.decoded (scenarioMsg type userId roomId)) scenarioEnv

/-- The stroke of `scenarioMsg` as `recordAction` stores it. -/
def scenarioStroke (userId roomId : String) : Action :=
  Action.ofInput (scenarioMsg "draw" userId roomId).toActionInput scenarioEnv

/-- A joins room r1 on connection 1 and draws one stroke. -/
def afterJoinDraw : ServerState :=
  runEvents ServerState.init [scenarioEvent 1 "join" "A" "r1", scenarioEvent 1 "draw" "A" "r1"]

/-- A, B and C join room r1 on connections 1, 2 and 3. -/
def threeInRoom : ServerState :=
  runEvents ServerState.init
    [scenarioEvent 1 "join" "A" "r1", scenarioEvent 2 "join" "B" "r1",
     scenarioEvent 3 "join" "C" "r1"]

/-- The room r1 in `threeInRoom`. -/
def roomOfThree : Room :=
  { roomId := .str "r1", users := [(.str "A", 1), (.str "B", 2), (.str "C", 3)],
    createdAt := 1 }

/-- A joins the room whose roomId is the empty string, on connection 1. -/
def joinedEmptyRoomId : ServerState :=
  runEvents ServerState.init [scenarioEvent 1 "join" "A" ""]

/-- A and B join the room whose roomId is the empty string, on connections 1
and 2. -/
def twoInEmptyRoomId : ServerState :=
  runEvents ServerState.init [scenarioEvent 1 "join" "A" "", scenarioEvent 2 "join" "B" ""]

/-- A joins room r1, draws one stroke, and the connection closes. -/
def afterLastLeft : ServerState :=
  runEvents ServerState.init
    [scenarioEvent 1 "join" "A" "r1", scenarioEvent 1 "draw" "A" "r1", .close 1]

/-- A history with three actions whose index was moved back to the first one:
three records followed by two undos on a fresh object. -/
def threeRecordsTwoUndos : DrawingState :=
  (DrawingState.new (.str "r1") 0).runOps
    [.recordAction (scenarioMsg "draw" "A" "r1").toActionInput scenarioEnv,
     .recordAction (scenarioMsg "draw" "A" "r1").toActionInput scenarioEnv,
     .recordAction (scenarioMsg "draw" "A" "r1").toActionInput scenarioEnv,
     .undo, .undo]

/-- A history with three actions and the index on the last one: three records on
a fresh object. -/
def threeRecords : DrawingState :=
  (DrawingState.new (.str "r1") 0).runOps
    [.recordAction (scenarioMsg "draw" "A" "r1").toActionInput scenarioEnv,
     .recordAction (scenarioMsg "draw" "A" "r1").toActionInput scenarioEnv,
     .recordAction (scenarioMsg "draw" "A" "r1").toActionInput scenarioEnv]

/-- A history that holds 100 actions with the index on the last one. -/
def fullHistory : DrawingState :=
  { roomId := .str "r1", actions := List.replicate 100 (scenarioStroke "A" "r1"),
    historyIndex := 99, maxHistorySize := 100, lastCanvasSnapshot := .null, createdAt := 0 }

/-- A joins room r1 on connection 1 and draws two strokes. -/
def afterJoinTwoDraws : ServerState :=
  runEvents ServerState.init
    [scenarioEvent 1 "join" "A" "r1", scenarioEvent 1 "draw" "A" "r1",
     scenarioEvent 1 "draw" "A" "r1"]

/-- A and B join room r1 on connections 1 and 2, and A draws one stroke. -/
def twoAuthors : ServerState :=
  runEvents ServerState.init
    [scenarioEvent 1 "join" "A" "r1", scenarioEvent 2 "join" "B" "r1",
     scenarioEvent 1 "draw" "A" "r1"]

/-- The room r1 in `twoAuthors`. -/
def roomOfTwo : Room :=
  { roomId := .str "r1", users := [(.str "A", 1), (.str "B", 2)], createdAt := 1 }

/-- The draw message of `scenarioMsg` without a timestamp property. -/
def drawWithoutTimestamp (userId roomId : String) : Message :=
  { scenarioMsg "draw" userId roomId with timestamp := .undefined }

/-- A user with the empty string as userId joins room r1 on connection 1, and B
joins room r1 on connection 2. -/
def emptyUserIdAndB : ServerState :=
  runEvents ServerState.init [scenarioEvent 1 "join" "" "r1", scenarioEvent 2 "join" "B" "r1"]

/-- A joins room r1 and then room r2 on the same connection 1. -/
def joinedTwice : ServerState :=
  runEvents ServerState.init [scenarioEvent 1 "join" "A" "r1", scenarioEvent 1 "join" "A" "r2"]

/-- The message types that the `switch` in `handleMessage` has a case for. -/
def knownTypes : List JsVal :=
  [.str "join", .str "draw", .str "cursor", .str "undo", .str "redo", .str "clear",
   .str "sync-request", .str "ping"]

/-- A join message of user A that has no roomId property. -/
def joinWithoutRoomId : Message :=
  { scenarioMsg "join" "A" "r1" with roomId := .undefined }

/-- A joins room r1 on connection 1, and then a second connection joins room r1
with the same userId A. -/
def sameUserTwice : ServerState :=
  runEvents ServerState.init [scenarioEvent 1 "join" "A" "r1", scenarioEvent 2 "join" "A" "r1"]

/-- A joins room r1 on connection 1, C joins it on connection 3, and then
connection 2 joins room r1 with the userId A. -/
def sameUserTwiceWithC : ServerState :=
  runEvents ServerState.init
    [scenarioEvent 1 "join" "A" "r1", scenarioEvent 3 "join" "C" "r1",
     scenarioEvent 2 "join" "A" "r1"]

/-- A joins room r1 on connection 1, B joins room r2 on connection 2, and B draws
one stroke. -/
def twoRooms : ServerState :=
  runEvents ServerState.init
    [scenarioEvent 1 "join" "A" "r1", scenarioEvent 2 "join" "B" "r2",
     scenarioEvent 2 "draw" "B" "r2"]

/-- A joins room r1 on connection 1 and B joins room r1 on connection 2. -/
def twoInRoom : ServerState :=
  runEvents ServerState.init [scenarioEvent 1 "join" "A" "r1", scenarioEvent 2 "join" "B" "r1"]

/-- A joins room r1 on connection 1, B joins it on connection 2, and then the
socket of A enters its closing handshake. -/
def closingInRoom : ServerState :=
  runEvents ServerState.init
    [scenarioEvent 1 "join" "A" "r1", scenarioEvent 2 "join" "B" "r1", .notOpen 1]

/-! ## The client: WebSocketManager -/

/-- Readings that one call of a client method takes from its surroundings:
`now` is `Date.now()`, `rnd` is the text that `generateUserId` derives from
`Math.random()`. -/
structure ClientEnv where
  now : Nat
  rnd : String
  deriving DecidableEq, Repr, Inhabited

/-- An object literal without properties: every property read gives
`undefined`. -/
def Message.empty : Message :=
  { type := .undefined, userId := .undefined, roomId := .undefined, timestamp := .undefined,
    fromX := .undefined, fromY := .undefined, toX := .undefined, toY := .undefined,
    color := .undefined, width := .undefined, tool := .undefined,
    x := .undefined, y := .undefined }

/-- The fields of class `WebSocketManager` that its methods read to decide what
to do. The field `wsOpen` stands for `this.ws && this.ws.readyState ===
WebSocket.OPEN`. The latency fields and the ping timer are left out; the
callbacks are the ones that `setupWebSocketListeners` installs. -/
structure WebSocketManager where
  wsOpen : Bool
  connected : Bool
  userId : JsVal
  roomId : JsVal
  reconnectAttempts : Nat
  maxReconnectAttempts : Nat
  reconnectDelay : Nat
  messageQueue : List Message
  deriving DecidableEq, Repr, Inhabited

namespace WebSocketManager

/-- The constructor `new WebSocketManager(url)`. -/
def new : WebSocketManager :=
  { wsOpen := false, connected := false, userId := .null, roomId := .null,
    reconnectAttempts := 0, maxReconnectAttempts := 5, reconnectDelay := 2000,
    messageQueue := [] }

/-- The method `generateUserId()`. -/
def generateUserId (env : ClientEnv) : JsVal :=
  .str ("user_" ++ toString env.now ++ "_" ++ env.rnd)

/-- The method `send(message)`: the manager after the call, and the messages
handed to `ws.send` during the call. -/
def send (m : WebSocketManager) (message : Message) : WebSocketManager × List Message :=
  if m.connected && m.wsOpen then (m, [message])
  else ({ m with messageQueue := m.messageQueue ++ [message] }, [])

/-- Consecutive calls of `send`, first call first. -/
def sendAll (m : WebSocketManager) : List Message → WebSocketManager × List Message
  | [] => (m, [])
  | message :: rest =>
    ((sendAll (m.send message).1 rest).1, (m.send message).2 ++ (sendAll (m.send message).1 rest).2)

/-- The loop `while (this.messageQueue.length > 0)` of `handleOpen`, run for at
most `fuel` tests of its condition; `none` when the loop has not ended by then. -/
def flushQueue : Nat → WebSocketManager → Option (WebSocketManager × List Message)
  | 0, _ => none
  | fuel + 1, m =>
    match m.messageQueue with
    | [] => some (m, [])
    | message :: rest =>
      (flushQueue fuel (send { m with messageQueue := rest } message).1).map fun r =>
        (r.1, (send { m with messageQueue := rest } message).2 ++ r.2)

/-- The join request that `handleOpen` builds. -/
def joinRequest (m : WebSocketManager) : Message :=
  { Message.empty with
    type := .str "join", userId := m.userId, roomId := m.roomId.or (.str "default") }

/-- The method `handleOpen()`: the manager after the call and the messages
handed to `ws.send`, in order; `none` when the flush loop has not ended within
`fuel` tests. -/
def handleOpen (m : WebSocketManager) (env : ClientEnv) (fuel : Nat) :
    Option (WebSocketManager × List Message) :=
  (flushQueue fuel { m with connected := true, reconnectAttempts := 0 }).map fun r =>
    let m2 := if r.1.userId.truthy then r.1 else { r.1 with userId := generateUserId env }
    ((m2.send m2.joinRequest).1, r.2 ++ (m2.send m2.joinRequest).2)

/-- The method `scheduleReconnect()`: the delay in milliseconds given to
`setTimeout`, or `none` when no timer is set, and the manager after the call. -/
def scheduleReconnect (m : WebSocketManager) : Option Nat × WebSocketManager :=
  if m.reconnectAttempts < m.maxReconnectAttempts then
    (some (m.reconnectDelay * (m.reconnectAttempts + 1)),
     { m with reconnectAttempts := m.reconnectAttempts + 1 })
  else (none, m)

/-- The method `handleClose()`. -/
def handleClose (m : WebSocketManager) : Option Nat × WebSocketManager :=
  scheduleReconnect { m with connected := false }

/-- The manager after `k` consecutive calls of `scheduleReconnect`. -/
def afterAttempts (m : WebSocketManager) : Nat → WebSocketManager
  | 0 => m
  | k + 1 => (scheduleReconnect (afterAttempts m k)).2

/-- The method `sendDrawing(fromX, fromY, toX, toY, color, width, tool)`. -/
def sendDrawing (m : WebSocketManager) (fromX fromY toX toY color width tool : JsVal)
    (env : ClientEnv) : WebSocketManager × List Message :=
  m.send
    { Message.empty with
      type := .str "draw", userId := m.userId, roomId := m.roomId, fromX := fromX,
      fromY := fromY, toX := toX, toY := toY, color := color, width := width, tool := tool,
      timestamp := .num env.now }

/-- The method `sendUndo()`. -/
def sendUndo (m : WebSocketManager) (env : ClientEnv) : WebSocketManager × List Message :=
  m.send
    { Message.empty with
      type := .str "undo", userId := m.userId, roomId := m.roomId, timestamp := .num env.now }

/-- The method `sendRedo()`. -/
def sendRedo (m : WebSocketManager) (env : ClientEnv) : WebSocketManager × List Message :=
  m.send
    { Message.empty with
      type := .str "redo", userId := m.userId, roomId := m.roomId, timestamp := .num env.now }

/-- The method `sendClear()`. -/
def sendClear (m : WebSocketManager) (env : ClientEnv) : WebSocketManager × List Message :=
  m.send
    { Message.empty with
      type := .str "clear", userId := m.userId, roomId := m.roomId, timestamp := .num env.now }

end WebSocketManager

/-- The property `type` of a message that the server sends, as the object
literal passed to `JSON.stringify` spells it. -/
def OutMsg.type : OutMsg → JsVal
  | .joined _ _ _ _ => .str "joined"
  | .userJoined _ _ => .str "user-joined"
  | .draw _ _ _ _ _ _ _ _ _ => .str "draw"
  | .cursor _ _ _ _ => .str "cursor"
  | .undo _ _ _ => .str "undo"
  | .redo _ _ _ => .str "redo"
  | .clear _ _ => .str "clear"
  | .canvasSync _ _ => .str "canvas-sync"
  | .userLeft _ => .str "user-left"
  | .pong => .str "pong"
  | .error _ => .str "error"

/-- The property `userId` of a message that the server sends; `undefined` when
the literal has none. -/
def OutMsg.userId : OutMsg → JsVal
  | .joined userId _ _ _ => userId
  | .userJoined userId _ => userId
  | .draw userId _ _ _ _ _ _ _ _ => userId
  | .cursor userId _ _ _ => userId
  | .undo userId _ _ => userId
  | .redo userId _ _ => userId
  | .clear userId _ => userId
  | .userLeft userId => userId
  | _ => .undefined

/-- The property `roomId` of a message that the server sends; only the `joined`
literal has one. -/
def OutMsg.roomId : OutMsg → JsVal
  | .joined _ roomId _ _ => roomId
  | _ => .undefined

/-- The branches of the `switch (message.type)` in
`WebSocketManager.handleMessage`: one for each `case`, named after the method
that the case calls, and `unknownType` for the `default` branch, which only
writes a warning to the console. -/
inductive ClientBranch where
  | handleJoined
  | handleDraw
  | handleUserJoined
  | handleUserLeft
  | handleCursor
  | handleRemoteUndo
  | handleRemoteRedo
  | handleCanvasSync
  | handlePong
  | handleMessageError
  | unknownType
  deriving DecidableEq, Repr, Inhabited

/-- The branch that the `switch` in `WebSocketManager.handleMessage` takes for a
value of `message.type`. -/
def WebSocketManager.branchOf (type : JsVal) : ClientBranch :=
  if type = .str "joined" then .handleJoined
  else if type = .str "draw" then .handleDraw
  else if type = .str "user-joined" then .handleUserJoined
  else if type = .str "user-left" then .handleUserLeft
  else if type = .str "cursor" then .handleCursor
  else if type = .str "undo" then .handleRemoteUndo
  else if type = .str "redo" then .handleRemoteRedo
  else if type = .str "canvas-sync" then .handleCanvasSync
  else if type = .str "pong" then .handlePong
  else if type = .str "error" then .handleMessageError
  else .unknownType

/-! ## The client: CanvasManager and the application -/

/-- One paint call on the 2-D context of the canvas element: `line` is the
stroke of `drawLine`, `erase` is `clearRect(x - width / 2, y - width / 2, width,
width)`, `image` is `drawImage` of the image loaded from `src`. -/
inductive Paint where
  | line (fromX fromY toX toY color width : JsVal)
  | erase (x y width : JsVal)
  | image (src : JsVal)
  deriving DecidableEq, Repr, Inhabited

/-- The fields of class `CanvasManager` that the history methods use. The field
`pixels` stands for the content of the canvas element: the paint calls made on
it since it was last blank, oldest first; `getImageData` reads it and
`putImageData` replaces it. -/
structure CanvasManager where
  pixels : List Paint
  history : List (List Paint)
  historyStep : Int
  maxHistorySize : Nat
  deriving DecidableEq, Repr, Inhabited

namespace CanvasManager

/-- The method `saveState()`. -/
def saveState (cm : CanvasManager) : CanvasManager :=
  let history1 :=
    if cm.historyStep < (cm.history.length : Int) - 1 then
      jsSlice0 cm.history (cm.historyStep + 1)
    else cm.history
  let history2 := history1 ++ [cm.pixels]
  let step2 := cm.historyStep + 1
  if history2.length > cm.maxHistorySize then
    { cm with history := history2.tail, historyStep := step2 - 1 }
  else
    { cm with history := history2, historyStep := step2 }

/-- The constructor `new CanvasManager(canvasElement)` on a blank canvas: it
ends with a call of `saveState()`. -/
def new : CanvasManager :=
  saveState { pixels := [], history := [], historyStep := -1, maxHistorySize := 50 }

/-- The method `restoreState(step)`. -/
def restoreState (cm : CanvasManager) (step : Int) : CanvasManager :=
  if 0 ≤ step ∧ step < (cm.history.length : Int) then
    match jsIndex cm.history step with
    | some img => { cm with pixels := img }
    | none => cm
  else cm

/-- The method `undo()`: the returned boolean and the object after the call. -/
def undo (cm : CanvasManager) : Bool × CanvasManager :=
  if cm.historyStep > 0 then
    (true, restoreState { cm with historyStep := cm.historyStep - 1 } (cm.historyStep - 1))
  else (false, cm)

/-- The method `redo()`: the returned boolean and the object after the call. -/
def redo (cm : CanvasManager) : Bool × CanvasManager :=
  if cm.historyStep < (cm.history.length : Int) - 1 then
    (true, restoreState { cm with historyStep := cm.historyStep + 1 } (cm.historyStep + 1))
  else (false, cm)

/-- The method `clear()`. -/
def clear (cm : CanvasManager) : CanvasManager :=
  saveState { cm with pixels := [] }

/-- The method `drawLine(fromX, fromY, toX, toY, color, width)`. -/
def drawLine (cm : CanvasManager) (fromX fromY toX toY color width : JsVal) : CanvasManager :=
  { cm with pixels := cm.pixels ++ [.line fromX fromY toX toY color width] }

/-- The method `handleRemoteDrawing(event)`. A message other than `draw` has no
`tool` property, so neither comparison holds for it. -/
def handleRemoteDrawing (cm : CanvasManager) (event : OutMsg) : CanvasManager :=
  match event with
  | .draw _ fromX fromY toX toY color width tool _ =>
    if tool = .str "brush" then cm.drawLine fromX fromY toX toY color width
    else if tool = .str "eraser" then { cm with pixels := cm.pixels ++ [.erase toX toY width] }
    else cm
  | _ => cm

end CanvasManager

/-- Reading the property `imageData` of the object returned by
`getCanvasState`: the literal sets it to `null`. -/
def CanvasState.imageData (_ : CanvasState) : JsVal := .null

/-- Reading the property `imageData` of a message that the server sends: no
literal passed to `JSON.stringify` in `server.js` has such a property. -/
def OutMsg.imageData (_ : OutMsg) : JsVal := .undefined

/-- The value handed to the `onCanvasSync` callback: `handleJoined` passes
`message.canvasState`, `handleCanvasSync` passes the whole message. -/
inductive SyncArg where
  | state (canvasState : CanvasState)
  | message (msg : OutMsg)
  deriving DecidableEq, Repr, Inhabited

/-- Reading the property `imageData` of the value handed to `onCanvasSync`. -/
def SyncArg.imageData : SyncArg → JsVal
  | .state canvasState => CanvasState.imageData canvasState
  | .message msg => OutMsg.imageData msg

/-- The part of `CollaborativeDrawingApp` that the undo, redo and
synchronisation paths use: the canvas manager and the connection manager. The
user list, the cursor layer and the tool settings are left out. -/
structure App where
  canvasManager : CanvasManager
  wsManager : WebSocketManager
  deriving DecidableEq, Repr, Inhabited

namespace App

/-- The application as its constructor leaves it, before the socket opens. -/
def new : App := { canvasManager := CanvasManager.new, wsManager := WebSocketManager.new }

/-- The method `handleUndo()`: the application after the call and the messages
handed to `ws.send`. -/
def handleUndo (app : App) (env : ClientEnv) : App × List Message :=
  if app.canvasManager.undo.1 then
    ({ canvasManager := app.canvasManager.undo.2,
       wsManager := (app.wsManager.sendUndo env).1 }, (app.wsManager.sendUndo env).2)
  else ({ app with canvasManager := app.canvasManager.undo.2 }, [])

/-- The method `handleRedo()`: the application after the call and the messages
handed to `ws.send`. -/
def handleRedo (app : App) (env : ClientEnv) : App × List Message :=
  if app.canvasManager.redo.1 then
    ({ canvasManager := app.canvasManager.redo.2,
       wsManager := (app.wsManager.sendRedo env).1 }, (app.wsManager.sendRedo env).2)
  else ({ app with canvasManager := app.canvasManager.redo.2 }, [])

/-- The method `handleRemoteUndo(event)`, which the callback `onRemoteUndo`
calls. -/
def handleRemoteUndo (app : App) (_ : OutMsg) : App :=
  { app with canvasManager := app.canvasManager.undo.2 }

/-- The method `handleRemoteRedo(event)`, which the callback `onRemoteRedo`
calls. -/
def handleRemoteRedo (app : App) (_ : OutMsg) : App :=
  { app with canvasManager := app.canvasManager.redo.2 }

/-- The callback `onCanvasSync`: when the value has a truthy `imageData`, the
image is loaded, the canvas is wiped and the image is drawn on it. The load is
taken to complete at once. -/
def onCanvasSync (app : App) (state : SyncArg) : App :=
  if state.imageData.truthy then
    { app with canvasManager := { app.canvasManager with pixels := [.image state.imageData] } }
  else app

/-- The method `WebSocketManager.handleJoined(message)` with the callbacks of
the application. The calls of `onUserJoined` change the user list only. -/
def handleJoined (app : App) (message : OutMsg) : App :=
  let app1 :=
    { app with wsManager := { app.wsManager with roomId := message.roomId,
                                                  userId := message.userId } }
  match message.canvasState? with
  | some canvasState => app1.onCanvasSync (.state canvasState)
  | none => app1

/-- The method `WebSocketManager.handleDraw(message)` with the callback
`onDrawing` of the application. -/
def handleDraw (app : App) (message : OutMsg) : App :=
  if message.userId ≠ app.wsManager.userId then
    { app with canvasManager := app.canvasManager.handleRemoteDrawing message }
  else app

/-- The method `WebSocketManager.handleCanvasSync(message)` with the callback of
the application. -/
def handleCanvasSync (app : App) (message : OutMsg) : App :=
  app.onCanvasSync (.message message)

/-- The method `WebSocketManager.handleMessage(event)` for the text of a message
that the server sent. The branches for `user-joined`, `user-left`, `cursor`,
`pong` and `error` change the user list, the cursor layer, the latency and the
console only. -/
def handleMessage (app : App) (message : OutMsg) : App :=
  match WebSocketManager.branchOf message.type with
  | .handleJoined => app.handleJoined message
  | .handleDraw => app.handleDraw message
  | .handleUserJoined => app
  | .handleUserLeft => app
  | .handleCursor => app
  | .handleRemoteUndo => app.handleRemoteUndo message
  | .handleRemoteRedo => app.handleRemoteRedo message
  | .handleCanvasSync => app.handleCanvasSync message
  | .handlePong => app
  | .handleMessageError => app
  | .unknownType => app

end App

/-! ## Concrete inputs used in client scenarios -/

/-- Clock and random readings for the client scenarios. -/
def scenarioClientEnv : ClientEnv := { now := 9, rnd := "abc" }

/-- A canvas manager after two brush segments, each followed by `saveState()`,
as `handleMouseMove` and `handleMouseUp` leave it: three snapshots, the position
on the last one. -/
def twoLocalStrokes : CanvasManager :=
  ((CanvasManager.new.drawLine (.num 0) (.num 0) (.num 10) (.num 10) (.str "#000000")
      (.num 5)).saveState.drawLine (.num 10) (.num 10) (.num 20) (.num 20) (.str "#000000")
      (.num 5)).saveState

/-- The manager of a client that has joined room r1 as user A and whose socket
is open. -/
def joinedManager (userId : String) : WebSocketManager :=
  { WebSocketManager.new with
    wsOpen := true, connected := true, userId := .str userId, roomId := .str "r1" }

/-- The client of user A in room r1 after two local strokes. -/
def actorApp : App := { canvasManager := twoLocalStrokes, wsManager := joinedManager "A" }

/-- The client of user B in room r1 with the same three snapshots. -/
def observerApp : App := { canvasManager := twoLocalStrokes, wsManager := joinedManager "B" }

/-- The messages that the server sends when B joins room r1 on connection 2
after A has joined it and drawn one stroke. -/
def lateJoinSends : List Send :=
  (step afterJoinDraw (scenarioEvent 2 "join" "B" "r1")).2

/-- The messages that the server sends when A, in room r1 with B, asks for a
clear. -/
def clearSends : List Send :=
  (step twoInRoom (scenarioEvent 1 "clear" "A" "r1")).2

/-- The client of user B after it has drawn the stroke received from A. -/
def observerWithStroke : App :=
  (App.new.handleMessage (.joined (.str "B") (.str "r1") [] { actions := [], historyIndex := -1 })
    ).handleMessage (scenarioMsg "draw" "A" "r1").toDrawMsg

/-- A disconnected manager of user A with a draw and an undo request passed to
`send`, and then the socket open. -/
def queuedThenOpen : WebSocketManager :=
  { (WebSocketManager.sendAll
      { WebSocketManager.new with userId := .str "A", roomId := .str "r1" }
      [scenarioMsg "draw" "A" "r1", scenarioMsg "undo" "A" "r1"]).1 with wsOpen := true }

/-! ## Identifiers and clock readings -/

/-- The clock reading that an identifier was built from. -/
def ActionId.now : ActionId → Nat
  | .stamped t _ => t
  | .cleared t => t

/-- The clock reading that a call puts into the identifier of the action it
stores; `undo` and `redo` store no action. -/
def HistoryOp.idClock : HistoryOp → Option Nat
  | .recordAction _ env => some env.tId
  | .clear env => some env.tId
  | .undo => none
  | .redo => none

/-! ## Theorems about DrawingState -/

namespace DrawingState

theorem jsSlice0_of_nonneg {α : Type} (xs : List α) (e : Int) (h : 0 ≤ e) :
    jsSlice0 xs e = xs.take e.toNat := by
  unfold jsSlice0
  have hneg : ¬ e < 0 := by omega
  simp only [hneg, if_false]
  rcases le_total e (xs.length : Int) with hle | hle
  · rw [min_eq_left hle]
  · rw [min_eq_right hle]
    have h1 : xs.length ≤ e.toNat := by omega
    simp [List.take_of_length_le h1]

theorem truncated_eq_take (s : DrawingState) (h : s.Inv) :
    s.truncated = s.actions.take (s.historyIndex + 1).toNat := by
  obtain ⟨h1, h2, _⟩ := h
  unfold truncated
  split
  · exact jsSlice0_of_nonneg _ _ (by omega)
  · have h3 : s.actions.length ≤ (s.historyIndex + 1).toNat := by omega
    exact (List.take_of_length_le h3).symm

theorem truncated_length (s : DrawingState) (h : s.Inv) :
    (s.truncated.length : Int) = s.historyIndex + 1 := by
  rw [truncated_eq_take s h, List.length_take]
  obtain ⟨h1, h2, _⟩ := h
  omega

theorem pushAction_maxHistorySize (s : DrawingState) (a : Action) :
    (s.pushAction a).maxHistorySize = s.maxHistorySize := by
  unfold pushAction
  simp only
  split <;> rfl

theorem pushAction_actions (s : DrawingState) (a : Action) :
    (s.pushAction a).actions =
      if (s.truncated ++ [a]).length > s.maxHistorySize then (s.truncated ++ [a]).tail
      else s.truncated ++ [a] := by
  unfold pushAction
  simp only
  split <;> rfl

theorem pushAction_historyIndex (s : DrawingState) (a : Action) :
    (s.pushAction a).historyIndex =
      if (s.truncated ++ [a]).length > s.maxHistorySize then s.historyIndex + 1 - 1
      else s.historyIndex + 1 := by
  unfold pushAction
  simp only
  split <;> rfl

theorem pushAction_index_last (s : DrawingState) (a : Action) (h : s.Inv) :
    (s.pushAction a).historyIndex = ((s.pushAction a).actions.length : Int) - 1 := by
  have hl := truncated_length s h
  rw [pushAction_actions, pushAction_historyIndex]
  split
  · simp only [List.length_tail, List.length_append, List.length_singleton]
    omega
  · simp only [List.length_append, List.length_singleton]
    omega

theorem pushAction_length_bounds (s : DrawingState) (a : Action) (h : s.Inv)
    (hmax : 1 ≤ s.maxHistorySize) :
    (s.pushAction a).actions.length ≤ s.maxHistorySize ∧
      1 ≤ (s.pushAction a).actions.length := by
  have hl := truncated_length s h
  have hacts := pushAction_actions s a
  obtain ⟨h1, h2, h3⟩ := h
  have hpl : (s.truncated ++ [a]).length = s.truncated.length + 1 := by simp
  rw [hacts]
  split
  · simp only [List.length_tail, List.length_append, List.length_singleton]
    omega
  · simp only [List.length_append, List.length_singleton]
    omega

theorem pushAction_inv (s : DrawingState) (a : Action) (h : s.Inv)
    (hmax : 1 ≤ s.maxHistorySize) : (s.pushAction a).Inv := by
  have hidx := pushAction_index_last s a h
  have hm := pushAction_maxHistorySize s a
  have hlen := pushAction_length_bounds s a h hmax
  refine ⟨?_, ?_, ?_⟩
  · omega
  · omega
  · rw [hm]; exact hlen.1

theorem undo_inv (s : DrawingState) (h : s.Inv) : s.undo.2.Inv := by
  obtain ⟨h1, h2, h3⟩ := h
  unfold undo
  split
  · exact ⟨by simp only; omega, by simp only; omega, h3⟩
  · exact ⟨h1, h2, h3⟩

theorem redo_inv (s : DrawingState) (h : s.Inv) : s.redo.2.Inv := by
  obtain ⟨h1, h2, h3⟩ := h
  unfold redo
  split
  · exact ⟨by simp only; omega, by simp only; omega, h3⟩
  · exact ⟨h1, h2, h3⟩

theorem undo_maxHistorySize (s : DrawingState) : s.undo.2.maxHistorySize = s.maxHistorySize := by
  unfold undo
  split <;> rfl

theorem redo_maxHistorySize (s : DrawingState) : s.redo.2.maxHistorySize = s.maxHistorySize := by
  unfold redo
  split <;> rfl

theorem applyOp_inv (s : DrawingState) (op : HistoryOp) (h : s.Inv)
    (hmax : s.maxHistorySize = 100) :
    (s.applyOp op).Inv ∧ (s.applyOp op).maxHistorySize = 100 := by
  cases op with
  | recordAction a env =>
    exact ⟨pushAction_inv s _ h (by omega), by
      show (s.pushAction _).maxHistorySize = 100
      rw [pushAction_maxHistorySize, hmax]⟩
  | undo => exact ⟨undo_inv s h, by show s.undo.2.maxHistorySize = 100; rw [undo_maxHistorySize, hmax]⟩
  | redo => exact ⟨redo_inv s h, by show s.redo.2.maxHistorySize = 100; rw [redo_maxHistorySize, hmax]⟩
  | clear env =>
    exact ⟨pushAction_inv s _ h (by omega), by
      show (s.pushAction _).maxHistorySize = 100
      rw [pushAction_maxHistorySize, hmax]⟩

theorem runOps_inv (ops : List HistoryOp) (s : DrawingState) (h : s.Inv)
    (hmax : s.maxHistorySize = 100) :
    (s.runOps ops).Inv ∧ (s.runOps ops).maxHistorySize = 100 := by
  induction ops generalizing s with
  | nil => exact ⟨h, hmax⟩
  | cons op rest ih =>
    obtain ⟨h1, h2⟩ := applyOp_inv s op h hmax
    exact ih (s.applyOp op) h1 h2

theorem new_inv (roomId : JsVal) (now : Nat) : (new roomId now).Inv := by
  unfold Inv new
  simp

theorem reachable_inv (s : DrawingState) (h : s.Reachable) :
    s.Inv ∧ s.maxHistorySize = 100 := by
  obtain ⟨roomId, now, ops, rfl⟩ := h
  exact runOps_inv ops _ (new_inv roomId now) rfl

end DrawingState

/-- C1: on a fresh DrawingState, after every call of any finite sequence of
recordAction, undo, redo and clear calls (that is, after every initial segment
of the sequence) the index satisfies -1 ≤ historyIndex < actions.length and
actions.length ≤ maxHistorySize, where maxHistorySize is 100. -/
theorem history_invariant_after_every_call (roomId : JsVal) (now : Nat)
    (ops : List HistoryOp) (k : Nat) :
    (-1 : Int) ≤ ((DrawingState.new roomId now).runOps (ops.take k)).historyIndex ∧
    ((DrawingState.new roomId now).runOps (ops.take k)).historyIndex
      < (((DrawingState.new roomId now).runOps (ops.take k)).actions.length : Int) ∧
    ((DrawingState.new roomId now).runOps (ops.take k)).actions.length
      ≤ ((DrawingState.new roomId now).runOps (ops.take k)).maxHistorySize ∧
    ((DrawingState.new roomId now).runOps (ops.take k)).maxHistorySize = 100 := by
  obtain ⟨⟨h1, h2, h3⟩, h4⟩ :=
    DrawingState.runOps_inv (ops.take k) _ (DrawingState.new_inv roomId now) rfl
  exact ⟨h1, h2, h3, h4⟩

/-- C2: undo reports success exactly when historyIndex > 0 before the call; on
success the index is one less, otherwise it is the same; every other field, the
stored actions among them, is as before; the returned historyIndex and
actionCount are the values after the call. -/
theorem undo_spec (s : DrawingState) :
    (s.undo.1.success = true ↔ s.historyIndex > 0) ∧
    s.undo.2 = { s with historyIndex :=
      if s.historyIndex > 0 then s.historyIndex - 1 else s.historyIndex } ∧
    s.undo.2.actions = s.actions ∧
    s.undo.1.historyIndex = s.undo.2.historyIndex ∧
    s.undo.1.actionCount = s.undo.2.actions.length := by
  unfold DrawingState.undo
  by_cases h : s.historyIndex > 0
  · simp [h]
  · simp [h]

/-- C3: redo reports success exactly when historyIndex < actions.length - 1
before the call; on success the index is one more, otherwise it is the same;
every other field, the stored actions among them, is as before. -/
theorem redo_spec (s : DrawingState) :
    (s.redo.1.success = true ↔ s.historyIndex < (s.actions.length : Int) - 1) ∧
    s.redo.2 = { s with historyIndex :=
      if s.historyIndex < (s.actions.length : Int) - 1 then s.historyIndex + 1
      else s.historyIndex } ∧
    s.redo.2.actions = s.actions ∧
    s.redo.1.historyIndex = s.redo.2.historyIndex ∧
    s.redo.1.actionCount = s.redo.2.actions.length := by
  unfold DrawingState.redo
  by_cases h : s.historyIndex < (s.actions.length : Int) - 1
  · simp [h]
  · simp [h]

/-- C4: on a reachable DrawingState with index c, recordAction keeps the former
actions 0..c, drops the rest and appends the new action (and drops the oldest
one when the list would exceed 100); the index is the last position, which
holds the new action; the result object reports it; an immediately following
redo fails. Scenario: three records, two undos and one record leave two actions
with index 1, and redo fails. -/
theorem recordAction_discards_redo_tail (s : DrawingState) (a : ActionInput) (env : Env)
    (h : s.Reachable) :
    (s.recordAction a env).2.actions =
      (if (s.actions.take (s.historyIndex + 1).toNat ++ [Action.ofInput a env]).length > 100
        then (s.actions.take (s.historyIndex + 1).toNat ++ [Action.ofInput a env]).tail
        else s.actions.take (s.historyIndex + 1).toNat ++ [Action.ofInput a env]) ∧
    (s.recordAction a env).2.historyIndex
      = ((s.recordAction a env).2.actions.length : Int) - 1 ∧
    (s.recordAction a env).2.actions.getLast? = some (Action.ofInput a env) ∧
    (s.recordAction a env).1 = some
      { actionId := (Action.ofInput a env).id,
        historyIndex := (s.recordAction a env).2.historyIndex,
        totalActions := (s.recordAction a env).2.actions.length } ∧
    (s.recordAction a env).2.redo.1.success = false ∧
    (∀ (r : JsVal) (t : Nat) (a1 a2 a3 a4 : ActionInput) (e1 e2 e3 e4 : Env),
      ((DrawingState.new r t).runOps
          [.recordAction a1 e1, .recordAction a2 e2, .recordAction a3 e3, .undo, .undo,
           .recordAction a4 e4]).actions = [Action.ofInput a1 e1, Action.ofInput a4 e4] ∧
      ((DrawingState.new r t).runOps
          [.recordAction a1 e1, .recordAction a2 e2, .recordAction a3 e3, .undo, .undo,
           .recordAction a4 e4]).historyIndex = 1 ∧
      ((DrawingState.new r t).runOps
          [.recordAction a1 e1, .recordAction a2 e2, .recordAction a3 e3, .undo, .undo,
           .recordAction a4 e4]).redo.1.success = false) := by
  obtain ⟨hinv, hmax⟩ := DrawingState.reachable_inv s h
  have htr := DrawingState.truncated_eq_take s hinv
  have hidx := DrawingState.pushAction_index_last s (Action.ofInput a env) hinv
  have hacts := DrawingState.pushAction_actions s (Action.ofInput a env)
  rw [htr, hmax] at hacts
  have hone : 1 ≤ (s.pushAction (Action.ofInput a env)).actions.length := by
    exact (DrawingState.pushAction_length_bounds s (Action.ofInput a env) hinv (by omega)).2
  have hlast : (s.pushAction (Action.ofInput a env)).actions.getLast?
      = some (Action.ofInput a env) := by
    rw [hacts]
    split
    · rename_i hgt
      cases hk : s.actions.take (s.historyIndex + 1).toNat with
      | nil => rw [hk] at hgt; simp at hgt
      | cons x xs => simp
    · simp
  have hget : jsIndex (s.pushAction (Action.ofInput a env)).actions
      (s.pushAction (Action.ofInput a env)).historyIndex = some (Action.ofInput a env) := by
    unfold jsIndex
    rw [if_pos (by omega)]
    rw [List.getLast?_eq_getElem?] at hlast
    have : (s.pushAction (Action.ofInput a env)).historyIndex.toNat
        = (s.pushAction (Action.ofInput a env)).actions.length - 1 := by omega
    rw [this]
    exact hlast
  refine ⟨hacts, hidx, hlast, ?_, ?_, ?_⟩
  · show Option.map _ (jsIndex (s.pushAction (Action.ofInput a env)).actions
      (s.pushAction (Action.ofInput a env)).historyIndex) = _
    rw [hget]
    rfl
  · show (DrawingState.redo (s.pushAction (Action.ofInput a env))).1.success = false
    unfold DrawingState.redo
    rw [if_neg (by omega)]
  · intro r t a1 a2 a3 a4 e1 e2 e3 e4
    simp [DrawingState.runOps, DrawingState.applyOp, DrawingState.recordAction,
      DrawingState.pushAction, DrawingState.truncated, DrawingState.undo, DrawingState.redo,
      DrawingState.new, jsSlice0]

/-- C5: on a DrawingState that satisfies the history invariant,
getCurrentActionSequence returns the stored actions at positions 0..historyIndex
in order, historyIndex + 1 of them (none when the index is -1), and the object
is the same after the call. -/
theorem getCurrentActionSequence_spec (s : DrawingState) (h : s.Inv) :
    s.getCurrentActionSequence.1 = s.actions.take (s.historyIndex + 1).toNat ∧
    (s.getCurrentActionSequence.1.length : Int) = s.historyIndex + 1 ∧
    (∀ i : Nat, i < s.getCurrentActionSequence.1.length →
      s.getCurrentActionSequence.1[i]? = s.actions[i]?) ∧
    (s.historyIndex = -1 → s.getCurrentActionSequence.1 = []) ∧
    s.getCurrentActionSequence.2 = s := by
  obtain ⟨h1, h2, _⟩ := h
  have heq : s.getCurrentActionSequence.1 = s.actions.take (s.historyIndex + 1).toNat :=
    DrawingState.jsSlice0_of_nonneg _ _ (by omega)
  have hlen : (s.getCurrentActionSequence.1.length : Int) = s.historyIndex + 1 := by
    rw [heq, List.length_take]
    omega
  refine ⟨heq, hlen, ?_, ?_, rfl⟩
  · intro i hi
    rw [heq] at hi ⊢
    rw [List.length_take] at hi
    rw [List.getElem?_take]
    rw [if_pos (by omega)]
  · intro hm
    rw [heq, hm]
    rfl

end Canvas

namespace Canvas

/-! ## Lemmas about maps -/

theorem mem_mapSet {κ ν : Type} [DecidableEq κ] (m : List (κ × ν)) (k : κ) (v : ν)
    (p : κ × ν) (h : p ∈ mapSet m k v) : p = (k, v) ∨ p ∈ m := by
  induction m with
  | nil => simpa [mapSet] using h
  | cons hd tl ih =>
    obtain ⟨k1, v1⟩ := hd
    unfold mapSet at h
    split at h
    · rcases List.mem_cons.mp h with h1 | h1
      · exact Or.inl h1
      · exact Or.inr (List.mem_cons_of_mem _ h1)
    · rcases List.mem_cons.mp h with h1 | h1
      · exact Or.inr (h1 ▸ List.mem_cons_self _ _)
      · rcases ih h1 with h2 | h2
        · exact Or.inl h2
        · exact Or.inr (List.mem_cons_of_mem _ h2)

theorem mapSet_length_pos {κ ν : Type} [DecidableEq κ] (m : List (κ × ν)) (k : κ) (v : ν) :
    1 ≤ (mapSet m k v).length := by
  cases m with
  | nil => simp [mapSet]
  | cons hd tl =>
    obtain ⟨k1, v1⟩ := hd
    unfold mapSet
    split <;> simp

theorem mapGet_mem {κ ν : Type} [DecidableEq κ] (m : List (κ × ν)) (k : κ) (v : ν)
    (h : mapGet m k = some v) : (k, v) ∈ m := by
  induction m with
  | nil => simp [mapGet] at h
  | cons hd tl ih =>
    obtain ⟨k1, v1⟩ := hd
    unfold mapGet at h
    split at h
    · rename_i hk
      simp only [Option.some.injEq] at h
      subst hk; subst h
      exact List.mem_cons_self _ _
    · exact List.mem_cons_of_mem _ (ih h)

theorem mapGet_mapSet_self {κ ν : Type} [DecidableEq κ] (m : List (κ × ν)) (k : κ) (v : ν) :
    mapGet (mapSet m k v) k = some v := by
  induction m with
  | nil => simp [mapSet, mapGet]
  | cons hd tl ih =>
    obtain ⟨k1, v1⟩ := hd
    unfold mapSet
    split
    · simp [mapGet]
    · rename_i hk
      simp [mapGet, hk, ih]

theorem mapGet_mapSet_other {κ ν : Type} [DecidableEq κ] (m : List (κ × ν)) (k k2 : κ) (v : ν)
    (hne : k ≠ k2) : mapGet (mapSet m k v) k2 = mapGet m k2 := by
  induction m with
  | nil => simp [mapSet, mapGet, hne]
  | cons hd tl ih =>
    obtain ⟨k1, v1⟩ := hd
    unfold mapSet
    split
    · rename_i hk
      subst hk
      simp [mapGet, hne]
    · simp only [mapGet, ih]

theorem mem_mapDelete {κ ν : Type} [DecidableEq κ] (m : List (κ × ν)) (k : κ) (p : κ × ν)
    (h : p ∈ mapDelete m k) : p ∈ m ∧ p.1 ≠ k := by
  unfold mapDelete at h
  rw [List.mem_filter] at h
  exact ⟨h.1, by simpa using h.2⟩

theorem mapGet_mapDelete_self {κ ν : Type} [DecidableEq κ] (m : List (κ × ν)) (k : κ) :
    mapGet (mapDelete m k) k = none := by
  induction m with
  | nil => rfl
  | cons hd tl ih =>
    obtain ⟨k1, v1⟩ := hd
    by_cases hk : k1 = k
    · simpa [mapDelete, hk] using ih
    · have : mapDelete ((k1, v1) :: tl) k = (k1, v1) :: mapDelete tl k := by
        simp [mapDelete, hk]
      rw [this]
      simp [mapGet, hk, ih]

/-! ## Lemmas about the history manager -/

namespace DrawingStateManager

/-- The state returned is well formed, so is the map, and the map holds it. -/
theorem getOrCreateState_ok (states : List (JsVal × DrawingState)) (roomId : JsVal) (now : Nat)
    (h : ∀ p ∈ states, p.2.Inv ∧ p.2.maxHistorySize = 100) :
    ((getOrCreateState states roomId now).1.Inv ∧
      (getOrCreateState states roomId now).1.maxHistorySize = 100) ∧
    (∀ p ∈ (getOrCreateState states roomId now).2, p.2.Inv ∧ p.2.maxHistorySize = 100) ∧
    mapGet (getOrCreateState states roomId now).2 roomId
      = some (getOrCreateState states roomId now).1 := by
  unfold getOrCreateState
  split
  · rename_i s hs
    exact ⟨h _ (mapGet_mem _ _ _ hs), h, hs⟩
  · refine ⟨⟨DrawingState.new_inv _ _, rfl⟩, ?_, mapGet_mapSet_self _ _ _⟩
    intro p hp
    rcases mem_mapSet _ _ _ _ hp with h1 | h1
    · rw [h1]; exact ⟨DrawingState.new_inv _ _, rfl⟩
    · exact h p h1

theorem mapSet_ok (states : List (JsVal × DrawingState)) (roomId : JsVal) (s : DrawingState)
    (h : ∀ p ∈ states, p.2.Inv ∧ p.2.maxHistorySize = 100)
    (hs : s.Inv ∧ s.maxHistorySize = 100) :
    ∀ p ∈ mapSet states roomId s, p.2.Inv ∧ p.2.maxHistorySize = 100 := by
  intro p hp
  rcases mem_mapSet _ _ _ _ hp with h1 | h1
  · rw [h1]; exact hs
  · exact h p h1

theorem recordAction_ok (states : List (JsVal × DrawingState)) (roomId : JsVal)
    (action : ActionInput) (env : Env)
    (h : ∀ p ∈ states, p.2.Inv ∧ p.2.maxHistorySize = 100) :
    ∀ p ∈ (recordAction states roomId action env).2, p.2.Inv ∧ p.2.maxHistorySize = 100 := by
  obtain ⟨⟨h1, h2⟩, h3, _⟩ := getOrCreateState_ok states roomId env.tState h
  exact mapSet_ok _ _ _ h3
    (DrawingState.applyOp_inv _ (.recordAction action env) h1 h2)

theorem undo_ok (states : List (JsVal × DrawingState)) (roomId : JsVal) (env : Env)
    (h : ∀ p ∈ states, p.2.Inv ∧ p.2.maxHistorySize = 100) :
    ∀ p ∈ (undo states roomId env).2, p.2.Inv ∧ p.2.maxHistorySize = 100 := by
  obtain ⟨⟨h1, h2⟩, h3, _⟩ := getOrCreateState_ok states roomId env.tState h
  exact mapSet_ok _ _ _ h3 (DrawingState.applyOp_inv _ .undo h1 h2)

theorem redo_ok (states : List (JsVal × DrawingState)) (roomId : JsVal) (env : Env)
    (h : ∀ p ∈ states, p.2.Inv ∧ p.2.maxHistorySize = 100) :
    ∀ p ∈ (redo states roomId env).2, p.2.Inv ∧ p.2.maxHistorySize = 100 := by
  obtain ⟨⟨h1, h2⟩, h3, _⟩ := getOrCreateState_ok states roomId env.tState h
  exact mapSet_ok _ _ _ h3 (DrawingState.applyOp_inv _ .redo h1 h2)

theorem clear_ok (states : List (JsVal × DrawingState)) (roomId : JsVal) (env : Env)
    (h : ∀ p ∈ states, p.2.Inv ∧ p.2.maxHistorySize = 100) :
    ∀ p ∈ (clear states roomId env).2, p.2.Inv ∧ p.2.maxHistorySize = 100 := by
  obtain ⟨⟨h1, h2⟩, h3, _⟩ := getOrCreateState_ok states roomId env.tState h
  exact mapSet_ok _ _ _ h3 (DrawingState.applyOp_inv _ (.clear env) h1 h2)

theorem getCanvasState_ok (states : List (JsVal × DrawingState)) (roomId : JsVal) (now : Nat)
    (h : ∀ p ∈ states, p.2.Inv ∧ p.2.maxHistorySize = 100) :
    ∀ p ∈ (getCanvasState states roomId now).2, p.2.Inv ∧ p.2.maxHistorySize = 100 :=
  (getOrCreateState_ok states roomId now h).2.1

end DrawingStateManager

end Canvas

namespace Canvas

/-! ## Invariants of the server -/

theorem handleJoin_histories (st : ServerState) (c : ConnId) (m : Message) (env : Env)
    (h : st.HistoriesOk) : (handleJoin st c m env).state.HistoriesOk :=
  DrawingStateManager.getCanvasState_ok st.states m.roomId env.tState h

theorem handleDraw_histories (st : ServerState) (c : ConnId) (m : Message) (env : Env)
    (h : st.HistoriesOk) : (handleDraw st c m env).state.HistoriesOk := by
  unfold handleDraw
  split
  · exact h
  · split
    · exact h
    · simp only
      split <;> exact DrawingStateManager.recordAction_ok _ _ _ _ h

theorem handleCursor_histories (st : ServerState) (c : ConnId) (m : Message)
    (h : st.HistoriesOk) : (handleCursor st c m).state.HistoriesOk := by
  unfold handleCursor
  split
  · exact h
  · simp only
    split <;> exact h

theorem handleUndo_histories (st : ServerState) (c : ConnId) (m : Message) (env : Env)
    (h : st.HistoriesOk) : (handleUndo st c m env).state.HistoriesOk := by
  unfold handleUndo
  split
  · exact h
  · split
    · exact h
    · exact DrawingStateManager.undo_ok _ _ _ h

theorem handleRedo_histories (st : ServerState) (c : ConnId) (m : Message) (env : Env)
    (h : st.HistoriesOk) : (handleRedo st c m env).state.HistoriesOk := by
  unfold handleRedo
  split
  · exact h
  · split
    · exact h
    · exact DrawingStateManager.redo_ok _ _ _ h

theorem handleClear_histories (st : ServerState) (c : ConnId) (m : Message) (env : Env)
    (h : st.HistoriesOk) : (handleClear st c m env).state.HistoriesOk := by
  unfold handleClear
  split
  · exact h
  · split
    · exact h
    · exact DrawingStateManager.clear_ok _ _ _ h

theorem handleSyncRequest_histories (st : ServerState) (c : ConnId) (m : Message) (env : Env)
    (h : st.HistoriesOk) : (handleSyncRequest st c m env).state.HistoriesOk := by
  unfold handleSyncRequest
  split
  · exact h
  · exact DrawingStateManager.getCanvasState_ok _ _ _ h

theorem handleDisconnect_histories (st : ServerState) (c : ConnId)
    (h : st.HistoriesOk) : (handleDisconnect st c).state.HistoriesOk := by
  unfold handleDisconnect
  split
  · exact h
  · simp only
    split <;> exact h

theorem handleMessage_histories (st : ServerState) (c : ConnId) (m : Message) (env : Env)
    (h : st.HistoriesOk) : (handleMessage st c m env).state.HistoriesOk := by
  unfold handleMessage
  split
  · exact handleJoin_histories st c m env h
  split
  · exact handleDraw_histories st c m env h
  split
  · exact handleCursor_histories st c m h
  split
  · exact handleUndo_histories st c m env h
  split
  · exact handleRedo_histories st c m env h
  split
  · exact handleClear_histories st c m env h
  split
  · exact handleSyncRequest_histories st c m env h
  split <;> exact h

theorem handleJoin_inhabited (st : ServerState) (c : ConnId) (m : Message) (env : Env)
    (h : st.RoomsInhabited) : (handleJoin st c m env).state.RoomsInhabited := by
  intro p hp
  have hp2 : p ∈ (RoomManager.joinRoom st.rooms m.roomId m.userId c env.tRoom).2 := hp
  unfold RoomManager.joinRoom at hp2
  split at hp2
  · rcases mem_mapSet _ _ _ _ hp2 with h1 | h1
    · rw [h1]; exact mapSet_length_pos _ _ _
    · exact h p h1
  · rcases mem_mapSet _ _ _ _ hp2 with h1 | h1
    · rw [h1]; exact mapSet_length_pos _ _ _
    · exact h p h1

theorem handleDisconnect_inhabited (st : ServerState) (c : ConnId)
    (h : st.RoomsInhabited) : (handleDisconnect st c).state.RoomsInhabited := by
  unfold handleDisconnect
  split
  · exact h
  · simp only
    split
    · rename_i hpos
      intro p hp
      rcases mem_mapSet _ _ _ _ hp with h1 | h1
      · rw [h1]
        simpa [Room.getUsers, Room.getUserCount] using hpos
      · exact h p h1
    · intro p hp
      exact h p (mem_mapDelete _ _ _ hp).1

theorem handleDraw_rooms (st : ServerState) (c : ConnId) (m : Message) (env : Env) :
    (handleDraw st c m env).state.rooms = st.rooms := by
  unfold handleDraw
  split
  · rfl
  · split
    · rfl
    · simp only
      split <;> rfl

theorem handleCursor_rooms (st : ServerState) (c : ConnId) (m : Message) :
    (handleCursor st c m).state.rooms = st.rooms := by
  unfold handleCursor
  split
  · rfl
  · simp only
    split <;> rfl

theorem handleUndo_rooms (st : ServerState) (c : ConnId) (m : Message) (env : Env) :
    (handleUndo st c m env).state.rooms = st.rooms := by
  unfold handleUndo
  split
  · rfl
  · split <;> rfl

theorem handleRedo_rooms (st : ServerState) (c : ConnId) (m : Message) (env : Env) :
    (handleRedo st c m env).state.rooms = st.rooms := by
  unfold handleRedo
  split
  · rfl
  · split <;> rfl

theorem handleClear_rooms (st : ServerState) (c : ConnId) (m : Message) (env : Env) :
    (handleClear st c m env).state.rooms = st.rooms := by
  unfold handleClear
  split
  · rfl
  · split <;> rfl

theorem handleSyncRequest_rooms (st : ServerState) (c : ConnId) (m : Message) (env : Env) :
    (handleSyncRequest st c m env).state.rooms = st.rooms := by
  unfold handleSyncRequest
  split <;> rfl

theorem handleMessage_inhabited (st : ServerState) (c : ConnId) (m : Message) (env : Env)
    (h : st.RoomsInhabited) : (handleMessage st c m env).state.RoomsInhabited := by
  unfold handleMessage
  split
  · exact handleJoin_inhabited st c m env h
  split
  · unfold ServerState.RoomsInhabited; rw [handleDraw_rooms]; exact h
  split
  · unfold ServerState.RoomsInhabited; rw [handleCursor_rooms]; exact h
  split
  · unfold ServerState.RoomsInhabited; rw [handleUndo_rooms]; exact h
  split
  · unfold ServerState.RoomsInhabited; rw [handleRedo_rooms]; exact h
  split
  · unfold ServerState.RoomsInhabited; rw [handleClear_rooms]; exact h
  split
  · unfold ServerState.RoomsInhabited; rw [handleSyncRequest_rooms]; exact h
  split <;> exact h

theorem step_histories (st : ServerState) (ev : Event) (h : st.HistoriesOk) :
    (step st ev).1.HistoriesOk := by
  cases ev with
  | message c data env =>
    cases data with
    | undecodable => exact h
    | decoded m =>
      show (onMessage st c (.decoded m) env).1.HistoriesOk
      unfold onMessage
      simp only
      split <;> exact handleMessage_histories st c m env h
  | close c =>
    show (onClose st c).1.HistoriesOk
    unfold onClose
    split
    · exact handleDisconnect_histories (markNotOpen st c) c h
    · exact h
  | notOpen c => exact h

theorem step_inhabited (st : ServerState) (ev : Event) (h : st.RoomsInhabited) :
    (step st ev).1.RoomsInhabited := by
  cases ev with
  | message c data env =>
    cases data with
    | undecodable => exact h
    | decoded m =>
      show (onMessage st c (.decoded m) env).1.RoomsInhabited
      unfold onMessage
      simp only
      split <;> exact handleMessage_inhabited st c m env h
  | close c =>
    show (onClose st c).1.RoomsInhabited
    unfold onClose
    split
    · exact handleDisconnect_inhabited (markNotOpen st c) c h
    · exact h
  | notOpen c => exact h

theorem runEvents_invariants (evs : List Event) (st : ServerState)
    (h1 : st.HistoriesOk) (h2 : st.RoomsInhabited) :
    (runEvents st evs).HistoriesOk ∧ (runEvents st evs).RoomsInhabited := by
  induction evs generalizing st with
  | nil => exact ⟨h1, h2⟩
  | cons ev rest ih =>
    exact ih (step st ev).1 (step_histories st ev h1) (step_inhabited st ev h2)

theorem init_histories : ServerState.init.HistoriesOk := by
  intro p hp
  simp [ServerState.init] at hp

theorem init_inhabited : ServerState.init.RoomsInhabited := by
  intro p hp
  simp [ServerState.init] at hp

theorem reachable_invariants (st : ServerState) (h : st.Reachable) :
    st.HistoriesOk ∧ st.RoomsInhabited := by
  obtain ⟨evs, rfl⟩ := h
  exact runEvents_invariants evs _ init_histories init_inhabited

end Canvas

namespace Canvas


/-- C4 at the scenario state: the hypothesis holds there, and the record after
two undos leaves two actions with index 1. -/
theorem recordAction_discards_redo_tail_witness :
    threeRecordsTwoUndos.Reachable ∧
    (threeRecordsTwoUndos.recordAction (scenarioMsg "draw" "B" "r1").toActionInput
        scenarioEnv).2.actions = [scenarioStroke "A" "r1", scenarioStroke "B" "r1"] ∧
    (threeRecordsTwoUndos.recordAction (scenarioMsg "draw" "B" "r1").toActionInput
        scenarioEnv).2.historyIndex = 1 ∧
    (threeRecordsTwoUndos.recordAction (scenarioMsg "draw" "B" "r1").toActionInput
        scenarioEnv).2.redo.1.success = false :=
  have hr : threeRecordsTwoUndos.Reachable := ⟨_, _, _, rfl⟩
  have h := recordAction_discards_redo_tail threeRecordsTwoUndos
    (scenarioMsg "draw" "B" "r1").toActionInput scenarioEnv hr
  ⟨hr, h.1.trans (by decide), h.2.1.trans (by decide), h.2.2.2.2.1⟩

/-- C5 at a state with three actions and index 0: the hypothesis holds there and
the sequence returned is the first action alone. -/
theorem getCurrentActionSequence_spec_witness :
    threeRecordsTwoUndos.Inv ∧
    threeRecordsTwoUndos.getCurrentActionSequence.1 = threeRecordsTwoUndos.actions.take 1 ∧
    (threeRecordsTwoUndos.getCurrentActionSequence.1.length : Int) = 0 + 1 ∧
    threeRecordsTwoUndos.getCurrentActionSequence.2 = threeRecordsTwoUndos :=
  have hi : threeRecordsTwoUndos.Inv := by decide
  have h := getCurrentActionSequence_spec threeRecordsTwoUndos hi
  ⟨hi, h.1, h.2.1, h.2.2.2.2⟩

end Canvas

namespace Canvas

/-! ## Lemmas about broadcast -/

theorem mem_broadcast_of_open (room : Room) (clientOf : ConnId → ClientInfo) (msg : OutMsg)
    (sender : JsVal) (p : JsVal × ConnId) (hp : p ∈ room.users)
    (hkeep : sender.truthy = false ∨ p.1 ≠ sender) (hopen : (clientOf p.2).wsOpen = true) :
    ({ dest := p.2, msg := msg } : Send) ∈ room.broadcast clientOf msg sender := by
  unfold Room.broadcast
  rw [List.mem_filterMap]
  refine ⟨p, hp, ?_⟩
  have hc : (sender.truthy && decide (p.1 = sender)) = false := by
    rcases hkeep with h | h
    · simp [h]
    · simp [h]
  simp [hc, hopen]

theorem broadcast_mem (room : Room) (clientOf : ConnId → ClientInfo) (msg : OutMsg)
    (sender : JsVal) (s : Send) (hs : s ∈ room.broadcast clientOf msg sender) :
    ∃ p ∈ room.users, s = { dest := p.2, msg := msg } ∧
      (sender.truthy = false ∨ p.1 ≠ sender) ∧ (clientOf p.2).wsOpen = true := by
  unfold Room.broadcast at hs
  rw [List.mem_filterMap] at hs
  obtain ⟨p, hp, hf⟩ := hs
  refine ⟨p, hp, ?_⟩
  by_cases hc : (sender.truthy && decide (p.1 = sender)) = true
  · simp [hc] at hf
  · by_cases ho : (clientOf p.2).wsOpen = true
    · simp only [hc, ho] at hf
      simp only [Bool.false_eq_true, if_false, if_true, Option.some.injEq] at hf
      refine ⟨hf.symm, ?_, ho⟩
      by_cases ht : sender.truthy = true
      · right
        intro he
        simp [ht, he] at hc
      · left
        simpa using ht
    · simp [hc, ho] at hf

end Canvas

namespace Canvas

/-! ## Lemmas about the canvas state sent to a session -/

theorem DrawingState.getCurrentActionSequence_length (s : DrawingState) (h : s.Inv) :
    (s.getCurrentActionSequence.1.length : Int) = s.historyIndex + 1 := by
  obtain ⟨h1, h2, _⟩ := h
  have heq : s.getCurrentActionSequence.1 = s.actions.take (s.historyIndex + 1).toNat :=
    DrawingState.jsSlice0_of_nonneg _ _ (by omega)
  rw [heq, List.length_take]
  omega

theorem DrawingStateManager.getOrCreateState_origin (states : List (JsVal × DrawingState))
    (roomId : JsVal) (now : Nat) :
    mapGet states roomId = some (getOrCreateState states roomId now).1 ∨
    (mapGet states roomId = none ∧
      (getOrCreateState states roomId now).1 = DrawingState.new roomId now) := by
  unfold getOrCreateState
  split
  · rename_i s hs
    exact Or.inl hs
  · rename_i hs
    exact Or.inr ⟨hs, rfl⟩

theorem handleMessage_join (st : ServerState) (c : ConnId) (m : Message) (env : Env) :
    handleMessage st c { m with type := .str "join" } env
      = handleJoin st c { m with type := .str "join" } env := by
  unfold handleMessage
  simp

theorem handleMessage_syncRequest (st : ServerState) (c : ConnId) (m : Message) (env : Env) :
    handleMessage st c { m with type := .str "sync-request" } env
      = handleSyncRequest st c { m with type := .str "sync-request" } env := by
  unfold handleMessage
  simp

end Canvas

namespace Canvas

/-! ## Broadcast targets of draw, undo, redo and clear -/

theorem onMessage_of_not_threw (st : ServerState) (c : ConnId) (m : Message) (env : Env)
    (h : (handleMessage st c m env).threw = false) :
    onMessage st c (.decoded m) env
      = ((handleMessage st c m env).state, (handleMessage st c m env).sends) := by
  unfold onMessage
  simp only [h, Bool.false_eq_true, if_false]

theorem handleMessage_draw (st : ServerState) (c : ConnId) (m : Message) (env : Env) :
    handleMessage st c { m with type := .str "draw" } env = handleDraw st c m env := by
  unfold handleMessage
  simp only [JsVal.str.injEq, String.reduceEq, if_false, if_true]
  rfl

theorem handleMessage_undo (st : ServerState) (c : ConnId) (m : Message) (env : Env) :
    handleMessage st c { m with type := .str "undo" } env = handleUndo st c m env := by
  unfold handleMessage
  simp only [JsVal.str.injEq, String.reduceEq, if_false, if_true]
  rfl

theorem handleMessage_redo (st : ServerState) (c : ConnId) (m : Message) (env : Env) :
    handleMessage st c { m with type := .str "redo" } env = handleRedo st c m env := by
  unfold handleMessage
  simp only [JsVal.str.injEq, String.reduceEq, if_false, if_true]
  rfl

theorem handleMessage_clear (st : ServerState) (c : ConnId) (m : Message) (env : Env) :
    handleMessage st c { m with type := .str "clear" } env = handleClear st c m env := by
  unfold handleMessage
  simp only [JsVal.str.injEq, String.reduceEq, if_false, if_true]
  rfl

theorem handleUndo_not_threw (st : ServerState) (c : ConnId) (m : Message) (env : Env) :
    (handleUndo st c m env).threw = false := by
  unfold handleUndo
  split
  · rfl
  · split <;> rfl

theorem handleRedo_not_threw (st : ServerState) (c : ConnId) (m : Message) (env : Env) :
    (handleRedo st c m env).threw = false := by
  unfold handleRedo
  split
  · rfl
  · split <;> rfl

theorem handleClear_not_threw (st : ServerState) (c : ConnId) (m : Message) (env : Env) :
    (handleClear st c m env).threw = false := by
  unfold handleClear
  split
  · rfl
  · split <;> rfl

theorem recordAction_defined (states : List (JsVal × DrawingState)) (roomId : JsVal)
    (action : ActionInput) (env : Env)
    (h : ∀ p ∈ states, p.2.Inv ∧ p.2.maxHistorySize = 100) :
    (DrawingStateManager.recordAction states roomId action env).1.isSome = true := by
  obtain ⟨⟨hinv, hmax⟩, _, _⟩ :=
    DrawingStateManager.getOrCreateState_ok states roomId env.tState h
  have hidx := DrawingState.pushAction_index_last
    (DrawingStateManager.getOrCreateState states roomId env.tState).1
    (Action.ofInput action env) hinv
  have hlen := DrawingState.pushAction_length_bounds
    (DrawingStateManager.getOrCreateState states roomId env.tState).1
    (Action.ofInput action env) hinv (by omega)
  show (Option.map _ (jsIndex _ _)).isSome = true
  rw [Option.isSome_map']
  unfold jsIndex
  rw [if_pos (by omega)]
  rw [Option.isSome_iff_exists]
  exact ⟨_, List.getElem?_eq_getElem (by omega)⟩

theorem handleDraw_sends (st : ServerState) (c : ConnId) (m : Message) (env : Env) (room : Room)
    (hok : st.HistoriesOk) (hroom : (st.clientOf c).roomId.truthy = true)
    (hget : RoomManager.getRoom st.rooms (st.clientOf c).roomId = some room) :
    (handleDraw st c m env).sends = room.broadcast st.clientOf m.toDrawMsg m.userId ∧
    (handleDraw st c m env).threw = false := by
  have hdef := recordAction_defined st.states (st.clientOf c).roomId m.toActionInput env hok
  obtain ⟨r, hr⟩ := Option.isSome_iff_exists.mp hdef
  unfold handleDraw
  simp only [hroom, Bool.not_true, Bool.false_eq_true, if_false, hget, hr]
  exact ⟨rfl, trivial⟩

/-- C7, the claim as stated fails: with A, B and C in room r1 on connections 1, 2
and 3, all open, a draw message that arrives on the connection of A and names B
in its userId field is sent back to A and is not sent to B; and with A and B in
the room whose roomId is the empty string, both open, the draw of A is sent to
no one. -/
theorem draw_naming_other_user_returns_to_sender :
    ((threeInRoom.clientOf 1).roomId = .str "r1" ∧
      (threeInRoom.clientOf 1).userId = .str "A" ∧
      RoomManager.getRoom threeInRoom.rooms (.str "r1") = some roomOfThree ∧
      (threeInRoom.clientOf 2).wsOpen = true ∧
      (Send.mk 1 (scenarioMsg "draw" "B" "r1").toDrawMsg)
        ∈ (step threeInRoom (scenarioEvent 1 "draw" "B" "r1")).2 ∧
      (∀ s ∈ (step threeInRoom (scenarioEvent 1 "draw" "B" "r1")).2, s.dest ≠ 2)) ∧
    ((twoInEmptyRoomId.clientOf 1).roomId = .str "" ∧
      RoomManager.getRoom twoInEmptyRoomId.rooms (.str "")
        = some { roomId := .str "", users := [(.str "A", 1), (.str "B", 2)], createdAt := 1 } ∧
      (twoInEmptyRoomId.clientOf 2).wsOpen = true ∧
      (step twoInEmptyRoomId (scenarioEvent 1 "draw" "A" "")).2 = []) := by
  decide

/-- C7 as amended: in a reachable state, for a session whose roomId is truthy and
names a room of the registry, a draw message whose userId field is truthy and is
the only key under which the connection of the session is registered in that
room is broadcast to every participant registered under another key whose
handle is open, and to no one else: every message sent is that draw message,
none goes to the session, and the handler does not throw, so that these are all
the messages sent for an inbound message of type draw. Scenario: with A, B and C
in the room, the draw of A goes to B and C only. -/
theorem draw_broadcast_excludes_author (st : ServerState) (c : ConnId) (m : Message)
    (env : Env) (room : Room)
    (hreach : st.Reachable)
    (hroom : (st.clientOf c).roomId.truthy = true)
    (hget : RoomManager.getRoom st.rooms (st.clientOf c).roomId = some room)
    (htruthy : m.userId.truthy = true)
    (honly : ∀ p ∈ room.users, p.2 = c → p.1 = m.userId) :
    (∀ p ∈ room.users, p.1 ≠ m.userId → (st.clientOf p.2).wsOpen = true →
      (Send.mk p.2 m.toDrawMsg) ∈ (handleDraw st c m env).sends) ∧
    (∀ s ∈ (handleDraw st c m env).sends, s.dest ≠ c ∧ s.msg = m.toDrawMsg ∧
      ∃ p ∈ room.users, p.2 = s.dest ∧ p.1 ≠ m.userId ∧ (st.clientOf p.2).wsOpen = true) ∧
    (handleDraw st c m env).threw = false ∧
    onMessage st c (.decoded { m with type := .str "draw" }) env =
      ((handleDraw st c m env).state, (handleDraw st c m env).sends) ∧
    (step threeInRoom (scenarioEvent 1 "draw" "A" "r1")).2 =
      [Send.mk 2 (scenarioMsg "draw" "A" "r1").toDrawMsg,
       Send.mk 3 (scenarioMsg "draw" "A" "r1").toDrawMsg] := by
  obtain ⟨hs, ht⟩ := handleDraw_sends st c m env room (reachable_invariants st hreach).1
    hroom hget
  have hdisp : onMessage st c (.decoded { m with type := .str "draw" }) env =
      ((handleDraw st c m env).state, (handleDraw st c m env).sends) := by
    rw [onMessage_of_not_threw _ _ _ _ (by rw [handleMessage_draw]; exact ht),
      handleMessage_draw]
  refine ⟨?_, ?_, ht, hdisp, by decide⟩
  · intro p hp hne hopen
    rw [hs]
    exact mem_broadcast_of_open room st.clientOf _ _ p hp (Or.inr hne) hopen
  · intro s hsm
    rw [hs] at hsm
    obtain ⟨p, hp, hsp, hkeep, hopen⟩ := broadcast_mem _ _ _ _ s hsm
    have hne : p.1 ≠ m.userId := by
      rcases hkeep with hk | hk
      · rw [htruthy] at hk
        exact absurd hk (by decide)
      · exact hk
    subst hsp
    exact ⟨fun hc => hne (honly p hp hc), rfl, p, hp, rfl, hne, hopen⟩

/-- C7 as amended, at the scenario state: the hypotheses hold for the draw of A
in the room of A, B and C, and the draw is sent to B and to C and not to A. -/
theorem draw_broadcast_excludes_author_witness :
    threeInRoom.Reachable ∧
    (threeInRoom.clientOf 1).roomId.truthy = true ∧
    RoomManager.getRoom threeInRoom.rooms (threeInRoom.clientOf 1).roomId = some roomOfThree ∧
    (scenarioMsg "draw" "A" "r1").userId.truthy = true ∧
    (Send.mk 2 (scenarioMsg "draw" "A" "r1").toDrawMsg)
      ∈ (handleDraw threeInRoom 1 (scenarioMsg "draw" "A" "r1") scenarioEnv).sends ∧
    (Send.mk 3 (scenarioMsg "draw" "A" "r1").toDrawMsg)
      ∈ (handleDraw threeInRoom 1 (scenarioMsg "draw" "A" "r1") scenarioEnv).sends ∧
    (∀ s ∈ (handleDraw threeInRoom 1 (scenarioMsg "draw" "A" "r1") scenarioEnv).sends,
      s.dest ≠ 1) :=
  have hr : threeInRoom.Reachable := ⟨_, rfl⟩
  have h := draw_broadcast_excludes_author threeInRoom 1 (scenarioMsg "draw" "A" "r1")
    scenarioEnv roomOfThree hr (by decide) (by decide) (by decide) (by decide)
  ⟨hr, by decide, by decide, by decide,
    h.1 (.str "B", 2) (by decide) (by decide) (by decide),
    h.1 (.str "C", 3) (by decide) (by decide) (by decide),
    fun s hs => (h.2.1 s hs).1⟩

end Canvas

namespace Canvas

theorem broadcast_null_spec (room : Room) (clientOf : ConnId → ClientInfo) (msg : OutMsg) :
    (∀ p ∈ room.users, (clientOf p.2).wsOpen = true →
      (Send.mk p.2 msg) ∈ room.broadcast clientOf msg .null) ∧
    (∀ s ∈ room.broadcast clientOf msg .null, s.msg = msg ∧
      ∃ p ∈ room.users, p.2 = s.dest ∧ (clientOf p.2).wsOpen = true) := by
  refine ⟨?_, ?_⟩
  · intro p hp hopen
    exact mem_broadcast_of_open room clientOf msg .null p hp (Or.inl rfl) hopen
  · intro s hs
    obtain ⟨p, hp, hsp, _, hopen⟩ := broadcast_mem _ _ _ _ s hs
    subst hsp
    exact ⟨rfl, p, hp, rfl, hopen⟩

theorem handleUndo_sends (st : ServerState) (c : ConnId) (m : Message) (env : Env) (room : Room)
    (hroom : (st.clientOf c).roomId.truthy = true)
    (hget : RoomManager.getRoom st.rooms (st.clientOf c).roomId = some room) :
    (handleUndo st c m env).sends
      = room.broadcast st.clientOf (.undo m.userId .undefined m.timestamp) .null := by
  unfold handleUndo
  simp only [hroom, Bool.not_true, Bool.false_eq_true, if_false, hget]
  rfl

theorem handleRedo_sends (st : ServerState) (c : ConnId) (m : Message) (env : Env) (room : Room)
    (hroom : (st.clientOf c).roomId.truthy = true)
    (hget : RoomManager.getRoom st.rooms (st.clientOf c).roomId = some room) :
    (handleRedo st c m env).sends
      = room.broadcast st.clientOf (.redo m.userId .undefined m.timestamp) .null := by
  unfold handleRedo
  simp only [hroom, Bool.not_true, Bool.false_eq_true, if_false, hget]
  rfl

theorem handleClear_sends (st : ServerState) (c : ConnId) (m : Message) (env : Env) (room : Room)
    (hroom : (st.clientOf c).roomId.truthy = true)
    (hget : RoomManager.getRoom st.rooms (st.clientOf c).roomId = some room) :
    (handleClear st c m env).sends
      = room.broadcast st.clientOf (.clear m.userId m.timestamp) .null := by
  unfold handleClear
  simp only [hroom, Bool.not_true, Bool.false_eq_true, if_false, hget]
  rfl

/-- C8, the claim as stated fails: A joins the room whose roomId is the empty
string on connection 1, so that the registry holds that room with A as its one
participant and an open handle; an undo, a redo or a clear from that session
sends nothing to anyone. -/
theorem undo_in_room_with_empty_id_sends_nothing :
    (joinedEmptyRoomId.clientOf 1).roomId = .str "" ∧
    RoomManager.getRoom joinedEmptyRoomId.rooms (.str "")
      = some { roomId := .str "", users := [(.str "A", 1)], createdAt := 1 } ∧
    (joinedEmptyRoomId.clientOf 1).wsOpen = true ∧
    (step joinedEmptyRoomId (scenarioEvent 1 "undo" "A" "")).2 = [] ∧
    (step joinedEmptyRoomId (scenarioEvent 1 "redo" "A" "")).2 = [] ∧
    (step joinedEmptyRoomId (scenarioEvent 1 "clear" "A" "")).2 = [] := by
  decide

/-- C8 as amended: for a session whose roomId is truthy and names a room of the
registry, the undo (redo, clear) message that results from handling its undo
(redo, clear) request is sent to every participant of that room whose handle is
open, the session itself included when it is registered there, and every message
sent is that message to such a participant; these are all the messages sent for
an inbound message of type undo (redo, clear). Scenario: with A, B and C in the
room, the undo of A goes to A, B and C. -/
theorem undo_redo_clear_reach_every_open_participant (st : ServerState) (c : ConnId)
    (m : Message) (env : Env) (room : Room)
    (hroom : (st.clientOf c).roomId.truthy = true)
    (hget : RoomManager.getRoom st.rooms (st.clientOf c).roomId = some room) :
    (∃ msg hs, msg = OutMsg.undo m.userId hs m.timestamp ∧
      (∀ p ∈ room.users, (st.clientOf p.2).wsOpen = true →
        (Send.mk p.2 msg) ∈ (handleUndo st c m env).sends) ∧
      (∀ u, (u, c) ∈ room.users → (st.clientOf c).wsOpen = true →
        (Send.mk c msg) ∈ (handleUndo st c m env).sends) ∧
      (∀ s ∈ (handleUndo st c m env).sends, s.msg = msg ∧
        ∃ p ∈ room.users, p.2 = s.dest ∧ (st.clientOf p.2).wsOpen = true)) ∧
    (∃ msg hs, msg = OutMsg.redo m.userId hs m.timestamp ∧
      (∀ p ∈ room.users, (st.clientOf p.2).wsOpen = true →
        (Send.mk p.2 msg) ∈ (handleRedo st c m env).sends) ∧
      (∀ u, (u, c) ∈ room.users → (st.clientOf c).wsOpen = true →
        (Send.mk c msg) ∈ (handleRedo st c m env).sends) ∧
      (∀ s ∈ (handleRedo st c m env).sends, s.msg = msg ∧
        ∃ p ∈ room.users, p.2 = s.dest ∧ (st.clientOf p.2).wsOpen = true)) ∧
    (∃ msg, msg = OutMsg.clear m.userId m.timestamp ∧
      (∀ p ∈ room.users, (st.clientOf p.2).wsOpen = true →
        (Send.mk p.2 msg) ∈ (handleClear st c m env).sends) ∧
      (∀ u, (u, c) ∈ room.users → (st.clientOf c).wsOpen = true →
        (Send.mk c msg) ∈ (handleClear st c m env).sends) ∧
      (∀ s ∈ (handleClear st c m env).sends, s.msg = msg ∧
        ∃ p ∈ room.users, p.2 = s.dest ∧ (st.clientOf p.2).wsOpen = true)) ∧
    (onMessage st c (.decoded { m with type := .str "undo" }) env =
        ((handleUndo st c m env).state, (handleUndo st c m env).sends) ∧
      onMessage st c (.decoded { m with type := .str "redo" }) env =
        ((handleRedo st c m env).state, (handleRedo st c m env).sends) ∧
      onMessage st c (.decoded { m with type := .str "clear" }) env =
        ((handleClear st c m env).state, (handleClear st c m env).sends)) ∧
    (step threeInRoom (scenarioEvent 1 "undo" "A" "r1")).2.map Send.dest = [1, 2, 3] := by
  have hdisp : onMessage st c (.decoded { m with type := .str "undo" }) env =
        ((handleUndo st c m env).state, (handleUndo st c m env).sends) ∧
      onMessage st c (.decoded { m with type := .str "redo" }) env =
        ((handleRedo st c m env).state, (handleRedo st c m env).sends) ∧
      onMessage st c (.decoded { m with type := .str "clear" }) env =
        ((handleClear st c m env).state, (handleClear st c m env).sends) := by
    refine ⟨?_, ?_, ?_⟩
    · rw [onMessage_of_not_threw _ _ _ _
        (by rw [handleMessage_undo]; exact handleUndo_not_threw st c m env), handleMessage_undo]
    · rw [onMessage_of_not_threw _ _ _ _
        (by rw [handleMessage_redo]; exact handleRedo_not_threw st c m env), handleMessage_redo]
    · rw [onMessage_of_not_threw _ _ _ _
        (by rw [handleMessage_clear]; exact handleClear_not_threw st c m env),
        handleMessage_clear]
  refine ⟨⟨_, .undefined, rfl, ?_, ?_, ?_⟩, ⟨_, .undefined, rfl, ?_, ?_, ?_⟩,
    ⟨_, rfl, ?_, ?_, ?_⟩, hdisp, by decide⟩
  · rw [handleUndo_sends st c m env room hroom hget]
    exact (broadcast_null_spec room st.clientOf _).1
  · rw [handleUndo_sends st c m env room hroom hget]
    exact fun u hu ho => (broadcast_null_spec room st.clientOf _).1 (u, c) hu ho
  · rw [handleUndo_sends st c m env room hroom hget]
    exact (broadcast_null_spec room st.clientOf _).2
  · rw [handleRedo_sends st c m env room hroom hget]
    exact (broadcast_null_spec room st.clientOf _).1
  · rw [handleRedo_sends st c m env room hroom hget]
    exact fun u hu ho => (broadcast_null_spec room st.clientOf _).1 (u, c) hu ho
  · rw [handleRedo_sends st c m env room hroom hget]
    exact (broadcast_null_spec room st.clientOf _).2
  · rw [handleClear_sends st c m env room hroom hget]
    exact (broadcast_null_spec room st.clientOf _).1
  · rw [handleClear_sends st c m env room hroom hget]
    exact fun u hu ho => (broadcast_null_spec room st.clientOf _).1 (u, c) hu ho
  · rw [handleClear_sends st c m env room hroom hget]
    exact (broadcast_null_spec room st.clientOf _).2

/-- C8 as amended, at the scenario state: the hypotheses hold for A in the room
of A, B and C, and the undo, the redo and the clear of A are each sent to A. -/
theorem undo_redo_clear_reach_every_open_participant_witness :
    (threeInRoom.clientOf 1).roomId.truthy = true ∧
    RoomManager.getRoom threeInRoom.rooms (threeInRoom.clientOf 1).roomId = some roomOfThree ∧
    (handleUndo threeInRoom 1 (scenarioMsg "undo" "A" "r1") scenarioEnv).sends ≠ [] ∧
    (handleRedo threeInRoom 1 (scenarioMsg "redo" "A" "r1") scenarioEnv).sends ≠ [] ∧
    (Send.mk 1 (.clear (.str "A") (.num 7)))
      ∈ (handleClear threeInRoom 1 (scenarioMsg "clear" "A" "r1") scenarioEnv).sends :=
  have h := undo_redo_clear_reach_every_open_participant threeInRoom 1
  ⟨by decide, by decide,
    by
      obtain ⟨msg, hs, _, _, hself, _⟩ :=
        (h (scenarioMsg "undo" "A" "r1") scenarioEnv roomOfThree (by decide) (by decide)).1
      exact List.ne_nil_of_mem (hself (.str "A") (by decide) (by decide)),
    by
      obtain ⟨msg, hs, _, _, hself, _⟩ :=
        (h (scenarioMsg "redo" "A" "r1") scenarioEnv roomOfThree (by decide) (by decide)).2.1
      exact List.ne_nil_of_mem (hself (.str "A") (by decide) (by decide)),
    by
      obtain ⟨msg, hm, _, hself, _⟩ :=
        (h (scenarioMsg "clear" "A" "r1") scenarioEnv roomOfThree (by decide) (by decide)).2.2.1
      subst hm
      exact hself (.str "A") (by decide) (by decide)⟩

/-- C9: after every event of every sequence of events from process start (that
is, after every initial segment of the sequence), every room in the registry has
at least one participant; and when handleDisconnect removes the last participant
of a room, the registry no longer holds that room after the same call, while a
room that keeps a participant stays. -/
theorem registry_rooms_have_participants (evs : List Event) (k : Nat) :
    (∀ p ∈ (runEvents ServerState.init (evs.take k)).rooms, 1 ≤ p.2.getUserCount) ∧
    (∀ (st : ServerState) (c : ConnId) (room : Room),
      RoomManager.getRoom st.rooms (st.clientOf c).roomId = some room →
      (if (room.removeUser (st.clientOf c).userId).getUserCount = 0 then
        RoomManager.getRoom (handleDisconnect st c).state.rooms (st.clientOf c).roomId = none
       else
        RoomManager.getRoom (handleDisconnect st c).state.rooms (st.clientOf c).roomId
          = some (room.removeUser (st.clientOf c).userId))) := by
  refine ⟨(runEvents_invariants (evs.take k) _ init_histories init_inhabited).2, ?_⟩
  intro st c room hget
  unfold handleDisconnect
  simp only [hget]
  by_cases h0 : (room.removeUser (st.clientOf c).userId).getUserCount = 0
  · have hlen : ¬ (room.removeUser (st.clientOf c).userId).getUsers.length > 0 := by
      simpa [Room.getUsers, Room.getUserCount] using h0
    simp only [h0, hlen, if_true, if_false]
    exact mapGet_mapDelete_self _ _
  · have hlen : (room.removeUser (st.clientOf c).userId).getUsers.length > 0 := by
      have : (room.removeUser (st.clientOf c).userId).getUsers.length
          = (room.removeUser (st.clientOf c).userId).getUserCount := by
        simp [Room.getUsers, Room.getUserCount]
      omega
    simp only [h0, hlen, if_true, if_false]
    exact mapGet_mapSet_self _ _ _

/-- C10, evaluated on the code: A joins r1 and draws one stroke, then the
connection of A closes and the registry is empty; when B then joins r1 the
joined reply carries that stroke, and the history of r1 holds one action. -/
theorem rejoin_after_room_removed_keeps_history :
    afterLastLeft.rooms = [] ∧
    (step afterLastLeft (scenarioEvent 2 "join" "B" "r1")).2 =
      [Send.mk 2 (.joined (.str "B") (.str "r1") []
        { actions := [scenarioStroke "A" "r1"], historyIndex := 0 })] ∧
    (mapGet (step afterLastLeft (scenarioEvent 2 "join" "B" "r1")).1.states (.str "r1")).map
      DrawingState.getActionCount = some 1 := by
  decide

end Canvas

namespace Canvas

/-! ## Undo followed by redo, and records at the end of the history -/

theorem DrawingState.pushAction_at_end (s : DrawingState) (a : Action)
    (hidx : s.historyIndex = (s.actions.length : Int) - 1)
    (hroom : s.actions.length + 1 ≤ s.maxHistorySize) :
    s.pushAction a =
      { s with actions := s.actions ++ [a], historyIndex := (s.actions.length : Int) } := by
  have htr : s.truncated = s.actions := by
    unfold DrawingState.truncated
    rw [if_neg (by omega)]
  unfold DrawingState.pushAction
  simp only [htr, List.length_append, List.length_singleton]
  rw [if_neg (by omega)]
  rw [hidx]
  congr 1
  omega

theorem DrawingState.runOps_records (recs : List (ActionInput × Env)) (s : DrawingState)
    (hidx : s.historyIndex = (s.actions.length : Int) - 1)
    (hroom : s.actions.length + recs.length ≤ s.maxHistorySize) :
    s.runOps (recs.map fun p => HistoryOp.recordAction p.1 p.2) =
      { s with actions := s.actions ++ recs.map (fun p => Action.ofInput p.1 p.2),
               historyIndex := ((s.actions.length + recs.length : Nat) : Int) - 1 } := by
  induction recs generalizing s with
  | nil =>
    simp only [List.map_nil, List.append_nil, List.length_nil, Nat.add_zero]
    rw [← hidx]
    rfl
  | cons r rest ih =>
    simp only [List.length_cons] at hroom
    have hstep : s.applyOp (HistoryOp.recordAction r.1 r.2)
        = { s with actions := s.actions ++ [Action.ofInput r.1 r.2],
                   historyIndex := (s.actions.length : Int) } := by
      show s.pushAction _ = _
      exact DrawingState.pushAction_at_end s _ hidx (by omega)
    show DrawingState.runOps (s.applyOp (HistoryOp.recordAction r.1 r.2)) _ = _
    have hlen : ({ s with actions := s.actions ++ [Action.ofInput r.1 r.2],
                          historyIndex := (s.actions.length : Int) } : DrawingState).actions.length
          = s.actions.length + 1 := by simp
    rw [hstep, ih _ (by rw [hlen]; simp) (by rw [hlen]; show _ ≤ s.maxHistorySize; omega), hlen]
    simp only [List.length_cons, List.map_cons, List.append_assoc, List.singleton_append]
    congr 1
    push_cast
    omega

/-- C11, the claim as stated fails: after three records and two undos (three
stored actions, index 0) undo is a no-op and the following redo succeeds, so the
index ends at 1 and not at its value 0 before the undo. -/
theorem undo_redo_at_first_action_moves_index :
    threeRecordsTwoUndos.Reachable ∧
    threeRecordsTwoUndos.historyIndex = 0 ∧
    threeRecordsTwoUndos.undo.1.success = false ∧
    threeRecordsTwoUndos.undo.2.redo.1.success = true ∧
    threeRecordsTwoUndos.undo.2.redo.2.historyIndex = 1 :=
  ⟨⟨_, _, _, rfl⟩, by decide, by decide, by decide, by decide⟩

/-- C11 as amended: on a reachable DrawingState, undo followed by redo leaves
every stored action unchanged; when the undo succeeds the object is the same as
before the undo, index included; when the undo fails the result is that of redo
alone, so the index is as before exactly when it is positive or on the last
action, and one more otherwise. -/
theorem undo_then_redo_restores (s : DrawingState) (h : s.Reachable) :
    s.undo.2.redo.2.actions = s.actions ∧
    (s.undo.1.success = true → s.undo.2.redo.2 = s) ∧
    (s.undo.1.success = false → s.undo.2.redo.2 = s.redo.2) ∧
    s.undo.2.redo.2.historyIndex =
      (if 0 < s.historyIndex ∨ s.historyIndex = (s.actions.length : Int) - 1 then
        s.historyIndex
       else s.historyIndex + 1) := by
  obtain ⟨⟨h1, h2, _⟩, _⟩ := DrawingState.reachable_inv s h
  by_cases hpos : s.historyIndex > 0
  · have hu1 : s.undo.1.success = true := by
      unfold DrawingState.undo
      rw [if_pos hpos]
    have hu2 : s.undo.2 = { s with historyIndex := s.historyIndex - 1 } := by
      unfold DrawingState.undo
      rw [if_pos hpos]
    have hr : ({ s with historyIndex := s.historyIndex - 1 } : DrawingState).redo.2 = s := by
      unfold DrawingState.redo
      simp only
      rw [if_pos (by omega)]
      simp only
      cases s
      simp
    rw [hu1, hu2, hr, if_pos (Or.inl hpos)]
    exact ⟨rfl, fun _ => rfl, fun hc => absurd hc (by decide), rfl⟩
  · have hu1 : s.undo.1.success = false := by
      unfold DrawingState.undo
      rw [if_neg hpos]
    have hu2 : s.undo.2 = s := by
      unfold DrawingState.undo
      rw [if_neg hpos]
    rw [hu1, hu2]
    refine ⟨?_, fun hc => absurd hc (by decide), fun _ => rfl, ?_⟩
    · unfold DrawingState.redo
      split <;> rfl
    · unfold DrawingState.redo
      by_cases hlt : s.historyIndex < (s.actions.length : Int) - 1
      · rw [if_pos hlt, if_neg (by omega)]
      · rw [if_neg hlt, if_pos (Or.inr (by omega))]

/-- C11 as amended, at a state with three actions and index 2: the state is
reachable, undo succeeds there, and undo followed by redo gives the state back. -/
theorem undo_then_redo_restores_witness :
    threeRecords.Reachable ∧ threeRecords.undo.1.success = true ∧
    threeRecords.undo.2.redo.2 = threeRecords :=
  have hr : threeRecords.Reachable := ⟨_, _, _, rfl⟩
  ⟨hr, by decide, (undo_then_redo_restores threeRecords hr).2.1 (by decide)⟩

/-- C12: for every n with 1 ≤ n ≤ 100, written n = k + 1 with k the number of
earlier calls, the n-th of n recordAction calls on a fresh DrawingState returns
historyIndex = n - 1 and totalActions = n, and the stored actions are the n
recorded actions in call order, with the index on the last one. -/
theorem nth_record_on_fresh (roomId : JsVal) (now : Nat) (earlier : List (ActionInput × Env))
    (a : ActionInput) (env : Env) (hn : earlier.length + 1 ≤ 100) :
    ((((DrawingState.new roomId now).runOps
        (earlier.map fun p => HistoryOp.recordAction p.1 p.2)).recordAction a env).1
      = some { actionId := ActionId.stamped env.tId env.rnd,
               historyIndex := ((earlier.length + 1 : Nat) : Int) - 1,
               totalActions := earlier.length + 1 }) ∧
    (((DrawingState.new roomId now).runOps
        (earlier.map fun p => HistoryOp.recordAction p.1 p.2)).recordAction a env).2.actions
      = (earlier ++ [(a, env)]).map (fun p => Action.ofInput p.1 p.2) ∧
    (((DrawingState.new roomId now).runOps
        (earlier.map fun p => HistoryOp.recordAction p.1 p.2)).recordAction a env).2.historyIndex
      = ((earlier.length + 1 : Nat) : Int) - 1 := by
  have hrun := DrawingState.runOps_records (earlier ++ [(a, env)]) (DrawingState.new roomId now)
    rfl (by simp [DrawingState.new]; omega)
  have hsplit : (DrawingState.new roomId now).runOps
      ((earlier ++ [(a, env)]).map fun p => HistoryOp.recordAction p.1 p.2)
      = (((DrawingState.new roomId now).runOps
        (earlier.map fun p => HistoryOp.recordAction p.1 p.2)).recordAction a env).2 := by
    simp [DrawingState.runOps, DrawingState.applyOp, List.foldl_append]
  rw [hsplit] at hrun
  have hacts : (((DrawingState.new roomId now).runOps
        (earlier.map fun p => HistoryOp.recordAction p.1 p.2)).recordAction a env).2.actions
      = (earlier ++ [(a, env)]).map (fun p => Action.ofInput p.1 p.2) := by
    rw [hrun]
    simp [DrawingState.new]
  have hidx : (((DrawingState.new roomId now).runOps
        (earlier.map fun p => HistoryOp.recordAction p.1 p.2)).recordAction a env).2.historyIndex
      = ((earlier.length + 1 : Nat) : Int) - 1 := by
    rw [hrun]
    simp [DrawingState.new]
  refine ⟨?_, hacts, hidx⟩
  have hacts2 : (((DrawingState.new roomId now).runOps
        (earlier.map fun p => HistoryOp.recordAction p.1 p.2)).pushAction
          (Action.ofInput a env)).actions
      = (earlier ++ [(a, env)]).map (fun p => Action.ofInput p.1 p.2) := hacts
  have hidx2 : (((DrawingState.new roomId now).runOps
        (earlier.map fun p => HistoryOp.recordAction p.1 p.2)).pushAction
          (Action.ofInput a env)).historyIndex
      = ((earlier.length + 1 : Nat) : Int) - 1 := hidx
  show Option.map _ (jsIndex _ _) = _
  rw [hacts2, hidx2]
  unfold jsIndex
  rw [if_pos (by omega)]
  have hlast : ((earlier ++ [(a, env)]).map (fun p => Action.ofInput p.1 p.2))[
      (((earlier.length + 1 : Nat) : Int) - 1).toNat]? = some (Action.ofInput a env) := by
    have : (((earlier.length + 1 : Nat) : Int) - 1).toNat = earlier.length := by omega
    rw [this]
    simp [List.getElem?_append_right]
  rw [hlast]
  simp [Action.ofInput]

/-- C12 for n = 2: the bound holds and the second record on a fresh object
returns index 1 and two actions. -/
theorem nth_record_on_fresh_witness :
    (1 + 1 ≤ 100) ∧
    (((DrawingState.new (.str "r1") 0).runOps
        [HistoryOp.recordAction (scenarioMsg "draw" "A" "r1").toActionInput scenarioEnv]).recordAction
          (scenarioMsg "draw" "B" "r1").toActionInput scenarioEnv).1
      = some { actionId := ActionId.stamped 3 4, historyIndex := 1, totalActions := 2 } :=
  ⟨by decide,
    (nth_record_on_fresh (.str "r1") 0
      [((scenarioMsg "draw" "A" "r1").toActionInput, scenarioEnv)]
      (scenarioMsg "draw" "B" "r1").toActionInput scenarioEnv (by decide)).1⟩

end Canvas

namespace Canvas

/-! ## Eviction at the size bound, and clear -/

theorem DrawingState.pushAction_reachable_spec (s : DrawingState) (a : Action)
    (hinv : s.Inv) (hmax : s.maxHistorySize = 100) :
    (s.pushAction a).actions =
      (if (s.actions.take (s.historyIndex + 1).toNat ++ [a]).length > 100
        then (s.actions.take (s.historyIndex + 1).toNat ++ [a]).tail
        else s.actions.take (s.historyIndex + 1).toNat ++ [a]) ∧
    (s.pushAction a).historyIndex = ((s.pushAction a).actions.length : Int) - 1 ∧
    jsIndex (s.pushAction a).actions (s.pushAction a).historyIndex = some a := by
  have htr := DrawingState.truncated_eq_take s hinv
  have hidx := DrawingState.pushAction_index_last s a hinv
  have hacts := DrawingState.pushAction_actions s a
  rw [htr, hmax] at hacts
  have hone : 1 ≤ (s.pushAction a).actions.length :=
    (DrawingState.pushAction_length_bounds s a hinv (by omega)).2
  have hlast : (s.pushAction a).actions.getLast? = some a := by
    rw [hacts]
    split
    · rename_i hgt
      cases hk : s.actions.take (s.historyIndex + 1).toNat with
      | nil => rw [hk] at hgt; simp at hgt
      | cons x xs => simp
    · simp
  refine ⟨hacts, hidx, ?_⟩
  unfold jsIndex
  rw [if_pos (by omega)]
  rw [List.getLast?_eq_getElem?] at hlast
  have : (s.pushAction a).historyIndex.toNat = (s.pushAction a).actions.length - 1 := by omega
  rw [this]
  exact hlast

/-- C13: on a DrawingState that holds exactly 100 actions with historyIndex = 99
(and the size bound 100 of the constructor), recordAction returns totalActions =
100 and historyIndex = 99; the stored list is the former list without its first
element, in the same order, followed by the new action; the index is one less
than the index 100 that the append produced, and position 99 holds the new
action. -/
theorem record_at_capacity_evicts_oldest (s : DrawingState) (a : ActionInput) (env : Env)
    (hlen : s.actions.length = 100) (hidx : s.historyIndex = 99)
    (hmax : s.maxHistorySize = 100) :
    (s.recordAction a env).1 = some
      { actionId := (Action.ofInput a env).id, historyIndex := 99, totalActions := 100 } ∧
    (s.recordAction a env).2.actions = s.actions.tail ++ [Action.ofInput a env] ∧
    (s.recordAction a env).2.actions.length = 100 ∧
    (s.recordAction a env).2.historyIndex = (s.historyIndex + 1) - 1 ∧
    s.historyIndex + 1 = 100 ∧
    (s.recordAction a env).2.historyIndex = 99 ∧
    jsIndex (s.recordAction a env).2.actions 99 = some (Action.ofInput a env) := by
  have htr : s.truncated = s.actions := by
    unfold DrawingState.truncated
    rw [if_neg (by omega)]
  have hne : s.actions ≠ [] := by
    intro h0
    rw [h0] at hlen
    simp at hlen
  have hpush : s.pushAction (Action.ofInput a env) =
      { s with actions := s.actions.tail ++ [Action.ofInput a env],
               historyIndex := s.historyIndex + 1 - 1 } := by
    unfold DrawingState.pushAction
    simp only [htr, List.length_append, List.length_singleton]
    rw [if_pos (by omega)]
    congr 1
    cases hs : s.actions with
    | nil => exact absurd hs hne
    | cons x xs => rfl
  have hacts : (s.recordAction a env).2.actions = s.actions.tail ++ [Action.ofInput a env] := by
    show (s.pushAction _).actions = _
    rw [hpush]
  have hhi : (s.recordAction a env).2.historyIndex = s.historyIndex + 1 - 1 := by
    show (s.pushAction _).historyIndex = _
    rw [hpush]
  have hl : (s.recordAction a env).2.actions.length = 100 := by
    rw [hacts]
    simp only [List.length_append, List.length_tail, List.length_singleton]
    omega
  have hget : jsIndex (s.recordAction a env).2.actions 99 = some (Action.ofInput a env) := by
    rw [hacts]
    unfold jsIndex
    rw [if_pos (by omega)]
    have h99 : (99 : Int).toNat = s.actions.tail.length := by
      simp only [List.length_tail]
      omega
    rw [h99]
    simp
  refine ⟨?_, hacts, hl, hhi, by omega, by rw [hhi]; omega, hget⟩
  show Option.map _ (jsIndex (s.recordAction a env).2.actions
    (s.recordAction a env).2.historyIndex) = _
  have h99 : (s.recordAction a env).2.historyIndex = 99 := by rw [hhi]; omega
  rw [h99, hget]
  have h99b : (s.pushAction (Action.ofInput a env)).historyIndex = 99 := h99
  have hlb : (s.pushAction (Action.ofInput a env)).actions.length = 100 := hl
  simp only [Option.map_some', h99b, hlb]

/-- C13 at a history of 100 equal strokes with index 99: the hypotheses hold
there, and the record leaves 100 actions with index 99. -/
theorem record_at_capacity_evicts_oldest_witness :
    fullHistory.actions.length = 100 ∧ fullHistory.historyIndex = 99 ∧
    fullHistory.maxHistorySize = 100 ∧
    (fullHistory.recordAction (scenarioMsg "draw" "B" "r1").toActionInput scenarioEnv).1 = some
      { actionId := ActionId.stamped 3 4, historyIndex := 99, totalActions := 100 } ∧
    (fullHistory.recordAction (scenarioMsg "draw" "B" "r1").toActionInput
      scenarioEnv).2.actions.length = 100 :=
  have h1 : fullHistory.actions.length = 100 := List.length_replicate _ _
  have h := record_at_capacity_evicts_oldest fullHistory
    (scenarioMsg "draw" "B" "r1").toActionInput scenarioEnv h1 rfl rfl
  ⟨h1, rfl, rfl, h.1, h.2.2.1⟩

/-- C14: clear returns a result on every DrawingState (it has no failing case);
on a reachable DrawingState with index c the stored list becomes the former
actions 0..c followed by the new action, whose type is clear, less the oldest
one when the list would exceed 100; the returned historyIndex is the index after
the call, the position of the clear action, and equals actionCount - 1, where
actionCount is the number of stored actions after the call. -/
theorem clear_truncates_then_appends (s : DrawingState) (env : Env) (h : s.Reachable) :
    (s.clear env).2.actions =
      (if (s.actions.take (s.historyIndex + 1).toNat ++ [Action.clearAction env]).length > 100
        then (s.actions.take (s.historyIndex + 1).toNat ++ [Action.clearAction env]).tail
        else s.actions.take (s.historyIndex + 1).toNat ++ [Action.clearAction env]) ∧
    (Action.clearAction env).type = "clear" ∧
    (s.clear env).1.historyIndex = (s.clear env).2.historyIndex ∧
    (s.clear env).1.actionCount = (s.clear env).2.actions.length ∧
    jsIndex (s.clear env).2.actions (s.clear env).1.historyIndex
      = some (Action.clearAction env) ∧
    (s.clear env).1.historyIndex = ((s.clear env).1.actionCount : Int) - 1 := by
  obtain ⟨hinv, hmax⟩ := DrawingState.reachable_inv s h
  obtain ⟨h1, h2, h3⟩ :=
    DrawingState.pushAction_reachable_spec s (Action.clearAction env) hinv hmax
  exact ⟨h1, rfl, rfl, rfl, h3, h2⟩

/-- C14 at the state with three actions and index 0: the state is reachable, and
clear leaves the first action followed by the clear action, with index 1. -/
theorem clear_truncates_then_appends_witness :
    threeRecordsTwoUndos.Reachable ∧
    (threeRecordsTwoUndos.clear scenarioEnv).2.actions
      = [scenarioStroke "A" "r1", Action.clearAction scenarioEnv] ∧
    (threeRecordsTwoUndos.clear scenarioEnv).1.historyIndex = 1 :=
  have hr : threeRecordsTwoUndos.Reachable := ⟨_, _, _, rfl⟩
  have h := clear_truncates_then_appends threeRecordsTwoUndos scenarioEnv hr
  ⟨hr, h.1.trans (by decide), h.2.2.2.2.2.trans (by decide)⟩

end Canvas

namespace Canvas

/-! ## Identifiers of stored actions -/

theorem DrawingState.truncated_sublist (s : DrawingState) : List.Sublist s.truncated s.actions := by
  unfold DrawingState.truncated jsSlice0
  split
  · exact List.take_sublist _ _
  · exact List.Sublist.refl _

theorem DrawingState.pushAction_sublist (s : DrawingState) (a : Action) :
    List.Sublist (s.pushAction a).actions (s.actions ++ [a]) := by
  rw [DrawingState.pushAction_actions]
  have h1 : List.Sublist (s.truncated ++ [a]) (s.actions ++ [a]) :=
    (DrawingState.truncated_sublist s).append_right [a]
  split
  · exact (List.tail_sublist _).trans h1
  · exact h1

theorem DrawingState.applyOp_clocks (s : DrawingState) (op : HistoryOp) (rest : List Nat)
    (h : ((s.actions.map fun a => a.id.now) ++ ((op.idClock).toList ++ rest)).Pairwise
      (fun x y => x < y)) :
    (((s.applyOp op).actions.map fun a => a.id.now) ++ rest).Pairwise (fun x y => x < y) := by
  cases op with
  | recordAction a env =>
    have hsub := ((DrawingState.pushAction_sublist s (Action.ofInput a env)).map
      (fun a => a.id.now)).append_right rest
    refine List.Pairwise.sublist hsub ?_
    simpa [HistoryOp.idClock, Action.ofInput, ActionId.now] using h
  | clear env =>
    have hsub := ((DrawingState.pushAction_sublist s (Action.clearAction env)).map
      (fun a => a.id.now)).append_right rest
    refine List.Pairwise.sublist hsub ?_
    simpa [HistoryOp.idClock, Action.clearAction, ActionId.now] using h
  | undo =>
    have ha : (s.applyOp .undo).actions = s.actions := by
      show s.undo.2.actions = s.actions
      unfold DrawingState.undo
      split <;> rfl
    rw [ha]
    simpa [HistoryOp.idClock] using h
  | redo =>
    have ha : (s.applyOp .redo).actions = s.actions := by
      show s.redo.2.actions = s.actions
      unfold DrawingState.redo
      split <;> rfl
    rw [ha]
    simpa [HistoryOp.idClock] using h

theorem DrawingState.runOps_clocks (ops : List HistoryOp) (s : DrawingState)
    (h : ((s.actions.map fun a => a.id.now) ++ ops.filterMap HistoryOp.idClock).Pairwise
      (fun x y => x < y)) :
    ((s.runOps ops).actions.map fun a => a.id.now).Pairwise (fun x y => x < y) := by
  induction ops generalizing s with
  | nil => simpa [DrawingState.runOps] using h
  | cons op rest ih =>
    show ((DrawingState.runOps (s.applyOp op) rest).actions.map _).Pairwise _
    apply ih
    apply DrawingState.applyOp_clocks
    cases hc : op.idClock with
    | none => simpa [List.filterMap_cons, hc] using h
    | some t => simpa [List.filterMap_cons, hc] using h

/-- C15, the claim as stated fails: two clear calls that read the same clock
value store two actions with the same identifier, and so do two recordAction
calls that read the same clock value and draw the same random number; the
identifiers are then not pairwise distinct, hence not strictly increasing. -/
theorem equal_clock_readings_give_equal_ids :
    (((DrawingState.new (.str "r1") 0).runOps
        [.clear scenarioEnv, .clear scenarioEnv]).actions.map fun a => a.id)
      = [ActionId.cleared 3, ActionId.cleared 3] ∧
    ¬ (((DrawingState.new (.str "r1") 0).runOps
        [.clear scenarioEnv, .clear scenarioEnv]).actions.map fun a => a.id).Nodup ∧
    ¬ (threeRecords.actions.map fun a => a.id).Nodup := by
  decide

/-- C15 as amended: for every sequence of recordAction, undo, redo and clear
calls on a fresh DrawingState in which the clock readings taken for the
identifiers are strictly increasing from call to call, the clock readings held
in the identifiers of the stored actions are strictly increasing in storage
order, and the identifiers are pairwise distinct, whatever the random draws. -/
theorem ids_increase_when_clock_does (roomId : JsVal) (now : Nat) (ops : List HistoryOp)
    (hclock : (ops.filterMap HistoryOp.idClock).Pairwise (fun x y => x < y)) :
    (((DrawingState.new roomId now).runOps ops).actions.map fun a => a.id.now).Pairwise
      (fun x y => x < y) ∧
    (((DrawingState.new roomId now).runOps ops).actions.map fun a => a.id).Nodup := by
  have h1 := DrawingState.runOps_clocks ops (DrawingState.new roomId now)
    (by simpa [DrawingState.new] using hclock)
  refine ⟨h1, ?_⟩
  have h2 : ((((DrawingState.new roomId now).runOps ops).actions.map fun a => a.id).map
      ActionId.now).Nodup := by
    rw [List.map_map]
    exact List.Pairwise.imp (fun hxy => Nat.ne_of_lt hxy) h1
  exact List.Nodup.of_map _ h2

/-- C15 as amended, for a record at clock reading 3 followed by a clear at clock
reading 8: the readings increase, and the two stored identifiers are distinct. -/
theorem ids_increase_when_clock_does_witness :
    ([HistoryOp.recordAction (scenarioMsg "draw" "A" "r1").toActionInput scenarioEnv,
      HistoryOp.clear { scenarioEnv with tId := 8 }].filterMap HistoryOp.idClock).Pairwise
        (fun x y => x < y) ∧
    (((DrawingState.new (.str "r1") 0).runOps
      [HistoryOp.recordAction (scenarioMsg "draw" "A" "r1").toActionInput scenarioEnv,
       HistoryOp.clear { scenarioEnv with tId := 8 }]).actions.map fun a => a.id).Nodup :=
  have hc : ([HistoryOp.recordAction (scenarioMsg "draw" "A" "r1").toActionInput scenarioEnv,
      HistoryOp.clear { scenarioEnv with tId := 8 }].filterMap HistoryOp.idClock).Pairwise
        (fun x y => x < y) := by decide
  ⟨hc, (ids_increase_when_clock_does (.str "r1") 0 _ hc).2⟩

end Canvas

namespace Canvas

/-! ## The undo and redo messages, and cursor messages -/

theorem handleUndo_msgs (st : ServerState) (c : ConnId) (m : Message) (env : Env) :
    ∀ s ∈ (handleUndo st c m env).sends, s.msg = .undo m.userId .undefined m.timestamp := by
  intro s hs
  unfold handleUndo at hs
  split at hs
  · simp [Handled.skip] at hs
  · split at hs
    · simp [Handled.skip] at hs
    · obtain ⟨p, _, hsp, _⟩ := broadcast_mem _ _ _ _ s hs
      rw [hsp]
      rfl

theorem handleRedo_msgs (st : ServerState) (c : ConnId) (m : Message) (env : Env) :
    ∀ s ∈ (handleRedo st c m env).sends, s.msg = .redo m.userId .undefined m.timestamp := by
  intro s hs
  unfold handleRedo at hs
  split at hs
  · simp [Handled.skip] at hs
  · split at hs
    · simp [Handled.skip] at hs
    · obtain ⟨p, _, hsp, _⟩ := broadcast_mem _ _ _ _ s hs
      rw [hsp]
      rfl

/-- C16, evaluated on the code: every undo (redo) message that handleUndo
(handleRedo) sends has the value undefined in its historyStep field, which is
the one field taken from the result of undo() (redo()); the other two fields are
the userId and the timestamp of the request. With A in room r1 after two
strokes, undo() returns historyIndex 0 and the message sent is the undo message
with userId A, historyStep undefined and timestamp 7; the redo that follows
returns historyIndex 1 and its message has historyStep undefined as well. -/
theorem undo_message_carries_no_index :
    (∀ (st : ServerState) (c : ConnId) (m : Message) (env : Env),
      ∀ s ∈ (handleUndo st c m env).sends, s.msg = .undo m.userId .undefined m.timestamp) ∧
    (∀ (st : ServerState) (c : ConnId) (m : Message) (env : Env),
      ∀ s ∈ (handleRedo st c m env).sends, s.msg = .redo m.userId .undefined m.timestamp) ∧
    (mapGet afterJoinTwoDraws.states (.str "r1")).map (fun ds => ds.undo.1)
      = some { success := true, historyIndex := 0, actionCount := 2 } ∧
    (step afterJoinTwoDraws (scenarioEvent 1 "undo" "A" "r1")).2
      = [Send.mk 1 (.undo (.str "A") .undefined (.num 7))] ∧
    (mapGet (step afterJoinTwoDraws (scenarioEvent 1 "undo" "A" "r1")).1.states
        (.str "r1")).map (fun ds => ds.redo.1)
      = some { success := true, historyIndex := 1, actionCount := 2 } ∧
    (step (step afterJoinTwoDraws (scenarioEvent 1 "undo" "A" "r1")).1
        (scenarioEvent 1 "redo" "A" "r1")).2
      = [Send.mk 1 (.redo (.str "A") .undefined (.num 7))] :=
  ⟨handleUndo_msgs, handleRedo_msgs, by decide, by decide, by decide, by decide⟩

theorem handleCursor_states (st : ServerState) (c : ConnId) (m : Message) :
    (handleCursor st c m).state.states = st.states := by
  unfold handleCursor
  split
  · rfl
  · simp only
    split <;> rfl

theorem handleCursor_not_threw (st : ServerState) (c : ConnId) (m : Message) :
    (handleCursor st c m).threw = false := by
  unfold handleCursor
  split
  · rfl
  · simp only
    split <;> rfl

theorem handleMessage_cursor (st : ServerState) (c : ConnId) (m : Message) (env : Env) :
    handleMessage st c { m with type := .str "cursor" } env = handleCursor st c m := by
  unfold handleMessage
  simp only [JsVal.str.injEq, String.reduceEq, if_false, if_true]
  rfl

/-- C18: for every server state, every connection and every cursor message,
handleCursor leaves the map of histories as it was, so every DrawingState has
the same stored actions and the same historyIndex before and after; the same
holds for the whole handling of an inbound message of type cursor, which sends
no error reply. -/
theorem cursor_leaves_histories (st : ServerState) (c : ConnId) (m : Message) (env : Env) :
    (handleCursor st c m).state.states = st.states ∧
    (∀ roomId : JsVal,
      (mapGet (handleCursor st c m).state.states roomId).map (fun ds => ds.actions)
        = (mapGet st.states roomId).map (fun ds => ds.actions) ∧
      (mapGet (handleCursor st c m).state.states roomId).map (fun ds => ds.historyIndex)
        = (mapGet st.states roomId).map (fun ds => ds.historyIndex)) ∧
    onMessage st c (.decoded { m with type := .str "cursor" }) env
      = ((handleCursor st c m).state, (handleCursor st c m).sends) ∧
    (onMessage st c (.decoded { m with type := .str "cursor" }) env).1.states = st.states := by
  have hdisp : onMessage st c (.decoded { m with type := .str "cursor" }) env
      = ((handleCursor st c m).state, (handleCursor st c m).sends) := by
    rw [onMessage_of_not_threw _ _ _ _
      (by rw [handleMessage_cursor]; exact handleCursor_not_threw st c m), handleMessage_cursor]
  refine ⟨handleCursor_states st c m, ?_, hdisp, ?_⟩
  · intro roomId
    rw [handleCursor_states]
    exact ⟨rfl, rfl⟩
  · rw [hdisp]
    exact handleCursor_states st c m

end Canvas

namespace Canvas

/-! ## Two draw messages in a row -/

theorem DrawingStateManager.recordAction_present (states : List (JsVal × DrawingState))
    (roomId : JsVal) (action : ActionInput) (env : Env) (ds : DrawingState)
    (hds : mapGet states roomId = some ds) :
    DrawingStateManager.recordAction states roomId action env
      = ((ds.recordAction action env).1, mapSet states roomId (ds.recordAction action env).2) := by
  have hg : DrawingStateManager.getOrCreateState states roomId env.tState = (ds, states) := by
    unfold DrawingStateManager.getOrCreateState
    rw [hds]
  unfold DrawingStateManager.recordAction
  rw [hg]

theorem handleDraw_at_end (st : ServerState) (c : ConnId) (m : Message) (env : Env)
    (room : Room) (ds : DrawingState)
    (hok : st.HistoriesOk) (hr : (st.clientOf c).roomId.truthy = true)
    (hroom : RoomManager.getRoom st.rooms (st.clientOf c).roomId = some room)
    (hds : mapGet st.states (st.clientOf c).roomId = some ds)
    (hcur : ds.historyIndex = (ds.actions.length : Int) - 1)
    (hlen : ds.actions.length + 1 ≤ 100) :
    (handleDraw st c m env).state =
      { st with states := mapSet st.states (st.clientOf c).roomId
                            (ds.appended (Action.ofInput m.toActionInput env)) } ∧
    (handleDraw st c m env).sends = room.broadcast st.clientOf m.toDrawMsg m.userId ∧
    (handleDraw st c m env).threw = false := by
  obtain ⟨hs, ht⟩ := handleDraw_sends st c m env room hok hr hroom
  have hmax : ds.maxHistorySize = 100 := (hok _ (mapGet_mem _ _ _ hds)).2
  have hpush : (ds.recordAction m.toActionInput env).2 =
      ds.appended (Action.ofInput m.toActionInput env) :=
    DrawingState.pushAction_at_end ds _ hcur (by omega)
  refine ⟨?_, hs, ht⟩
  have hrec := DrawingStateManager.recordAction_present st.states (st.clientOf c).roomId
    m.toActionInput env ds hds
  rw [hpush] at hrec
  unfold handleDraw
  simp only [hr, Bool.not_true, Bool.false_eq_true, if_false, hroom, hrec]
  split <;> rfl

theorem step_message (st : ServerState) (c : ConnId) (data : Inbound) (env : Env) :
    step st (.message c data env) = onMessage st c data env := rfl

theorem clientOf_states_irrelevant (st : ServerState) (states : List (JsVal × DrawingState)) :
    ({ st with states := states } : ServerState).clientOf = st.clientOf := rfl

/-- C17, the claim as stated fails: with A and B in room r1 and one stored
stroke, a draw message of A that has no timestamp is recorded with the clock
reading 5 of the server as its timestamp, while the draw broadcast that B
receives has no timestamp; and with A and B in the room whose roomId is the
empty string, a draw of A followed by a draw of B leaves the history of that room
with no action. -/
theorem draw_without_timestamp_differs_from_record :
    ((step twoAuthors (.message 1 (.decoded (drawWithoutTimestamp "A" "r1")) scenarioEnv)).2
        = [Send.mk 2 (.draw (.str "A") (.num 0) (.num 0) (.num 10) (.num 10) (.str "#000000")
            (.num 2) (.str "brush") .undefined)] ∧
      (mapGet (step twoAuthors (.message 1 (.decoded (drawWithoutTimestamp "A" "r1"))
          scenarioEnv)).1.states (.str "r1")).map
            (fun ds => (ds.actions.map fun a => a.timestamp))
        = some [.num 7, .num 5]) ∧
    ((mapGet twoInEmptyRoomId.states (.str "")).map DrawingState.getActionCount = some 0 ∧
      (mapGet (runTrace twoInEmptyRoomId
          [scenarioEvent 1 "draw" "A" "", scenarioEvent 2 "draw" "B" ""]).1.states
        (.str "")).map DrawingState.getActionCount = some 0) := by
  decide

/-- C17 as amended: in a reachable state, let two sessions have the same truthy
roomId, which names a room of the registry whose history has its index on the
last action and at most 98 actions. Handling a draw message of the first and
then one of the second makes the stored list the former list followed by the
action recorded for the first and then the one recorded for the second, two
more than before, with the index on the last; the messages sent are the draw
broadcast of the first followed by the draw broadcast of the second; each
broadcast has the from and to points, color, width, tool and author of the
action recorded for it, and its timestamp whenever the timestamp of the request
is truthy. -/
theorem two_draws_recorded_and_broadcast_in_order (st : ServerState) (c1 c2 : ConnId)
    (m1 m2 : Message) (env1 env2 : Env) (room : Room) (ds : DrawingState)
    (hreach : st.Reachable)
    (hr : (st.clientOf c1).roomId.truthy = true)
    (hsame : (st.clientOf c2).roomId = (st.clientOf c1).roomId)
    (hroom : RoomManager.getRoom st.rooms (st.clientOf c1).roomId = some room)
    (hds : mapGet st.states (st.clientOf c1).roomId = some ds)
    (hcur : ds.historyIndex = (ds.actions.length : Int) - 1)
    (hlen : ds.actions.length ≤ 98) :
    (∃ ds2, mapGet (runTrace st
          [.message c1 (.decoded { m1 with type := .str "draw" }) env1,
           .message c2 (.decoded { m2 with type := .str "draw" }) env2]).1.states
          (st.clientOf c1).roomId = some ds2 ∧
      ds2.actions = ds.actions ++
        [Action.ofInput m1.toActionInput env1, Action.ofInput m2.toActionInput env2] ∧
      ds2.getActionCount = ds.getActionCount + 2 ∧
      ds2.historyIndex = (ds2.actions.length : Int) - 1) ∧
    (runTrace st
        [.message c1 (.decoded { m1 with type := .str "draw" }) env1,
         .message c2 (.decoded { m2 with type := .str "draw" }) env2]).2
      = room.broadcast st.clientOf m1.toDrawMsg m1.userId
        ++ room.broadcast st.clientOf m2.toDrawMsg m2.userId ∧
    (∀ (m : Message) (env : Env),
      m.toDrawMsg = .draw (Action.ofInput m.toActionInput env).userId
        (Action.ofInput m.toActionInput env).fromX (Action.ofInput m.toActionInput env).fromY
        (Action.ofInput m.toActionInput env).toX (Action.ofInput m.toActionInput env).toY
        (Action.ofInput m.toActionInput env).color (Action.ofInput m.toActionInput env).width
        (Action.ofInput m.toActionInput env).tool m.timestamp ∧
      (m.timestamp.truthy = true →
        (Action.ofInput m.toActionInput env).timestamp = m.timestamp)) := by
  have hok := (reachable_invariants st hreach).1
  obtain ⟨hst1, hs1, ht1⟩ :=
    handleDraw_at_end st c1 m1 env1 room ds hok hr hroom hds hcur (by omega)
  have hstep1 : step st (.message c1 (.decoded { m1 with type := .str "draw" }) env1)
      = ((handleDraw st c1 m1 env1).state, (handleDraw st c1 m1 env1).sends) := by
    rw [step_message, onMessage_of_not_threw _ _ _ _ (by rw [handleMessage_draw]; exact ht1),
      handleMessage_draw]
  have hok1 : (handleDraw st c1 m1 env1).state.HistoriesOk :=
    handleDraw_histories st c1 m1 env1 hok
  have hcl : (handleDraw st c1 m1 env1).state.clientOf = st.clientOf := by
    rw [hst1]
    rfl
  have hrooms : (handleDraw st c1 m1 env1).state.rooms = st.rooms := handleDraw_rooms st c1 m1 env1
  have hds1 : mapGet (handleDraw st c1 m1 env1).state.states (st.clientOf c1).roomId
      = some (ds.appended (Action.ofInput m1.toActionInput env1)) := by
    rw [hst1]
    exact mapGet_mapSet_self _ _ _
  obtain ⟨hst2, hs2, ht2⟩ :=
    handleDraw_at_end (handleDraw st c1 m1 env1).state c2 m2 env2 room _ hok1
      (by rw [hcl, hsame]; exact hr)
      (by rw [hcl, hsame, hrooms]; exact hroom)
      (by rw [hcl, hsame]; exact hds1)
      (by simp [DrawingState.appended])
      (by simp [DrawingState.appended]; omega)
  have hstep2 : step (handleDraw st c1 m1 env1).state
        (.message c2 (.decoded { m2 with type := .str "draw" }) env2)
      = ((handleDraw (handleDraw st c1 m1 env1).state c2 m2 env2).state,
         (handleDraw (handleDraw st c1 m1 env1).state c2 m2 env2).sends) := by
    rw [step_message, onMessage_of_not_threw _ _ _ _ (by rw [handleMessage_draw]; exact ht2),
      handleMessage_draw]
  have hrun : runTrace st
      [.message c1 (.decoded { m1 with type := .str "draw" }) env1,
       .message c2 (.decoded { m2 with type := .str "draw" }) env2]
      = ((handleDraw (handleDraw st c1 m1 env1).state c2 m2 env2).state,
         (handleDraw st c1 m1 env1).sends
          ++ (handleDraw (handleDraw st c1 m1 env1).state c2 m2 env2).sends) := by
    simp only [runTrace, hstep1, hstep2, List.append_nil]
  rw [hrun]
  refine ⟨?_, ?_, ?_⟩
  · refine ⟨(ds.appended (Action.ofInput m1.toActionInput env1)).appended
      (Action.ofInput m2.toActionInput env2), ?_, ?_, ?_, ?_⟩
    · show mapGet (handleDraw (handleDraw st c1 m1 env1).state c2 m2 env2).state.states _ = _
      rw [hst2, hcl, hsame]
      exact mapGet_mapSet_self _ _ _
    · simp [DrawingState.appended]
    · simp [DrawingState.getActionCount, DrawingState.appended]
    · simp only [DrawingState.appended, List.length_append, List.length_singleton]
      push_cast
      omega
  · show (handleDraw st c1 m1 env1).sends
      ++ (handleDraw (handleDraw st c1 m1 env1).state c2 m2 env2).sends = _
    rw [hs1, hs2, hcl]
  · intro m env
    refine ⟨rfl, ?_⟩
    intro ht
    simp [Action.ofInput, Message.toActionInput, JsVal.or, ht]

/-- C17 as amended, with A and B in room r1 after one stroke of A: the
hypotheses hold for a draw of A followed by a draw of B, and the history of r1
then holds three actions. -/
theorem two_draws_recorded_and_broadcast_in_order_witness :
    twoAuthors.Reachable ∧
    (twoAuthors.clientOf 1).roomId.truthy = true ∧
    (twoAuthors.clientOf 2).roomId = (twoAuthors.clientOf 1).roomId ∧
    RoomManager.getRoom twoAuthors.rooms (twoAuthors.clientOf 1).roomId = some roomOfTwo ∧
    (runTrace twoAuthors
        [.message 1 (.decoded { scenarioMsg "draw" "A" "r1" with type := .str "draw" })
            scenarioEnv,
         .message 2 (.decoded { scenarioMsg "draw" "B" "r1" with type := .str "draw" })
            scenarioEnv]).2
      = roomOfTwo.broadcast twoAuthors.clientOf (scenarioMsg "draw" "A" "r1").toDrawMsg
          (.str "A")
        ++ roomOfTwo.broadcast twoAuthors.clientOf (scenarioMsg "draw" "B" "r1").toDrawMsg
          (.str "B") :=
  have hr : twoAuthors.Reachable := ⟨_, rfl⟩
  have h := two_draws_recorded_and_broadcast_in_order twoAuthors 1 2
    (scenarioMsg "draw" "A" "r1") (scenarioMsg "draw" "B" "r1") scenarioEnv scenarioEnv
    roomOfTwo
    { roomId := .str "r1", actions := [scenarioStroke "A" "r1"], historyIndex := 0,
      maxHistorySize := 100, lastCanvasSnapshot := .null, createdAt := 2 }
    hr (by decide) (by decide) (by decide) (by decide) (by decide) (by decide)
  ⟨hr, by decide, by decide, by decide, h.2.1⟩

end Canvas

namespace Canvas

/-! ## Closing a connection -/

theorem clientOf_markNotOpen_self (st : ServerState) (c : ConnId) :
    (markNotOpen st c).clientOf c
      = { st.clientOf c with wsOpen := false, wsClosing := false } := by
  unfold markNotOpen ServerState.clientOf
  simp only [mapGet_mapSet_self, Option.getD_some]

theorem clientOf_markClosing_self (st : ServerState) (c : ConnId) :
    (markClosing st c).clientOf c
      = { st.clientOf c with wsOpen := false, wsClosing := true } := by
  unfold markClosing ServerState.clientOf
  simp only [mapGet_mapSet_self, Option.getD_some]

theorem clientOf_markClosing_other (st : ServerState) (c c2 : ConnId) (h : c ≠ c2) :
    (markClosing st c).clientOf c2 = st.clientOf c2 := by
  unfold markClosing ServerState.clientOf
  simp only [mapGet_mapSet_other _ _ _ _ h]

theorem clientOf_markNotOpen_other (st : ServerState) (c c2 : ConnId) (h : c ≠ c2) :
    (markNotOpen st c).clientOf c2 = st.clientOf c2 := by
  unfold markNotOpen ServerState.clientOf
  simp only [mapGet_mapSet_other _ _ _ _ h]

theorem wsOpen_markNotOpen (st : ServerState) (c c2 : ConnId) :
    ((markNotOpen st c).clientOf c2).wsOpen = (decide (c2 ≠ c) && (st.clientOf c2).wsOpen) := by
  by_cases h : c2 = c
  · subst h
    rw [clientOf_markNotOpen_self]
    simp
  · rw [clientOf_markNotOpen_other st c c2 (fun hc => h hc.symm)]
    simp [h]

theorem filterMap_if_eq_map_filter {α β : Type} (q : α → Bool) (f : α → β) (l : List α) :
    l.filterMap (fun x => if q x = true then some (f x) else none) = (l.filter q).map f := by
  induction l with
  | nil => rfl
  | cons hd tl ih =>
    by_cases hq : q hd = true
    · simp [List.filterMap_cons, List.filter_cons, hq, ih]
    · simp [List.filterMap_cons, List.filter_cons, hq, ih]

theorem broadcast_null_eq (room : Room) (clientOf : ConnId → ClientInfo) (msg : OutMsg) :
    room.broadcast clientOf msg .null
      = (room.users.filter fun p => (clientOf p.2).wsOpen).map fun p => Send.mk p.2 msg := by
  unfold Room.broadcast
  simp only [JsVal.truthy, Bool.false_and, Bool.false_eq_true, if_false]
  exact filterMap_if_eq_map_filter (fun p : JsVal × ConnId => (clientOf p.2).wsOpen)
    (fun p : JsVal × ConnId => Send.mk p.2 msg) _

theorem onClose_joined (st : ServerState) (c : ConnId)
    (hr : (st.clientOf c).roomId.truthy = true) (hu : (st.clientOf c).userId.truthy = true) :
    onClose st c = ((handleDisconnect (markNotOpen st c) c).state,
      (handleDisconnect (markNotOpen st c) c).sends) := by
  unfold onClose
  rw [clientOf_markNotOpen_self]
  simp only [hr, hu, Bool.and_self, if_true]

/-- C19, the claim as stated fails: a session that joined room r1 with the empty
string as userId and B are in room r1; when the connection of the former
closes, the registry and the room are as before, with both participants, and
nothing is sent to B. -/
theorem close_with_empty_userId_removes_nothing :
    RoomManager.getRoom emptyUserIdAndB.rooms (.str "r1")
      = some { roomId := .str "r1", users := [(.str "", 1), (.str "B", 2)], createdAt := 1 } ∧
    (emptyUserIdAndB.clientOf 2).wsOpen = true ∧
    (step emptyUserIdAndB (.close 1)).1.rooms = emptyUserIdAndB.rooms ∧
    (step emptyUserIdAndB (.close 1)).2 = [] := by
  decide

/-- C19 as amended: when the connection of a session whose roomId and userId are
truthy closes and the roomId names a room of the registry, the entry under that
userId is removed from the room. If no participant is left, the room is deleted
from the registry and nothing is sent. Otherwise the registry holds the room
with the remaining participants, and the messages sent are one user-left
message naming the userId of the leaver for each remaining participant whose
connection is another one and whose handle is open, in the order of the map;
none goes to the connection that closed. Scenarios: with A, B and C in the room,
the close of A sends user-left A to B and C; with A alone, the close of A empties
the registry and sends nothing. -/
theorem close_removes_participant (st : ServerState) (c : ConnId) (room : Room)
    (hr : (st.clientOf c).roomId.truthy = true) (hu : (st.clientOf c).userId.truthy = true)
    (hroom : RoomManager.getRoom st.rooms (st.clientOf c).roomId = some room) :
    (∀ p ∈ (room.removeUser (st.clientOf c).userId).users, p.1 ≠ (st.clientOf c).userId) ∧
    (if (room.removeUser (st.clientOf c).userId).users = [] then
      RoomManager.getRoom (onClose st c).1.rooms (st.clientOf c).roomId = none ∧
      (onClose st c).2 = []
     else
      RoomManager.getRoom (onClose st c).1.rooms (st.clientOf c).roomId
        = some (room.removeUser (st.clientOf c).userId) ∧
      (onClose st c).2 =
        ((room.removeUser (st.clientOf c).userId).users.filter fun p =>
            decide (p.2 ≠ c) && (st.clientOf p.2).wsOpen).map
          (fun p => Send.mk p.2 (.userLeft (st.clientOf c).userId)) ∧
      (∀ s ∈ (onClose st c).2, s.dest ≠ c)) ∧
    ((step threeInRoom (.close 1)).2
        = [Send.mk 2 (.userLeft (.str "A")), Send.mk 3 (.userLeft (.str "A"))] ∧
      RoomManager.getRoom (step threeInRoom (.close 1)).1.rooms (.str "r1")
        = some { roomId := .str "r1", users := [(.str "B", 2), (.str "C", 3)], createdAt := 1 } ∧
      (step afterJoinDraw (.close 1)).1.rooms = [] ∧
      (step afterJoinDraw (.close 1)).2 = []) := by
  have hids : (markNotOpen st c).clientOf c
      = { st.clientOf c with wsOpen := false, wsClosing := false } :=
    clientOf_markNotOpen_self st c
  have hroom2 : RoomManager.getRoom (markNotOpen st c).rooms
      ((markNotOpen st c).clientOf c).roomId = some room := by
    rw [hids]
    exact hroom
  refine ⟨?_, ?_, by decide⟩
  · intro p hp
    exact (mem_mapDelete _ _ _ hp).2
  · rw [onClose_joined st c hr hu]
    unfold handleDisconnect
    simp only [hroom2]
    rw [hids]
    simp only
    by_cases hempty : (room.removeUser (st.clientOf c).userId).users = []
    · have hlen : ¬ (room.removeUser (st.clientOf c).userId).getUsers.length > 0 := by
        simp [Room.getUsers, hempty]
      simp only [hempty, hlen, if_true, if_false]
      exact ⟨mapGet_mapDelete_self _ _, trivial⟩
    · have hlen : (room.removeUser (st.clientOf c).userId).getUsers.length > 0 := by
        simp only [Room.getUsers, List.length_map]
        exact List.length_pos.mpr hempty
      simp only [hempty, hlen, if_true, if_false]
      have hsends : (room.removeUser (st.clientOf c).userId).broadcast (markNotOpen st c).clientOf
          (.userLeft (st.clientOf c).userId) .null =
          ((room.removeUser (st.clientOf c).userId).users.filter fun p =>
            decide (p.2 ≠ c) && (st.clientOf p.2).wsOpen).map
          (fun p => Send.mk p.2 (.userLeft (st.clientOf c).userId)) := by
        rw [broadcast_null_eq]
        congr 1
        apply List.filter_congr
        intro p _
        exact wsOpen_markNotOpen st c p.2
      refine ⟨mapGet_mapSet_self _ _ _, hsends, ?_⟩
      intro s hs
      rw [hsends, List.mem_map] at hs
      obtain ⟨p, hp, hsp⟩ := hs
      rw [List.mem_filter] at hp
      rw [← hsp]
      have hk := hp.2
      simp only [Bool.and_eq_true, decide_eq_true_eq] at hk
      exact hk.1

/-- C19 as amended, for the close of A in the room of A, B and C: the hypotheses
hold, the room keeps B and C, and no user-left message goes to connection 1. -/
theorem close_removes_participant_witness :
    (threeInRoom.clientOf 1).roomId.truthy = true ∧
    (threeInRoom.clientOf 1).userId.truthy = true ∧
    RoomManager.getRoom threeInRoom.rooms (threeInRoom.clientOf 1).roomId = some roomOfThree ∧
    (∀ p ∈ (roomOfThree.removeUser (threeInRoom.clientOf 1).userId).users,
      p.1 ≠ (threeInRoom.clientOf 1).userId) :=
  ⟨by decide, by decide, by decide,
    (close_removes_participant threeInRoom 1 roomOfThree (by decide) (by decide)
      (by decide)).1⟩

end Canvas

namespace Canvas

/-! ## Where a connection is registered -/

theorem mapSet_keys_nodup {κ ν : Type} [DecidableEq κ] (m : List (κ × ν)) (k : κ) (v : ν)
    (h : (m.map Prod.fst).Nodup) : ((mapSet m k v).map Prod.fst).Nodup := by
  induction m with
  | nil => simp [mapSet]
  | cons hd tl ih =>
    obtain ⟨k1, v1⟩ := hd
    simp only [List.map_cons, List.nodup_cons] at h
    unfold mapSet
    split
    · rename_i hk
      subst hk
      simp only [List.map_cons, List.nodup_cons]
      exact h
    · rename_i hk
      simp only [List.map_cons, List.nodup_cons]
      refine ⟨?_, ih h.2⟩
      intro hmem
      rw [List.mem_map] at hmem
      obtain ⟨p, hp, hpk⟩ := hmem
      rcases mem_mapSet _ _ _ _ hp with h1 | h1
      · rw [h1] at hpk
        exact hk hpk.symm
      · exact h.1 (List.mem_map.mpr ⟨p, h1, hpk⟩)

theorem mapDelete_keys_nodup {κ ν : Type} [DecidableEq κ] (m : List (κ × ν)) (k : κ)
    (h : (m.map Prod.fst).Nodup) : ((mapDelete m k).map Prod.fst).Nodup := by
  unfold mapDelete
  exact List.Nodup.sublist ((List.filter_sublist _).map Prod.fst) h

theorem mem_mapSet_of_nodup {κ ν : Type} [DecidableEq κ] (m : List (κ × ν)) (k : κ) (v : ν)
    (p : κ × ν) (hnd : (m.map Prod.fst).Nodup) (h : p ∈ mapSet m k v) :
    p = (k, v) ∨ (p ∈ m ∧ p.1 ≠ k) := by
  induction m with
  | nil =>
    left
    simpa [mapSet] using h
  | cons hd tl ih =>
    obtain ⟨k1, v1⟩ := hd
    simp only [List.map_cons, List.nodup_cons] at hnd
    unfold mapSet at h
    split at h
    · rename_i hk
      subst hk
      rcases List.mem_cons.mp h with h1 | h1
      · exact Or.inl h1
      · right
        refine ⟨List.mem_cons_of_mem _ h1, ?_⟩
        intro hpk
        exact hnd.1 (List.mem_map.mpr ⟨p, h1, hpk⟩)
    · rename_i hk
      rcases List.mem_cons.mp h with h1 | h1
      · right
        rw [h1]
        exact ⟨List.mem_cons_self _ _, hk⟩
      · rcases ih hnd.2 h1 with h2 | h2
        · exact Or.inl h2
        · exact Or.inr ⟨List.mem_cons_of_mem _ h2.1, h2.2⟩

theorem mapGet_none_keys {κ ν : Type} [DecidableEq κ] (m : List (κ × ν)) (k : κ)
    (h : mapGet m k = none) : ∀ p ∈ m, p.1 ≠ k := by
  induction m with
  | nil => simp
  | cons hd tl ih =>
    obtain ⟨k1, v1⟩ := hd
    unfold mapGet at h
    split at h
    · simp at h
    · rename_i hk
      intro p hp
      rcases List.mem_cons.mp hp with h1 | h1
      · rw [h1]; exact hk
      · exact ih h p h1

theorem handleJoin_rooms (st : ServerState) (c : ConnId) (m : Message) (env : Env) :
    ∃ room : Room, (handleJoin st c m env).state.rooms = mapSet st.rooms m.roomId room ∧
      ∀ q ∈ room.users, q = (m.userId, c) ∨
        ∃ p0 ∈ st.rooms, p0.1 = m.roomId ∧ q ∈ p0.2.users := by
  show ∃ room : Room,
    (RoomManager.joinRoom st.rooms m.roomId m.userId c env.tRoom).2 = _ ∧ _
  unfold RoomManager.joinRoom
  split
  · rename_i room hroom
    refine ⟨room.addUser m.userId c, rfl, ?_⟩
    intro q hq
    rcases mem_mapSet _ _ _ _ hq with h1 | h1
    · exact Or.inl h1
    · exact Or.inr ⟨(m.roomId, room), mapGet_mem _ _ _ hroom, rfl, h1⟩
  · refine ⟨(Room.new m.roomId env.tRoom).addUser m.userId c, rfl, ?_⟩
    intro q hq
    rcases mem_mapSet _ _ _ _ hq with h1 | h1
    · exact Or.inl h1
    · simp [Room.new] at h1

theorem handleDisconnect_rooms (st : ServerState) (c : ConnId) :
    (handleDisconnect st c).state.rooms = st.rooms ∨
    (∃ room, RoomManager.getRoom st.rooms (st.clientOf c).roomId = some room ∧
      (handleDisconnect st c).state.rooms
        = mapSet st.rooms (st.clientOf c).roomId (room.removeUser (st.clientOf c).userId)) ∨
    (handleDisconnect st c).state.rooms = mapDelete st.rooms (st.clientOf c).roomId := by
  unfold handleDisconnect
  split
  · exact Or.inl rfl
  · rename_i room hroom
    simp only
    split
    · exact Or.inr (Or.inl ⟨room, hroom, rfl⟩)
    · exact Or.inr (Or.inr rfl)

theorem handleMessage_rooms_of_not_join (st : ServerState) (c : ConnId) (m : Message) (env : Env)
    (h : m.type ≠ .str "join") : (handleMessage st c m env).state.rooms = st.rooms := by
  unfold handleMessage
  rw [if_neg h]
  split
  · exact handleDraw_rooms st c m env
  split
  · exact handleCursor_rooms st c m
  split
  · exact handleUndo_rooms st c m env
  split
  · exact handleRedo_rooms st c m env
  split
  · exact handleClear_rooms st c m env
  split
  · exact handleSyncRequest_rooms st c m env
  split <;> rfl

theorem handleMessage_of_join (st : ServerState) (c : ConnId) (m : Message) (env : Env)
    (h : m.type = .str "join") : handleMessage st c m env = handleJoin st c m env := by
  unfold handleMessage
  rw [if_pos h]

theorem onMessage_state (st : ServerState) (c : ConnId) (m : Message) (env : Env) :
    (onMessage st c (.decoded m) env).1 = (handleMessage st c m env).state := by
  unfold onMessage
  simp only
  split <;> rfl

theorem step_keys (st : ServerState) (ev : Event) (h : st.RoomKeysUnique) :
    (step st ev).1.RoomKeysUnique := by
  cases ev with
  | message c data env =>
    cases data with
    | undecodable => exact h
    | decoded m =>
      rw [step_message, onMessage_state]
      by_cases hj : m.type = .str "join"
      · rw [handleMessage_of_join st c m env hj]
        obtain ⟨room, hrooms, _⟩ := handleJoin_rooms st c m env
        unfold ServerState.RoomKeysUnique
        rw [hrooms]
        exact mapSet_keys_nodup _ _ _ h
      · unfold ServerState.RoomKeysUnique
        rw [handleMessage_rooms_of_not_join st c m env hj]
        exact h
  | close c =>
    show (onClose st c).1.RoomKeysUnique
    unfold onClose
    split
    · unfold ServerState.RoomKeysUnique
      rcases handleDisconnect_rooms (markNotOpen st c) c with h1 | ⟨room, _, h1⟩ | h1
      · rw [h1]; exact h
      · rw [h1]; exact mapSet_keys_nodup _ _ _ h
      · rw [h1]; exact mapDelete_keys_nodup _ _ h
    · exact h
  | notOpen c => exact h

end Canvas

namespace Canvas

theorem isJoinOf_false_of_join (c c2 : ConnId) (m : Message) (env : Env)
    (hj : Event.isJoinOf c (.message c2 (.decoded m) env) = false) (ht : m.type = .str "join") :
    c2 ≠ c := by
  intro hc
  simp [Event.isJoinOf, hc, ht] at hj

theorem step_entries (st : ServerState) (ev : Event) (c : ConnId)
    (hj : Event.isJoinOf c ev = false) :
    ∀ p ∈ (step st ev).1.rooms, ∀ q ∈ p.2.users, q.2 = c →
      ∃ p0 ∈ st.rooms, p0.1 = p.1 ∧ q ∈ p0.2.users := by
  intro p hp q hq hqc
  cases ev with
  | message c2 data env =>
    cases data with
    | undecodable => exact ⟨p, hp, rfl, hq⟩
    | decoded m =>
      rw [step_message, onMessage_state] at hp
      by_cases ht : m.type = .str "join"
      · have hne := isJoinOf_false_of_join c c2 m env hj ht
        rw [handleMessage_of_join st c2 m env ht] at hp
        obtain ⟨room, hrooms, hroom⟩ := handleJoin_rooms st c2 m env
        rw [hrooms] at hp
        rcases mem_mapSet _ _ _ _ hp with h1 | h1
        · subst h1
          rcases hroom q hq with h2 | h2
          · rw [h2] at hqc
            exact absurd hqc hne
          · exact h2
        · exact ⟨p, h1, rfl, hq⟩
      · rw [handleMessage_rooms_of_not_join st c2 m env ht] at hp
        exact ⟨p, hp, rfl, hq⟩
  | close c2 =>
    have hp2 : p ∈ (onClose st c2).1.rooms := hp
    unfold onClose at hp2
    split at hp2
    · rcases handleDisconnect_rooms (markNotOpen st c2) c2 with h1 | ⟨room, hroom, h1⟩ | h1
      · rw [h1] at hp2
        exact ⟨p, hp2, rfl, hq⟩
      · rw [h1] at hp2
        rcases mem_mapSet _ _ _ _ hp2 with h2 | h2
        · subst h2
          exact ⟨(_, room), mapGet_mem _ _ _ hroom, rfl, (mem_mapDelete _ _ _ hq).1⟩
        · exact ⟨p, h2, rfl, hq⟩
      · rw [h1] at hp2
        exact ⟨p, (mem_mapDelete _ _ _ hp2).1, rfl, hq⟩
    · exact ⟨p, hp2, rfl, hq⟩
  | notOpen c2 => exact ⟨p, hp, rfl, hq⟩

theorem clientOf_of_clients_mapSet (st st2 : ServerState) (c2 : ConnId) (ci : ClientInfo)
    (h : st2.clients = mapSet st.clients c2 ci) (c : ConnId) :
    st2.clientOf c = if c2 = c then ci else st.clientOf c := by
  unfold ServerState.clientOf
  rw [h]
  by_cases hc : c2 = c
  · subst hc
    simp [mapGet_mapSet_self]
  · simp [mapGet_mapSet_other _ _ _ _ hc, hc]

theorem clientOf_of_clients_eq (st st2 : ServerState) (h : st2.clients = st.clients)
    (c : ConnId) : st2.clientOf c = st.clientOf c := by
  unfold ServerState.clientOf
  rw [h]

theorem handleDraw_clients (st : ServerState) (c : ConnId) (m : Message) (env : Env) :
    (handleDraw st c m env).state.clients = st.clients := by
  unfold handleDraw
  split
  · rfl
  · split
    · rfl
    · simp only
      split <;> rfl

theorem handleUndo_clients (st : ServerState) (c : ConnId) (m : Message) (env : Env) :
    (handleUndo st c m env).state.clients = st.clients := by
  unfold handleUndo
  split
  · rfl
  · split <;> rfl

theorem handleRedo_clients (st : ServerState) (c : ConnId) (m : Message) (env : Env) :
    (handleRedo st c m env).state.clients = st.clients := by
  unfold handleRedo
  split
  · rfl
  · split <;> rfl

theorem handleClear_clients (st : ServerState) (c : ConnId) (m : Message) (env : Env) :
    (handleClear st c m env).state.clients = st.clients := by
  unfold handleClear
  split
  · rfl
  · split <;> rfl

theorem handleSyncRequest_clients (st : ServerState) (c : ConnId) (m : Message) (env : Env) :
    (handleSyncRequest st c m env).state.clients = st.clients := by
  unfold handleSyncRequest
  split <;> rfl

theorem handleDisconnect_clients (st : ServerState) (c : ConnId) :
    (handleDisconnect st c).state.clients = st.clients := by
  unfold handleDisconnect
  split
  · rfl
  · simp only
    split <;> rfl

theorem handleCursor_clients (st : ServerState) (c : ConnId) (m : Message) :
    (handleCursor st c m).state.clients = st.clients ∨
    (handleCursor st c m).state.clients
      = mapSet st.clients c { st.clientOf c with cursor := (m.x, m.y) } := by
  unfold handleCursor
  split
  · exact Or.inl rfl
  · simp only
    split <;> exact Or.inr rfl

theorem handleJoin_clients (st : ServerState) (c : ConnId) (m : Message) (env : Env) :
    (handleJoin st c m env).state.clients
      = mapSet st.clients c { st.clientOf c with userId := m.userId, roomId := m.roomId } :=
  rfl

theorem handleCursor_ids (st : ServerState) (c2 : ConnId) (m : Message) (c : ConnId) :
    ((handleCursor st c2 m).state.clientOf c).roomId = (st.clientOf c).roomId ∧
    ((handleCursor st c2 m).state.clientOf c).userId = (st.clientOf c).userId := by
  rcases handleCursor_clients st c2 m with h | h
  · rw [clientOf_of_clients_eq _ _ h]
    exact ⟨rfl, rfl⟩
  · rw [clientOf_of_clients_mapSet _ _ _ _ h]
    by_cases hc : c2 = c
    · subst hc
      simp
    · simp [hc]

theorem handleMessage_ids_of_not_join (st : ServerState) (c2 : ConnId) (m : Message) (env : Env)
    (c : ConnId) (h : m.type ≠ .str "join") :
    ((handleMessage st c2 m env).state.clientOf c).roomId = (st.clientOf c).roomId ∧
    ((handleMessage st c2 m env).state.clientOf c).userId = (st.clientOf c).userId := by
  unfold handleMessage
  rw [if_neg h]
  split
  · rw [clientOf_of_clients_eq _ _ (handleDraw_clients st c2 m env)]
    exact ⟨rfl, rfl⟩
  split
  · exact handleCursor_ids st c2 m c
  split
  · rw [clientOf_of_clients_eq _ _ (handleUndo_clients st c2 m env)]
    exact ⟨rfl, rfl⟩
  split
  · rw [clientOf_of_clients_eq _ _ (handleRedo_clients st c2 m env)]
    exact ⟨rfl, rfl⟩
  split
  · rw [clientOf_of_clients_eq _ _ (handleClear_clients st c2 m env)]
    exact ⟨rfl, rfl⟩
  split
  · rw [clientOf_of_clients_eq _ _ (handleSyncRequest_clients st c2 m env)]
    exact ⟨rfl, rfl⟩
  split <;> exact ⟨rfl, rfl⟩

theorem markNotOpen_ids (st : ServerState) (c2 c : ConnId) :
    ((markNotOpen st c2).clientOf c).roomId = (st.clientOf c).roomId ∧
    ((markNotOpen st c2).clientOf c).userId = (st.clientOf c).userId := by
  by_cases hc : c2 = c
  · subst hc
    rw [clientOf_markNotOpen_self]
    exact ⟨rfl, rfl⟩
  · rw [clientOf_markNotOpen_other st c2 c hc]
    exact ⟨rfl, rfl⟩

theorem markClosing_ids (st : ServerState) (c2 c : ConnId) :
    ((markClosing st c2).clientOf c).roomId = (st.clientOf c).roomId ∧
    ((markClosing st c2).clientOf c).userId = (st.clientOf c).userId := by
  by_cases hc : c2 = c
  · subst hc
    rw [clientOf_markClosing_self]
    exact ⟨rfl, rfl⟩
  · rw [clientOf_markClosing_other st c2 c hc]
    exact ⟨rfl, rfl⟩

theorem step_ids (st : ServerState) (ev : Event) (c : ConnId)
    (hj : Event.isJoinOf c ev = false) :
    ((step st ev).1.clientOf c).roomId = (st.clientOf c).roomId ∧
    ((step st ev).1.clientOf c).userId = (st.clientOf c).userId := by
  cases ev with
  | message c2 data env =>
    cases data with
    | undecodable => exact ⟨rfl, rfl⟩
    | decoded m =>
      rw [step_message, onMessage_state]
      by_cases ht : m.type = .str "join"
      · have hne := isJoinOf_false_of_join c c2 m env hj ht
        rw [handleMessage_of_join st c2 m env ht,
          clientOf_of_clients_mapSet _ _ _ _ (handleJoin_clients st c2 m env), if_neg hne]
        exact ⟨rfl, rfl⟩
      · exact handleMessage_ids_of_not_join st c2 m env c ht
  | close c2 =>
    show ((onClose st c2).1.clientOf c).roomId = _ ∧ ((onClose st c2).1.clientOf c).userId = _
    unfold onClose
    split
    · simp only
      rw [clientOf_of_clients_eq _ _ (handleDisconnect_clients (markNotOpen st c2) c2)]
      exact markNotOpen_ids st c2 c
    · exact markNotOpen_ids st c2 c
  | notOpen c2 => exact markClosing_ids st c2 c

end Canvas

namespace Canvas

theorem runEvents_append (st : ServerState) (evs1 evs2 : List Event) :
    runEvents st (evs1 ++ evs2) = runEvents (runEvents st evs1) evs2 := by
  unfold runEvents
  rw [List.foldl_append]

theorem runEvents_single (st : ServerState) (ev : Event) :
    runEvents st [ev] = (step st ev).1 := rfl

theorem runEvents_keys (evs : List Event) (st : ServerState) (h : st.RoomKeysUnique) :
    (runEvents st evs).RoomKeysUnique := by
  induction evs generalizing st with
  | nil => exact h
  | cons ev rest ih => exact ih (step st ev).1 (step_keys st ev h)

theorem step_not_registered (st : ServerState) (ev : Event) (c : ConnId)
    (hj : Event.isJoinOf c ev = false) (hq : ¬ st.registered c) :
    ¬ (step st ev).1.registered c := by
  rintro ⟨p, hp, q, hq2, hqc⟩
  obtain ⟨p0, hp0, _, hq0⟩ := step_entries st ev c hj p hp q hq2 hqc
  exact hq ⟨p0, hp0, q, hq0, hqc⟩

theorem runEvents_not_registered (evs : List Event) (st : ServerState) (c : ConnId)
    (hall : ∀ e ∈ evs, Event.isJoinOf c e = false) (hq : ¬ st.registered c) :
    ¬ (runEvents st evs).registered c := by
  induction evs generalizing st with
  | nil => exact hq
  | cons ev rest ih =>
    exact ih (step st ev).1 (fun e he => hall e (List.mem_cons_of_mem _ he))
      (step_not_registered st ev c (hall ev (List.mem_cons_self _ _)) hq)

theorem step_registeredOnlyAs (st : ServerState) (ev : Event) (c : ConnId) (r u : JsVal)
    (hj : Event.isJoinOf c ev = false) (h : st.registeredOnlyAs c r u) :
    (step st ev).1.registeredOnlyAs c r u := by
  intro p hp q hq hqc
  obtain ⟨p0, hp0, hk, hq0⟩ := step_entries st ev c hj p hp q hq hqc
  have h2 := h p0 hp0 q hq0 hqc
  exact ⟨hk ▸ h2.1, h2.2⟩

theorem runEvents_registeredOnlyAs (evs : List Event) (st : ServerState) (c : ConnId)
    (r u : JsVal) (hall : ∀ e ∈ evs, Event.isJoinOf c e = false)
    (h : st.registeredOnlyAs c r u)
    (hr : (st.clientOf c).roomId = r) (hu : (st.clientOf c).userId = u) :
    (runEvents st evs).registeredOnlyAs c r u ∧
    ((runEvents st evs).clientOf c).roomId = r ∧ ((runEvents st evs).clientOf c).userId = u := by
  induction evs generalizing st with
  | nil => exact ⟨h, hr, hu⟩
  | cons ev rest ih =>
    have hj := hall ev (List.mem_cons_self _ _)
    obtain ⟨h1, h2⟩ := step_ids st ev c hj
    exact ih (step st ev).1 (fun e he => hall e (List.mem_cons_of_mem _ he))
      (step_registeredOnlyAs st ev c r u hj h) (h1.trans hr) (h2.trans hu)

theorem join_registers_only_as (st : ServerState) (c : ConnId) (m : Message) (env : Env)
    (hq : ¬ st.registered c) :
    (handleJoin st c m env).state.registeredOnlyAs c m.roomId m.userId ∧
    ((handleJoin st c m env).state.clientOf c).roomId = m.roomId ∧
    ((handleJoin st c m env).state.clientOf c).userId = m.userId := by
  refine ⟨?_, ?_, ?_⟩
  · intro p hp q hq2 hqc
    obtain ⟨room, hrooms, hroom⟩ := handleJoin_rooms st c m env
    rw [hrooms] at hp
    rcases mem_mapSet _ _ _ _ hp with h1 | h1
    · subst h1
      rcases hroom q hq2 with h2 | ⟨p0, hp0, _, hq0⟩
      · rw [h2]
        exact ⟨rfl, rfl⟩
      · exact absurd ⟨p0, hp0, q, hq0, hqc⟩ hq
    · exact absurd ⟨p, h1, q, hq2, hqc⟩ hq
  · rw [clientOf_of_clients_mapSet _ _ _ _ (handleJoin_clients st c m env), if_pos rfl]
  · rw [clientOf_of_clients_mapSet _ _ _ _ (handleJoin_clients st c m env), if_pos rfl]

theorem handleDisconnect_rooms_cases (st : ServerState) (c : ConnId) :
    (RoomManager.getRoom st.rooms (st.clientOf c).roomId = none ∧
      (handleDisconnect st c).state.rooms = st.rooms) ∨
    (∃ room, RoomManager.getRoom st.rooms (st.clientOf c).roomId = some room ∧
      (handleDisconnect st c).state.rooms
        = mapSet st.rooms (st.clientOf c).roomId (room.removeUser (st.clientOf c).userId)) ∨
    (handleDisconnect st c).state.rooms = mapDelete st.rooms (st.clientOf c).roomId := by
  unfold handleDisconnect
  split
  · rename_i hnone
    exact Or.inl ⟨hnone, rfl⟩
  · rename_i room hroom
    simp only
    split
    · exact Or.inr (Or.inl ⟨room, hroom, rfl⟩)
    · exact Or.inr (Or.inr rfl)

theorem close_unregisters (st : ServerState) (c : ConnId) (r u : JsVal)
    (hP : st.registeredOnlyAs c r u)
    (hr : (st.clientOf c).roomId = r) (hu : (st.clientOf c).userId = u)
    (htr : r.truthy = true) (htu : u.truthy = true) (hk : st.RoomKeysUnique) :
    ¬ (onClose st c).1.registered c := by
  rw [onClose_joined st c (by rw [hr]; exact htr) (by rw [hu]; exact htu)]
  have hids := markNotOpen_ids st c c
  rw [hr, hu] at hids
  rintro ⟨p, hp, q, hq, hqc⟩
  have hp2 : p ∈ (handleDisconnect (markNotOpen st c) c).state.rooms := hp
  have hrooms0 : (markNotOpen st c).rooms = st.rooms := rfl
  rcases handleDisconnect_rooms_cases (markNotOpen st c) c with ⟨hnone, h1⟩ | ⟨room, hroom, h1⟩ | h1
  · rw [h1, hrooms0] at hp2
    rw [hids.1, hrooms0] at hnone
    exact mapGet_none_keys _ _ hnone p hp2 (hP p hp2 q hq hqc).1
  · rw [h1, hids.1, hids.2, hrooms0] at hp2
    rw [hids.1, hrooms0] at hroom
    rcases mem_mapSet_of_nodup _ _ _ _ hk hp2 with h2 | h2
    · subst h2
      obtain ⟨hq1, hq2⟩ := mem_mapDelete _ _ _ hq
      exact hq2 (hP (r, room) (mapGet_mem _ _ _ hroom) q hq1 hqc).2
    · exact h2.2 (hP p h2.1 q hq hqc).1
  · rw [h1, hids.1, hrooms0] at hp2
    obtain ⟨hp3, hp4⟩ := mem_mapDelete _ _ _ hp2
    exact hp4 (hP p hp3 q hq hqc).1

theorem init_not_registered (c : ConnId) : ¬ ServerState.init.registered c := by
  rintro ⟨p, hp, _⟩
  simp [ServerState.init] at hp

theorem init_keys : ServerState.init.RoomKeysUnique := by
  simp [ServerState.RoomKeysUnique, ServerState.init]

/-- C20, the claim as stated fails: a connection that joins room r1 and then
room r2 and then closes is still registered in room r1, which stays in the
registry; and a connection that joined with the empty string as userId is still
registered after it closed. -/
theorem closed_connection_still_registered :
    ((step joinedTwice (.close 1)).1.registered 1 ∧
      RoomManager.getRoom (step joinedTwice (.close 1)).1.rooms (.str "r1")
        = some { roomId := .str "r1", users := [(.str "A", 1)], createdAt := 1 } ∧
      ((step joinedTwice (.close 1)).1.clientOf 1).wsOpen = false) ∧
    (step emptyUserIdAndB (.close 1)).1.registered 1 := by
  decide

/-- C20 as amended: take any sequence of events from process start in which
connection c sends exactly one message of type join, with a truthy roomId and a
truthy userId, and its close event comes after that join. Whatever the other
events are (messages of other types on c, any events of other connections,
before, between and after), after the whole sequence the connection c is not
registered as a participant in any room of the registry. -/
theorem closed_connection_not_registered (c : ConnId) (m : Message) (env : Env)
    (before between after : List Event)
    (hb : ∀ e ∈ before, Event.isJoinOf c e = false)
    (hm : ∀ e ∈ between, Event.isJoinOf c e = false)
    (ha : ∀ e ∈ after, Event.isJoinOf c e = false)
    (hr : m.roomId.truthy = true) (hu : m.userId.truthy = true) :
    ¬ (runEvents ServerState.init
        (before ++ [.message c (.decoded { m with type := .str "join" }) env] ++ between
          ++ [.close c] ++ after)).registered c := by
  rw [runEvents_append, runEvents_append, runEvents_append, runEvents_append,
    runEvents_single, runEvents_single]
  have h1 := runEvents_not_registered before ServerState.init c hb (init_not_registered c)
  have k1 := runEvents_keys before ServerState.init init_keys
  have hjoin : (step (runEvents ServerState.init before)
      (.message c (.decoded { m with type := .str "join" }) env)).1
      = (handleJoin (runEvents ServerState.init before) c
          { m with type := .str "join" } env).state := by
    rw [step_message, onMessage_state, handleMessage_of_join _ _ _ _ rfl]
  have k2 := step_keys (runEvents ServerState.init before)
    (.message c (.decoded { m with type := .str "join" }) env) k1
  obtain ⟨p2, r2, u2⟩ := join_registers_only_as (runEvents ServerState.init before) c
    { m with type := .str "join" } env h1
  rw [← hjoin] at p2 r2 u2
  obtain ⟨p3, r3, u3⟩ := runEvents_registeredOnlyAs between _ c m.roomId m.userId hm p2 r2 u2
  have k3 := runEvents_keys between _ k2
  have h4 := close_unregisters _ c m.roomId m.userId p3 r3 u3 hr hu k3
  exact runEvents_not_registered after _ c ha h4

/-- C20 as amended, for connection 1 that joins r1 as A, draws, and closes,
after which B joins r1 on connection 2: the hypotheses hold, and connection 1 is
not registered at the end. -/
theorem closed_connection_not_registered_witness :
    (∀ e ∈ ([] : List Event), Event.isJoinOf 1 e = false) ∧
    (∀ e ∈ [scenarioEvent 1 "draw" "A" "r1"], Event.isJoinOf 1 e = false) ∧
    (∀ e ∈ [scenarioEvent 2 "join" "B" "r1"], Event.isJoinOf 1 e = false) ∧
    (scenarioMsg "join" "A" "r1").roomId.truthy = true ∧
    (scenarioMsg "join" "A" "r1").userId.truthy = true ∧
    ¬ (runEvents ServerState.init
        ([] ++ [.message 1 (.decoded { scenarioMsg "join" "A" "r1" with type := .str "join" })
            scenarioEnv] ++ [scenarioEvent 1 "draw" "A" "r1"]
          ++ [.close 1] ++ [scenarioEvent 2 "join" "B" "r1"])).registered 1 :=
  ⟨by decide, by decide, by decide, by decide, by decide,
    closed_connection_not_registered 1 (scenarioMsg "join" "A" "r1") scenarioEnv []
      [scenarioEvent 1 "draw" "A" "r1"] [scenarioEvent 2 "join" "B" "r1"]
      (by decide) (by decide) (by decide) (by decide) (by decide)⟩

end Canvas

namespace Canvas

/-! ## Broadcast, addUser and joinRoom as operations on maps -/

theorem mapSet_length {κ ν : Type} [DecidableEq κ] (m : List (κ × ν)) (k : κ) (v : ν) :
    (mapSet m k v).length = if (mapGet m k).isSome then m.length else m.length + 1 := by
  induction m with
  | nil => simp [mapSet, mapGet]
  | cons hd tl ih =>
    obtain ⟨k1, v1⟩ := hd
    by_cases hk : k1 = k
    · simp [mapSet, mapGet, hk]
    · simp only [mapSet, mapGet, hk, if_false, List.length_cons, ih]
      split <;> rfl

theorem mapSet_idem {κ ν : Type} [DecidableEq κ] (m : List (κ × ν)) (k : κ) (v : ν) :
    mapSet (mapSet m k v) k v = mapSet m k v := by
  induction m with
  | nil => simp [mapSet]
  | cons hd tl ih =>
    obtain ⟨k1, v1⟩ := hd
    by_cases hk : k1 = k
    · simp [mapSet, hk]
    · simp [mapSet, hk, ih]

theorem mapGet_mapDelete_other {κ ν : Type} [DecidableEq κ] (m : List (κ × ν)) (k k2 : κ)
    (hne : k ≠ k2) : mapGet (mapDelete m k) k2 = mapGet m k2 := by
  induction m with
  | nil => rfl
  | cons hd tl ih =>
    obtain ⟨k1, v1⟩ := hd
    by_cases hk : k1 = k
    · have hk2 : k1 ≠ k2 := by rw [hk]; exact hne
      have hd : mapDelete ((k1, v1) :: tl) k = mapDelete tl k := by
        simp [mapDelete, hk]
      rw [hd, ih]
      simp [mapGet, hk2]
    · have hd : mapDelete ((k1, v1) :: tl) k = (k1, v1) :: mapDelete tl k := by
        simp [mapDelete, hk]
      rw [hd]
      simp only [mapGet, ih]

theorem broadcast_eq_filter_map (room : Room) (clientOf : ConnId → ClientInfo) (msg : OutMsg)
    (sender : JsVal) :
    room.broadcast clientOf msg sender
      = (room.users.filter fun p =>
          !(sender.truthy && decide (p.1 = sender)) && (clientOf p.2).wsOpen).map
        (fun p => Send.mk p.2 msg) := by
  unfold Room.broadcast
  rw [← filterMap_if_eq_map_filter]
  apply List.filterMap_congr
  intro p _
  by_cases h1 : (sender.truthy && decide (p.1 = sender)) = true
  · simp [h1]
  · by_cases h2 : (clientOf p.2).wsOpen = true
    · simp [h1, h2]
    · simp [h1, h2]

/-- C25, the claim as stated fails: in a room whose participants are registered
under the empty string and under B, both with open handles, a broadcast that
excludes the empty string is sent to both participants, the excluded one
included. -/
theorem broadcast_excluding_empty_string_reaches_it :
    (Room.broadcast { roomId := .str "r1", users := [(.str "", 1), (.str "B", 2)], createdAt := 1 }
        (fun _ => ClientInfo.initial) .pong (.str ""))
      = [Send.mk 1 .pong, Send.mk 2 .pong] := by
  decide

/-- C25 as amended: for every room, message and excludeUserId, Room.broadcast
sends the message once for each entry of the participant map, in map order,
whose handle is open and whose key is not excluded, and sends nothing else. A
key is excluded when excludeUserId is truthy and equal to it; a falsy
excludeUserId, such as the default null, excludes no one. The method returns
nothing but these sends; the handlers that call it on a draw, undo, redo or
clear leave the registry, closed handles included, as it was. -/
theorem broadcast_sends_once_to_open_others (room : Room) (clientOf : ConnId → ClientInfo)
    (msg : OutMsg) (excludeUserId : JsVal) :
    room.broadcast clientOf msg excludeUserId
      = (room.users.filter fun p =>
          !(excludeUserId.truthy && decide (p.1 = excludeUserId)) && (clientOf p.2).wsOpen).map
        (fun p => Send.mk p.2 msg) ∧
    (excludeUserId.truthy = true →
      room.broadcast clientOf msg excludeUserId
        = (room.users.filter fun p =>
            decide (p.1 ≠ excludeUserId) && (clientOf p.2).wsOpen).map
          (fun p => Send.mk p.2 msg)) ∧
    (excludeUserId.truthy = false →
      room.broadcast clientOf msg excludeUserId
        = (room.users.filter fun p => (clientOf p.2).wsOpen).map (fun p => Send.mk p.2 msg)) ∧
    (∀ s ∈ room.broadcast clientOf msg excludeUserId, s.msg = msg ∧
      ∃ p ∈ room.users, p.2 = s.dest ∧ (clientOf p.2).wsOpen = true ∧
        (excludeUserId.truthy = false ∨ p.1 ≠ excludeUserId)) ∧
    (∀ (st : ServerState) (c : ConnId) (m : Message) (env : Env),
      (handleDraw st c m env).state.rooms = st.rooms ∧
      (handleUndo st c m env).state.rooms = st.rooms ∧
      (handleRedo st c m env).state.rooms = st.rooms ∧
      (handleClear st c m env).state.rooms = st.rooms) := by
  refine ⟨broadcast_eq_filter_map room clientOf msg excludeUserId, ?_, ?_, ?_, ?_⟩
  · intro ht
    rw [broadcast_eq_filter_map]
    congr 1
    apply List.filter_congr
    intro p _
    simp [ht]
  · intro ht
    rw [broadcast_eq_filter_map]
    congr 1
    apply List.filter_congr
    intro p _
    simp [ht]
  · intro s hs
    obtain ⟨p, hp, hsp, hkeep, hopen⟩ := broadcast_mem _ _ _ _ s hs
    subst hsp
    exact ⟨rfl, p, hp, rfl, hopen, hkeep⟩
  · intro st c m env
    exact ⟨handleDraw_rooms st c m env, handleUndo_rooms st c m env,
      handleRedo_rooms st c m env, handleClear_rooms st c m env⟩

/-- C26: for every room, addUser makes the entry for the userId hold the new
handle and leaves the entry of every other userId as it was; the participant
count is unchanged when the userId was present and one more when it was absent;
applying addUser twice with the same arguments gives the same room as applying
it once; roomId and createdAt are as before. -/
theorem addUser_is_idempotent_upsert (room : Room) (userId : JsVal) (c : ConnId) :
    mapGet (room.addUser userId c).users userId = some c ∧
    (∀ other : JsVal, other ≠ userId →
      mapGet (room.addUser userId c).users other = mapGet room.users other) ∧
    (room.addUser userId c).getUserCount =
      (if (mapGet room.users userId).isSome then room.getUserCount
       else room.getUserCount + 1) ∧
    (room.addUser userId c).addUser userId c = room.addUser userId c ∧
    (room.addUser userId c).roomId = room.roomId ∧
    (room.addUser userId c).createdAt = room.createdAt := by
  refine ⟨mapGet_mapSet_self _ _ _, ?_, mapSet_length _ _ _, ?_, rfl, rfl⟩
  · intro other hne
    exact mapGet_mapSet_other _ _ _ _ (fun h => hne h.symm)
  · unfold Room.addUser
    simp only [mapSet_idem]

/-- C28: joinRoom on a roomId that is in the registry returns the existing room
with the client added and keeps the room count; on an absent roomId it registers
a new room whose only participant is the client, and the room count grows by
one; in both cases the registry then holds the returned room under the roomId,
and the entry of every other roomId is as before. -/
theorem joinRoom_creates_only_when_absent (rooms : List (JsVal × Room)) (roomId userId : JsVal)
    (c : ConnId) (now : Nat) :
    (∀ room : Room, RoomManager.getRoom rooms roomId = some room →
      (RoomManager.joinRoom rooms roomId userId c now).1 = room.addUser userId c ∧
      (RoomManager.joinRoom rooms roomId userId c now).2.length = rooms.length) ∧
    (RoomManager.getRoom rooms roomId = none →
      (RoomManager.joinRoom rooms roomId userId c now).1
        = { roomId := roomId, users := [(userId, c)], createdAt := now } ∧
      (RoomManager.joinRoom rooms roomId userId c now).2.length = rooms.length + 1) ∧
    RoomManager.getRoom (RoomManager.joinRoom rooms roomId userId c now).2 roomId
      = some (RoomManager.joinRoom rooms roomId userId c now).1 ∧
    (∀ other : JsVal, other ≠ roomId →
      RoomManager.getRoom (RoomManager.joinRoom rooms roomId userId c now).2 other
        = RoomManager.getRoom rooms other) := by
  unfold RoomManager.getRoom
  refine ⟨?_, ?_, ?_, ?_⟩
  · intro room hroom
    unfold RoomManager.joinRoom
    simp only [hroom]
    refine ⟨trivial, ?_⟩
    rw [mapSet_length, hroom]
    rfl
  · intro hnone
    unfold RoomManager.joinRoom
    simp only [hnone]
    refine ⟨rfl, ?_⟩
    rw [mapSet_length, hnone]
    rfl
  · unfold RoomManager.joinRoom
    split <;> exact mapGet_mapSet_self _ _ _
  · intro other hne
    unfold RoomManager.joinRoom
    split <;> exact mapGet_mapSet_other _ _ _ _ (fun h => hne h.symm)

end Canvas

namespace Canvas

/-! ## Messages before a join, undecodable data and unknown types -/

theorem handleDraw_unjoined (st : ServerState) (c : ConnId) (m : Message) (env : Env)
    (h : (st.clientOf c).roomId.truthy = false) : handleDraw st c m env = Handled.skip st := by
  unfold handleDraw
  simp [h]

theorem handleCursor_unjoined (st : ServerState) (c : ConnId) (m : Message)
    (h : (st.clientOf c).roomId.truthy = false) : handleCursor st c m = Handled.skip st := by
  unfold handleCursor
  simp [h]

theorem handleUndo_unjoined (st : ServerState) (c : ConnId) (m : Message) (env : Env)
    (h : (st.clientOf c).roomId.truthy = false) : handleUndo st c m env = Handled.skip st := by
  unfold handleUndo
  simp [h]

theorem handleRedo_unjoined (st : ServerState) (c : ConnId) (m : Message) (env : Env)
    (h : (st.clientOf c).roomId.truthy = false) : handleRedo st c m env = Handled.skip st := by
  unfold handleRedo
  simp [h]

theorem handleClear_unjoined (st : ServerState) (c : ConnId) (m : Message) (env : Env)
    (h : (st.clientOf c).roomId.truthy = false) : handleClear st c m env = Handled.skip st := by
  unfold handleClear
  simp [h]

theorem handleSyncRequest_unjoined (st : ServerState) (c : ConnId) (m : Message) (env : Env)
    (h : (st.clientOf c).roomId.truthy = false) :
    handleSyncRequest st c m env = Handled.skip st := by
  unfold handleSyncRequest
  simp [h]

theorem handleMessage_unjoined (st : ServerState) (c : ConnId) (m : Message) (env : Env)
    (h : (st.clientOf c).roomId.truthy = false) (hnj : m.type ≠ .str "join") :
    handleMessage st c m env =
      { state := st, sends := if m.type = .str "ping" then [Send.mk c .pong] else [],
        threw := false } := by
  unfold handleMessage
  rw [if_neg hnj]
  by_cases h1 : m.type = .str "draw"
  · rw [if_pos h1, handleDraw_unjoined st c m env h, h1]
    rfl
  rw [if_neg h1]
  by_cases h2 : m.type = .str "cursor"
  · rw [if_pos h2, handleCursor_unjoined st c m h, h2]
    rfl
  rw [if_neg h2]
  by_cases h3 : m.type = .str "undo"
  · rw [if_pos h3, handleUndo_unjoined st c m env h, h3]
    rfl
  rw [if_neg h3]
  by_cases h4 : m.type = .str "redo"
  · rw [if_pos h4, handleRedo_unjoined st c m env h, h4]
    rfl
  rw [if_neg h4]
  by_cases h5 : m.type = .str "clear"
  · rw [if_pos h5, handleClear_unjoined st c m env h, h5]
    rfl
  rw [if_neg h5]
  by_cases h6 : m.type = .str "sync-request"
  · rw [if_pos h6, handleSyncRequest_unjoined st c m env h, h6]
    rfl
  rw [if_neg h6]
  by_cases h7 : m.type = .str "ping"
  · rw [if_pos h7, if_pos h7]
  · rw [if_neg h7, if_neg h7]
    rfl

theorem runEvents_ids (evs : List Event) (st : ServerState) (c : ConnId)
    (hall : ∀ e ∈ evs, Event.isJoinOf c e = false) :
    ((runEvents st evs).clientOf c).roomId = (st.clientOf c).roomId ∧
    ((runEvents st evs).clientOf c).userId = (st.clientOf c).userId := by
  induction evs generalizing st with
  | nil => exact ⟨rfl, rfl⟩
  | cons ev rest ih =>
    obtain ⟨h1, h2⟩ := step_ids st ev c (hall ev (List.mem_cons_self _ _))
    obtain ⟨h3, h4⟩ := ih (step st ev).1 (fun e he => hall e (List.mem_cons_of_mem _ he))
    exact ⟨h3.trans h1, h4.trans h2⟩

/-- C21, the claim as stated fails: at process start a connection that has not
joined sends a ping, and the server sends it a pong. -/
theorem ping_before_join_is_answered :
    (ServerState.init.clientOf 1).roomId = .null ∧
    (step ServerState.init (scenarioEvent 1 "ping" "A" "r1")).2 = [Send.mk 1 .pong] := by
  decide

/-- C21 as amended: a connection that has sent no join has the roomId null, which
is falsy. For a connection whose roomId is falsy, handling a decoded message
whose type is neither join nor ping changes nothing in the server state (the
registry, the participants, the histories and the clientInfo objects) and sends
nothing; a ping changes nothing either and is answered with one pong to the
sender. -/
theorem non_join_message_before_join (st : ServerState) (c : ConnId) (m : Message) (env : Env)
    (hunjoined : (st.clientOf c).roomId.truthy = false) (hnj : m.type ≠ .str "join") :
    (handleMessage st c m env).state = st ∧
    (handleMessage st c m env).sends
      = (if m.type = .str "ping" then [Send.mk c .pong] else []) ∧
    onMessage st c (.decoded m) env
      = (st, if m.type = .str "ping" then [Send.mk c .pong] else []) ∧
    (∀ evs : List Event, (∀ e ∈ evs, Event.isJoinOf c e = false) →
      ((runEvents ServerState.init evs).clientOf c).roomId = .null ∧
      ((runEvents ServerState.init evs).clientOf c).roomId.truthy = false) := by
  have hm := handleMessage_unjoined st c m env hunjoined hnj
  refine ⟨by rw [hm], by rw [hm], ?_, ?_⟩
  · rw [onMessage_of_not_threw st c m env (by rw [hm]), hm]
  · intro evs hall
    have h := (runEvents_ids evs ServerState.init c hall).1
    have h0 : (ServerState.init.clientOf c).roomId = .null := rfl
    rw [h0] at h
    exact ⟨h, by rw [h]; rfl⟩

/-- C21 as amended, for an undo sent at process start: the connection has a falsy
roomId, the type is not join, and the server state and the sends are as for no
message at all. -/
theorem non_join_message_before_join_witness :
    (ServerState.init.clientOf 1).roomId.truthy = false ∧
    (scenarioMsg "undo" "A" "r1").type ≠ .str "join" ∧
    onMessage ServerState.init 1 (.decoded (scenarioMsg "undo" "A" "r1")) scenarioEnv
      = (ServerState.init, []) :=
  ⟨by decide, by decide,
    (non_join_message_before_join ServerState.init 1 (scenarioMsg "undo" "A" "r1") scenarioEnv
      (by decide) (by decide)).2.2.1⟩

/-- C22, the claim as stated fails: a join message without a roomId property,
sent at process start, gets a joined reply and no error message, and it leaves
a room and a history registered under the key undefined, with the sender as
participant. -/
theorem join_without_roomId_is_accepted :
    (step ServerState.init (.message 1 (.decoded joinWithoutRoomId) scenarioEnv)).2
      = [Send.mk 1 (.joined (.str "A") .undefined [] { actions := [], historyIndex := -1 })] ∧
    (step ServerState.init (.message 1 (.decoded joinWithoutRoomId) scenarioEnv)).1.rooms
      = [(.undefined, { roomId := .undefined, users := [(.str "A", 1)], createdAt := 1 })] ∧
    (step ServerState.init (.message 1 (.decoded joinWithoutRoomId) scenarioEnv)).1.states
      = [(.undefined, DrawingState.new .undefined 2)] := by
  decide

/-- C22 as amended: for every inbound payload that cannot be decoded (text on
which JSON.parse throws, or the text null), the server sends the sender one
error message and nothing else, and the whole server state, that is the room
registry, every participant map and every action history, is as before. -/
theorem undecodable_payload_gets_error (st : ServerState) (c : ConnId) (env : Env) :
    step st (.message c .undecodable env)
      = (st, [Send.mk c (.error "Invalid message format")]) := rfl

/-- C23, the claim as stated fails: a decoded message of the unknown type resize,
sent by A in the room of A, B and C, makes the server send nothing, and so no
error message. -/
theorem unknown_type_gets_no_reply :
    (.str "resize" : JsVal) ∉ knownTypes ∧
    step threeInRoom (scenarioEvent 1 "resize" "A" "r1") = (threeInRoom, []) := by
  decide

/-- C23 as amended: for every decoded inbound message whose type is not one of
join, draw, cursor, undo, redo, clear, sync-request or ping, the server sends no
message at all and changes no state. -/
theorem unknown_type_is_ignored (st : ServerState) (c : ConnId) (m : Message) (env : Env)
    (h : m.type ∉ knownTypes) :
    handleMessage st c m env = Handled.skip st ∧
    step st (.message c (.decoded m) env) = (st, []) := by
  simp only [knownTypes, List.mem_cons, List.mem_singleton, not_or, List.mem_nil_iff,
    or_false] at h
  obtain ⟨h1, h2, h3, h4, h5, h6, h7, h8⟩ := h
  have hm : handleMessage st c m env = Handled.skip st := by
    unfold handleMessage
    rw [if_neg h1, if_neg h2, if_neg h3, if_neg h4, if_neg h5, if_neg h6, if_neg h7, if_neg h8]
  refine ⟨hm, ?_⟩
  rw [step_message, onMessage_of_not_threw st c m env (by rw [hm]; rfl), hm]
  rfl

/-- C23 as amended, for a message of type resize from A in the room of A, B and
C: the type is unknown and the step leaves the state and sends nothing. -/
theorem unknown_type_is_ignored_witness :
    (scenarioMsg "resize" "A" "r1").type ∉ knownTypes ∧
    handleMessage threeInRoom 1 (scenarioMsg "resize" "A" "r1") scenarioEnv
      = Handled.skip threeInRoom :=
  ⟨by decide,
    (unknown_type_is_ignored threeInRoom 1 (scenarioMsg "resize" "A" "r1") scenarioEnv
      (by decide)).1⟩

end Canvas

namespace Canvas

/-! ## The roomId field of a message, and histories of other rooms -/

theorem DrawingStateManager.getOrCreateState_other (states : List (JsVal × DrawingState))
    (roomId other : JsVal) (now : Nat) (h : other ≠ roomId) :
    mapGet (DrawingStateManager.getOrCreateState states roomId now).2 other
      = mapGet states other := by
  unfold DrawingStateManager.getOrCreateState
  split
  · rfl
  · exact mapGet_mapSet_other _ _ _ _ (fun hc => h hc.symm)

theorem DrawingStateManager.recordAction_other (states : List (JsVal × DrawingState))
    (roomId other : JsVal) (action : ActionInput) (env : Env) (h : other ≠ roomId) :
    mapGet (DrawingStateManager.recordAction states roomId action env).2 other
      = mapGet states other := by
  unfold DrawingStateManager.recordAction
  simp only
  rw [mapGet_mapSet_other _ _ _ _ (fun hc => h hc.symm)]
  exact DrawingStateManager.getOrCreateState_other states roomId other _ h

theorem DrawingStateManager.undo_other (states : List (JsVal × DrawingState))
    (roomId other : JsVal) (env : Env) (h : other ≠ roomId) :
    mapGet (DrawingStateManager.undo states roomId env).2 other = mapGet states other := by
  unfold DrawingStateManager.undo
  simp only
  rw [mapGet_mapSet_other _ _ _ _ (fun hc => h hc.symm)]
  exact DrawingStateManager.getOrCreateState_other states roomId other _ h

theorem DrawingStateManager.redo_other (states : List (JsVal × DrawingState))
    (roomId other : JsVal) (env : Env) (h : other ≠ roomId) :
    mapGet (DrawingStateManager.redo states roomId env).2 other = mapGet states other := by
  unfold DrawingStateManager.redo
  simp only
  rw [mapGet_mapSet_other _ _ _ _ (fun hc => h hc.symm)]
  exact DrawingStateManager.getOrCreateState_other states roomId other _ h

theorem DrawingStateManager.clear_other (states : List (JsVal × DrawingState))
    (roomId other : JsVal) (env : Env) (h : other ≠ roomId) :
    mapGet (DrawingStateManager.clear states roomId env).2 other = mapGet states other := by
  unfold DrawingStateManager.clear
  simp only
  rw [mapGet_mapSet_other _ _ _ _ (fun hc => h hc.symm)]
  exact DrawingStateManager.getOrCreateState_other states roomId other _ h

theorem handleDraw_states_other (st : ServerState) (c : ConnId) (m : Message) (env : Env)
    (other : JsVal) (h : other ≠ (st.clientOf c).roomId) :
    mapGet (handleDraw st c m env).state.states other = mapGet st.states other := by
  unfold handleDraw
  split
  · rfl
  · split
    · rfl
    · simp only
      split <;> exact DrawingStateManager.recordAction_other _ _ _ _ _ h

theorem handleUndo_states_other (st : ServerState) (c : ConnId) (m : Message) (env : Env)
    (other : JsVal) (h : other ≠ (st.clientOf c).roomId) :
    mapGet (handleUndo st c m env).state.states other = mapGet st.states other := by
  unfold handleUndo
  split
  · rfl
  · split
    · rfl
    · exact DrawingStateManager.undo_other _ _ _ _ h

theorem handleRedo_states_other (st : ServerState) (c : ConnId) (m : Message) (env : Env)
    (other : JsVal) (h : other ≠ (st.clientOf c).roomId) :
    mapGet (handleRedo st c m env).state.states other = mapGet st.states other := by
  unfold handleRedo
  split
  · rfl
  · split
    · rfl
    · exact DrawingStateManager.redo_other _ _ _ _ h

theorem handleClear_states_other (st : ServerState) (c : ConnId) (m : Message) (env : Env)
    (other : JsVal) (h : other ≠ (st.clientOf c).roomId) :
    mapGet (handleClear st c m env).state.states other = mapGet st.states other := by
  unfold handleClear
  split
  · rfl
  · split
    · rfl
    · exact DrawingStateManager.clear_other _ _ _ _ h

theorem handleSyncRequest_states_other (st : ServerState) (c : ConnId) (m : Message) (env : Env)
    (other : JsVal) (h : other ≠ (st.clientOf c).roomId) :
    mapGet (handleSyncRequest st c m env).state.states other = mapGet st.states other := by
  unfold handleSyncRequest
  split
  · rfl
  · exact DrawingStateManager.getOrCreateState_other _ _ _ _ h

/-- C24, the claim as stated fails: A is joined to room r1 with B, and room r2
does not exist. A draw message of A whose roomId field names r2 is recorded in
the history of r1, which grows from one to two actions, and is broadcast to B;
an undo message of A whose roomId field names r2 moves the index of the history
of r1 from 1 to 0 and is broadcast in r1. -/
theorem draw_naming_other_room_is_applied :
    ((twoAuthors.clientOf 1).roomId = .str "r1" ∧
      RoomManager.getRoom twoAuthors.rooms (.str "r2") = none ∧
      (mapGet twoAuthors.states (.str "r1")).map DrawingState.getActionCount = some 1 ∧
      (step twoAuthors (scenarioEvent 1 "draw" "A" "r2")).2
        = [Send.mk 2 (scenarioMsg "draw" "A" "r2").toDrawMsg] ∧
      (mapGet (step twoAuthors (scenarioEvent 1 "draw" "A" "r2")).1.states (.str "r1")).map
        DrawingState.getActionCount = some 2) ∧
    ((mapGet afterJoinTwoDraws.states (.str "r1")).map DrawingState.getHistoryIndex = some 1 ∧
      (mapGet (step afterJoinTwoDraws (scenarioEvent 1 "undo" "A" "r2")).1.states
        (.str "r1")).map DrawingState.getHistoryIndex = some 0 ∧
      (step afterJoinTwoDraws (scenarioEvent 1 "undo" "A" "r2")).2
        = [Send.mk 1 (.undo (.str "A") .undefined (.num 7))]) := by
  decide

/-- C24 as amended: the server does not read the roomId field of a draw, undo,
redo or clear message. Whatever room that field names, the message is handled as
if it named the room of the session: each handler gives the same state and the
same sends for every value of the field, and the dispatch on the type leads to
that handler. The history of a room other than the room of the session, the one
named in the message included, is as before. -/
theorem message_roomId_is_not_read (st : ServerState) (c : ConnId) (m : Message) (env : Env)
    (roomId : JsVal) :
    (handleDraw st c { m with roomId := roomId } env = handleDraw st c m env ∧
      handleUndo st c { m with roomId := roomId } env = handleUndo st c m env ∧
      handleRedo st c { m with roomId := roomId } env = handleRedo st c m env ∧
      handleClear st c { m with roomId := roomId } env = handleClear st c m env) ∧
    (handleMessage st c { m with type := .str "draw", roomId := roomId } env
        = handleDraw st c m env ∧
      handleMessage st c { m with type := .str "undo", roomId := roomId } env
        = handleUndo st c m env ∧
      handleMessage st c { m with type := .str "redo", roomId := roomId } env
        = handleRedo st c m env ∧
      handleMessage st c { m with type := .str "clear", roomId := roomId } env
        = handleClear st c m env) ∧
    (roomId ≠ (st.clientOf c).roomId →
      mapGet (handleDraw st c { m with roomId := roomId } env).state.states roomId
        = mapGet st.states roomId ∧
      mapGet (handleUndo st c { m with roomId := roomId } env).state.states roomId
        = mapGet st.states roomId ∧
      mapGet (handleRedo st c { m with roomId := roomId } env).state.states roomId
        = mapGet st.states roomId ∧
      mapGet (handleClear st c { m with roomId := roomId } env).state.states roomId
        = mapGet st.states roomId) := by
  refine ⟨⟨rfl, rfl, rfl, rfl⟩, ⟨?_, ?_, ?_, ?_⟩, ?_⟩
  · exact handleMessage_draw st c { m with roomId := roomId } env
  · exact handleMessage_undo st c { m with roomId := roomId } env
  · exact handleMessage_redo st c { m with roomId := roomId } env
  · exact handleMessage_clear st c { m with roomId := roomId } env
  · intro h
    exact ⟨handleDraw_states_other st c _ env roomId h, handleUndo_states_other st c _ env roomId h,
      handleRedo_states_other st c _ env roomId h, handleClear_states_other st c _ env roomId h⟩

/-- C27, evaluated on the code: A joins room r1 on connection 1 and then
connection 2 joins r1 with the same userId A, which makes connection 2 the
holder of the entry A. When connection 1 closes, the entry A is removed although
it belongs to connection 2: the room is empty and is deleted from the registry,
and connection 2 is registered nowhere. With C also in the room the room stays,
but connection 2 is not a participant any more, and C is told that A left. -/
theorem stale_close_removes_reconnected_user :
    (RoomManager.getRoom sameUserTwice.rooms (.str "r1")
        = some { roomId := .str "r1", users := [(.str "A", 2)], createdAt := 1 } ∧
      (sameUserTwice.clientOf 2).wsOpen = true ∧
      (step sameUserTwice (.close 1)).1.rooms = [] ∧
      ¬ (step sameUserTwice (.close 1)).1.registered 2) ∧
    (RoomManager.getRoom sameUserTwiceWithC.rooms (.str "r1")
        = some { roomId := .str "r1", users := [(.str "A", 2), (.str "C", 3)], createdAt := 1 } ∧
      RoomManager.getRoom (step sameUserTwiceWithC (.close 1)).1.rooms (.str "r1")
        = some { roomId := .str "r1", users := [(.str "C", 3)], createdAt := 1 } ∧
      ¬ (step sameUserTwiceWithC (.close 1)).1.registered 2 ∧
      (step sameUserTwiceWithC (.close 1)).2 = [Send.mk 3 (.userLeft (.str "A"))]) := by
  decide

end Canvas

namespace Canvas

/-! ## Rooms other than the room of the session -/

theorem handleMessage_states_other (st : ServerState) (c : ConnId) (m : Message) (env : Env)
    (other : JsVal) (h : other ≠ (st.clientOf c).roomId) (hnj : m.type ≠ .str "join") :
    mapGet (handleMessage st c m env).state.states other = mapGet st.states other := by
  unfold handleMessage
  rw [if_neg hnj]
  split
  · exact handleDraw_states_other st c m env other h
  split
  · rw [handleCursor_states]
  split
  · exact handleUndo_states_other st c m env other h
  split
  · exact handleRedo_states_other st c m env other h
  split
  · exact handleClear_states_other st c m env other h
  split
  · exact handleSyncRequest_states_other st c m env other h
  split <;> rfl

theorem handleDisconnect_states (st : ServerState) (c : ConnId) :
    (handleDisconnect st c).state.states = st.states := by
  unfold handleDisconnect
  split
  · rfl
  · simp only
    split <;> rfl

theorem onClose_states (st : ServerState) (c : ConnId) : (onClose st c).1.states = st.states := by
  unfold onClose
  split
  · exact handleDisconnect_states (markNotOpen st c) c
  · rfl

theorem onClose_rooms_other (st : ServerState) (c : ConnId) (other : JsVal)
    (h : other ≠ (st.clientOf c).roomId) :
    mapGet (onClose st c).1.rooms other = mapGet st.rooms other := by
  have hid : ((markNotOpen st c).clientOf c).roomId = (st.clientOf c).roomId :=
    (markNotOpen_ids st c c).1
  unfold onClose
  split
  · simp only
    rcases handleDisconnect_rooms_cases (markNotOpen st c) c with ⟨_, h1⟩ | ⟨room, _, h1⟩ | h1
    · rw [h1]
      rfl
    · rw [h1, hid]
      exact mapGet_mapSet_other _ _ _ _ (fun hc => h hc.symm)
    · rw [h1, hid]
      exact mapGet_mapDelete_other _ _ _ (fun hc => h hc.symm)
  · rfl

theorem handleMessage_clientOf_other (st : ServerState) (c : ConnId) (m : Message) (env : Env)
    (c2 : ConnId) (h : c2 ≠ c) :
    (handleMessage st c m env).state.clientOf c2 = st.clientOf c2 := by
  have hne : c ≠ c2 := fun hc => h hc.symm
  unfold handleMessage
  split
  · rw [clientOf_of_clients_mapSet _ _ _ _ (handleJoin_clients st c m env), if_neg hne]
  split
  · exact clientOf_of_clients_eq _ _ (handleDraw_clients st c m env) c2
  split
  · rcases handleCursor_clients st c m with h1 | h1
    · exact clientOf_of_clients_eq _ _ h1 c2
    · rw [clientOf_of_clients_mapSet _ _ _ _ h1, if_neg hne]
  split
  · exact clientOf_of_clients_eq _ _ (handleUndo_clients st c m env) c2
  split
  · exact clientOf_of_clients_eq _ _ (handleRedo_clients st c m env) c2
  split
  · exact clientOf_of_clients_eq _ _ (handleClear_clients st c m env) c2
  split
  · exact clientOf_of_clients_eq _ _ (handleSyncRequest_clients st c m env) c2
  split <;> rfl

theorem onClose_clientOf_other (st : ServerState) (c c2 : ConnId) (h : c2 ≠ c) :
    (onClose st c).1.clientOf c2 = st.clientOf c2 := by
  have hne : c ≠ c2 := fun hc => h hc.symm
  unfold onClose
  split
  · simp only
    rw [clientOf_of_clients_eq _ _ (handleDisconnect_clients (markNotOpen st c) c)]
    exact clientOf_markNotOpen_other st c c2 hne
  · exact clientOf_markNotOpen_other st c c2 hne

/-- C29: let a connection have the roomId r, and let another roomId be given.
Handling a decoded message of that connection whose type is not join (a draw,
cursor, undo, redo, clear or sync-request message among them), also when the
handler throws, and handling the close of that connection, leave the registry
entry of the other roomId, that is its participant map, and the history of the
other roomId, that is its stored actions and its historyIndex, as they were; the
clientInfo object of every other connection is as before too. -/
theorem other_rooms_are_untouched (st : ServerState) (c : ConnId) (m : Message) (env : Env)
    (other : JsVal) (hother : other ≠ (st.clientOf c).roomId) (hnj : m.type ≠ .str "join") :
    (RoomManager.getRoom (onMessage st c (.decoded m) env).1.rooms other
        = RoomManager.getRoom st.rooms other ∧
      mapGet (onMessage st c (.decoded m) env).1.states other = mapGet st.states other ∧
      (∀ c2 : ConnId, c2 ≠ c →
        (onMessage st c (.decoded m) env).1.clientOf c2 = st.clientOf c2)) ∧
    (RoomManager.getRoom (onClose st c).1.rooms other = RoomManager.getRoom st.rooms other ∧
      mapGet (onClose st c).1.states other = mapGet st.states other ∧
      (∀ c2 : ConnId, c2 ≠ c → (onClose st c).1.clientOf c2 = st.clientOf c2)) := by
  unfold RoomManager.getRoom
  refine ⟨⟨?_, ?_, ?_⟩, ⟨onClose_rooms_other st c other hother, ?_, ?_⟩⟩
  · rw [onMessage_state, handleMessage_rooms_of_not_join st c m env hnj]
  · rw [onMessage_state]
    exact handleMessage_states_other st c m env other hother hnj
  · intro c2 hc2
    rw [onMessage_state]
    exact handleMessage_clientOf_other st c m env c2 hc2
  · rw [onClose_states]
  · intro c2 hc2
    exact onClose_clientOf_other st c c2 hc2

/-- C29 with A in room r1 and B in room r2, which has one stroke: for the draw of
A the hypotheses hold with r2 as the other room, and the room r2 and its history
are as before. -/
theorem other_rooms_are_untouched_witness :
    (.str "r2" : JsVal) ≠ (twoRooms.clientOf 1).roomId ∧
    (scenarioMsg "draw" "A" "r1").type ≠ .str "join" ∧
    RoomManager.getRoom (onMessage twoRooms 1 (.decoded (scenarioMsg "draw" "A" "r1"))
        scenarioEnv).1.rooms (.str "r2")
      = RoomManager.getRoom twoRooms.rooms (.str "r2") ∧
    mapGet (onMessage twoRooms 1 (.decoded (scenarioMsg "draw" "A" "r1"))
        scenarioEnv).1.states (.str "r2")
      = mapGet twoRooms.states (.str "r2") ∧
    (mapGet twoRooms.states (.str "r2")).map DrawingState.getActionCount = some 1 :=
  have h := other_rooms_are_untouched twoRooms 1 (scenarioMsg "draw" "A" "r1") scenarioEnv
    (.str "r2") (by decide) (by decide)
  ⟨by decide, by decide, h.1.1, h.1.2.1, by decide⟩

end Canvas

namespace Canvas

/-! ## The messages sent on a join -/

theorem RoomManager.joinRoom_get (rooms : List (JsVal × Room)) (roomId userId : JsVal)
    (c : ConnId) (now : Nat) :
    mapGet (RoomManager.joinRoom rooms roomId userId c now).2 roomId
      = some (RoomManager.joinRoom rooms roomId userId c now).1 := by
  unfold RoomManager.joinRoom
  split <;> exact mapGet_mapSet_self _ _ _

theorem RoomManager.joinRoom_users (rooms : List (JsVal × Room)) (roomId userId : JsVal)
    (c : ConnId) (now : Nat) :
    mapGet (RoomManager.joinRoom rooms roomId userId c now).1.users userId = some c ∧
    ∀ q ∈ (RoomManager.joinRoom rooms roomId userId c now).1.users,
      q = (userId, c) ∨ ∃ room, mapGet rooms roomId = some room ∧ q ∈ room.users := by
  unfold RoomManager.joinRoom
  split
  · rename_i room hroom
    refine ⟨mapGet_mapSet_self _ _ _, ?_⟩
    intro q hq
    rcases mem_mapSet _ _ _ _ hq with h1 | h1
    · exact Or.inl h1
    · exact Or.inr ⟨room, hroom, h1⟩
  · refine ⟨mapGet_mapSet_self _ _ _, ?_⟩
    intro q hq
    rcases mem_mapSet _ _ _ _ hq with h1 | h1
    · exact Or.inl h1
    · simp [Room.new] at h1

theorem handleJoin_wsOpen (st : ServerState) (c : ConnId) (m : Message) (env : Env)
    (c2 : ConnId) :
    ((handleJoin st c m env).state.clientOf c2).wsOpen = (st.clientOf c2).wsOpen := by
  rw [clientOf_of_clients_mapSet _ _ _ _ (handleJoin_clients st c m env)]
  by_cases hc : c = c2
  · subst hc
    simp
  · simp [hc]

theorem handleJoin_sends_eq (st : ServerState) (c : ConnId) (m : Message) (env : Env) :
    (handleJoin st c m env).sends =
      if ((joinedUsers (handleJoin st c m env).state
            (RoomManager.joinRoom st.rooms m.roomId m.userId c env.tRoom).1 m.userId).any
          fun u => ((handleJoin st c m env).state.clientOf u).wsClosing) = true then []
      else
        Send.mk c (.joined m.userId m.roomId
            ((joinedUsers (handleJoin st c m env).state
                (RoomManager.joinRoom st.rooms m.roomId m.userId c env.tRoom).1 m.userId).map
              (handleJoin st c m env).state.viewOf)
            (DrawingStateManager.getCanvasState st.states m.roomId env.tState).1) ::
          (RoomManager.joinRoom st.rooms m.roomId m.userId c env.tRoom).1.broadcast
            (handleJoin st c m env).state.clientOf (.userJoined m.userId m.timestamp)
            m.userId :=
  rfl

theorem handleJoin_threw_eq (st : ServerState) (c : ConnId) (m : Message) (env : Env) :
    (handleJoin st c m env).threw =
      (joinedUsers (handleJoin st c m env).state
          (RoomManager.joinRoom st.rooms m.roomId m.userId c env.tRoom).1 m.userId).any
        fun u => ((handleJoin st c m env).state.clientOf u).wsClosing :=
  rfl

theorem handleJoin_sends_cases (st : ServerState) (c : ConnId) (m : Message) (env : Env) :
    ((handleJoin st c m env).threw = true ∧ (handleJoin st c m env).sends = []) ∨
    ((handleJoin st c m env).threw = false ∧
      ∃ users canvas,
        (handleJoin st c m env).sends =
          Send.mk c (.joined m.userId m.roomId users canvas) ::
            (RoomManager.joinRoom st.rooms m.roomId m.userId c env.tRoom).1.broadcast
              (handleJoin st c m env).state.clientOf (.userJoined m.userId m.timestamp)
              m.userId) := by
  rw [handleJoin_sends_eq, handleJoin_threw_eq]
  cases ((joinedUsers (handleJoin st c m env).state
      (RoomManager.joinRoom st.rooms m.roomId m.userId c env.tRoom).1 m.userId).any
    fun u => ((handleJoin st c m env).state.clientOf u).wsClosing) with
  | true => exact Or.inl ⟨rfl, rfl⟩
  | false => exact Or.inr ⟨rfl, _, _, rfl⟩

theorem handleJoin_others_not_closing (st : ServerState) (c : ConnId) (m : Message) (env : Env)
    (hsock : ∀ room, RoomManager.getRoom st.rooms m.roomId = some room →
      ∀ p ∈ room.users, p.2 ≠ c → (st.clientOf p.2).wsClosing = false) :
    ((joinedUsers (handleJoin st c m env).state
        (RoomManager.joinRoom st.rooms m.roomId m.userId c env.tRoom).1 m.userId).any
      fun u => ((handleJoin st c m env).state.clientOf u).wsClosing) = false := by
  rw [List.any_eq_false]
  intro u hu
  unfold joinedUsers at hu
  rw [List.mem_filter] at hu
  obtain ⟨hmem, hne⟩ := hu
  have hne2 : ((handleJoin st c m env).state.clientOf u).userId ≠ m.userId :=
    of_decide_eq_true hne
  have hcl := clientOf_of_clients_mapSet _ _ _ _ (handleJoin_clients st c m env) u
  have huc : c ≠ u := by
    intro h
    subst h
    rw [hcl, if_pos rfl] at hne2
    exact hne2 rfl
  rw [hcl, if_neg huc]
  unfold Room.getUsers at hmem
  rw [List.mem_map] at hmem
  obtain ⟨q, hq, hqu⟩ := hmem
  rcases (RoomManager.joinRoom_users st.rooms m.roomId m.userId c env.tRoom).2 q hq
    with h1 | ⟨room, hroom, hq2⟩
  · rw [h1] at hqu
    exact absurd hqu huc
  · have hq3 : q.2 ≠ c := by
      rw [hqu]
      exact fun h => huc h.symm
    have hcl2 := hsock room hroom q hq2 hq3
    rw [hqu] at hcl2
    rw [hcl2]
    exact Bool.false_ne_true

theorem handleJoin_sends (st : ServerState) (c : ConnId) (m : Message) (env : Env)
    (hsock : ∀ room, RoomManager.getRoom st.rooms m.roomId = some room →
      ∀ p ∈ room.users, p.2 ≠ c → (st.clientOf p.2).wsClosing = false) :
    (handleJoin st c m env).threw = false ∧
    (handleJoin st c m env).sends =
      Send.mk c (.joined m.userId m.roomId
          ((joinedUsers (handleJoin st c m env).state
              (RoomManager.joinRoom st.rooms m.roomId m.userId c env.tRoom).1 m.userId).map
            (handleJoin st c m env).state.viewOf)
          (DrawingStateManager.getCanvasState st.states m.roomId env.tState).1) ::
        (RoomManager.joinRoom st.rooms m.roomId m.userId c env.tRoom).1.broadcast
          (handleJoin st c m env).state.clientOf (.userJoined m.userId m.timestamp)
          m.userId := by
  have h := handleJoin_others_not_closing st c m env hsock
  rw [handleJoin_sends_eq, handleJoin_threw_eq, h]
  exact ⟨rfl, rfl⟩

/-- The counterexample to C6: a session that has joined the room whose roomId is
the empty string is registered there, and its sync-request is answered with
nothing; and when C joins room r1 while the socket of participant A is in its
closing handshake, the joined reply is never built: the one message sent is the
error reply to C, and no message of the step carries a canvasState, although
the join has registered C in the room. -/
theorem join_or_sync_request_without_canvas_state :
    RoomManager.getRoom joinedEmptyRoomId.rooms (.str "")
      = some { roomId := .str "", users := [(.str "A", 1)], createdAt := 1 } ∧
    (step joinedEmptyRoomId (scenarioEvent 1 "sync-request" "A" "")).2 = [] ∧
    (closingInRoom.clientOf 1).wsClosing = true ∧
    (step closingInRoom (scenarioEvent 3 "join" "C" "r1")).2
      = [Send.mk 3 (.error "Invalid message format")] ∧
    RoomManager.getRoom (step closingInRoom (scenarioEvent 3 "join" "C" "r1")).1.rooms
        (.str "r1")
      = some { roomId := .str "r1", users := [(.str "A", 1), (.str "B", 2), (.str "C", 3)],
               createdAt := 1 } := by
  decide

/-- C6 (amended): in a reachable server state, when no other participant of the
room has a socket in its closing handshake, handling a join sends the joining
session one joined reply whose canvasState holds the current action sequence
and the current index of the history of that room, with as many actions as the
index plus one, and no other message of that step carries a canvasState;
handling a sync-request sends the session one canvas-sync with the same content
when its roomId is truthy and nothing otherwise. A message of type join
(sync-request) is dispatched to handleJoin (handleSyncRequest). Scenario: A
joins r1 and draws, then B joins r1 and receives that one stroke with index 0. -/
theorem join_reply_carries_snapshot (st : ServerState) (c : ConnId) (m : Message) (env : Env)
    (h : st.Reachable) :
    ((∀ room, RoomManager.getRoom st.rooms m.roomId = some room →
        ∀ p ∈ room.users, p.2 ≠ c → (st.clientOf p.2).wsClosing = false) →
      (∃ ds users rest,
        (mapGet st.states m.roomId = some ds ∨
          (mapGet st.states m.roomId = none ∧ ds = DrawingState.new m.roomId env.tState)) ∧
        mapGet (handleJoin st c m env).state.states m.roomId = some ds ∧
        (handleJoin st c m env).sends =
          { dest := c, msg := .joined m.userId m.roomId users
              { actions := ds.getCurrentActionSequence.1, historyIndex := ds.historyIndex } }
            :: rest ∧
        (∀ s ∈ rest, s.msg.canvasState? = none) ∧
        (ds.getCurrentActionSequence.1.length : Int) = ds.historyIndex + 1) ∧
      onMessage st c (.decoded { m with type := .str "join" }) env =
        ((handleJoin st c { m with type := .str "join" } env).state,
         (handleJoin st c { m with type := .str "join" } env).sends)) ∧
    (if (st.clientOf c).roomId.truthy = true then
      ∃ ds,
        (mapGet st.states (st.clientOf c).roomId = some ds ∨
          (mapGet st.states (st.clientOf c).roomId = none ∧
            ds = DrawingState.new (st.clientOf c).roomId env.tState)) ∧
        mapGet (handleSyncRequest st c m env).state.states (st.clientOf c).roomId = some ds ∧
        (handleSyncRequest st c m env).sends =
          [{ dest := c, msg := .canvasSync
              { actions := ds.getCurrentActionSequence.1, historyIndex := ds.historyIndex }
              m.timestamp }] ∧
        (ds.getCurrentActionSequence.1.length : Int) = ds.historyIndex + 1
     else (handleSyncRequest st c m env).sends = []) ∧
    onMessage st c (.decoded { m with type := .str "sync-request" }) env =
      ((handleSyncRequest st c { m with type := .str "sync-request" } env).state,
       (handleSyncRequest st c { m with type := .str "sync-request" } env).sends) ∧
    (step afterJoinDraw (scenarioEvent 2 "join" "B" "r1")).2 =
      [{ dest := 2, msg := .joined (.str "B") (.str "r1")
          [{ userId := .str "A", roomId := .str "r1", cursor := (.num 0, .num 0) }]
          { actions := [scenarioStroke "A" "r1"], historyIndex := 0 } },
       { dest := 1, msg := .userJoined (.str "B") (.num 7) }] := by
  have hok := (reachable_invariants st h).1
  refine ⟨?_, ?_, ?_, by decide⟩
  · intro hsock
    obtain ⟨⟨hinv, _⟩, _, hget⟩ :=
      DrawingStateManager.getOrCreateState_ok st.states m.roomId env.tState hok
    obtain ⟨_, hsends⟩ := handleJoin_sends st c m env hsock
    refine ⟨⟨(DrawingStateManager.getOrCreateState st.states m.roomId env.tState).1, _, _,
      ?_, hget, hsends, ?_, DrawingState.getCurrentActionSequence_length _ hinv⟩, ?_⟩
    · rcases DrawingStateManager.getOrCreateState_origin st.states m.roomId env.tState
        with h1 | h1
      · exact Or.inl h1
      · exact Or.inr h1
    · intro s hs
      obtain ⟨p, _, hsp, _⟩ := broadcast_mem _ _ _ _ s hs
      rw [hsp]
      rfl
    · have hthrew : (handleJoin st c { m with type := .str "join" } env).threw = false :=
        (handleJoin_sends st c { m with type := .str "join" } env hsock).1
      rw [onMessage_of_not_threw _ _ _ _ (by rw [handleMessage_join]; exact hthrew),
        handleMessage_join]
  · split
    · rename_i ht
      obtain ⟨⟨hinv, _⟩, _, hget⟩ :=
        DrawingStateManager.getOrCreateState_ok st.states (st.clientOf c).roomId env.tState hok
      refine ⟨(DrawingStateManager.getOrCreateState st.states (st.clientOf c).roomId
        env.tState).1, ?_, ?_, ?_, DrawingState.getCurrentActionSequence_length _ hinv⟩
      · exact DrawingStateManager.getOrCreateState_origin _ _ _
      · unfold handleSyncRequest
        simp only [ht, Bool.not_true, Bool.false_eq_true, if_false]
        exact hget
      · unfold handleSyncRequest
        simp only [ht, Bool.not_true, Bool.false_eq_true, if_false]
        rfl
    · rename_i ht
      unfold handleSyncRequest
      simp [ht, Handled.skip]
  · unfold onMessage
    simp only [handleMessage_syncRequest]
    split <;> rename_i ht
    · exfalso
      revert ht
      unfold handleSyncRequest
      split <;> simp [Handled.skip]
    · rfl

/-- C6 at the scenario state: the state after A joined and drew is reachable, no
participant of room r1 has a socket in its closing handshake, and the join of B
on connection 2 is answered with the one stroke and index 0. -/
theorem join_reply_carries_snapshot_witness :
    afterJoinDraw.Reachable ∧
    (∀ room, RoomManager.getRoom afterJoinDraw.rooms (scenarioMsg "join" "B" "r1").roomId
        = some room →
      ∀ p ∈ room.users, p.2 ≠ 2 → (afterJoinDraw.clientOf p.2).wsClosing = false) ∧
    (handleJoin afterJoinDraw 2 (scenarioMsg "join" "B" "r1") scenarioEnv).sends.head? =
      some (Send.mk 2 (.joined (.str "B") (.str "r1")
          [{ userId := .str "A", roomId := .str "r1", cursor := (.num 0, .num 0) }]
          { actions := [scenarioStroke "A" "r1"], historyIndex := 0 })) :=
  have hr : afterJoinDraw.Reachable := ⟨_, rfl⟩
  have hroom : RoomManager.getRoom afterJoinDraw.rooms (.str "r1")
      = some { roomId := .str "r1", users := [(.str "A", 1)], createdAt := 1 } := by decide
  have hsock : ∀ room,
      RoomManager.getRoom afterJoinDraw.rooms (scenarioMsg "join" "B" "r1").roomId = some room →
      ∀ p ∈ room.users, p.2 ≠ 2 → (afterJoinDraw.clientOf p.2).wsClosing = false := by
    intro room h p hp _
    have hr2 : some room = _ := h.symm.trans hroom
    cases hr2
    have hall : ∀ q ∈ [((.str "A" : JsVal), (1 : ConnId))],
        (afterJoinDraw.clientOf q.2).wsClosing = false := by decide
    exact hall p hp
  have h := join_reply_carries_snapshot afterJoinDraw 2 (scenarioMsg "join" "B" "r1")
    scenarioEnv hr
  ⟨hr, hsock, by
    obtain ⟨⟨ds, users, rest, _, _, hs, _, _⟩, _⟩ := h.1 hsock
    rw [hs]
    have hd : (handleJoin afterJoinDraw 2 (scenarioMsg "join" "B" "r1") scenarioEnv).sends.head?
        = some (Send.mk 2 (.joined (.str "B") (.str "r1")
          [{ userId := .str "A", roomId := .str "r1", cursor := (.num 0, .num 0) }]
          { actions := [scenarioStroke "A" "r1"], historyIndex := 0 })) := by decide
    rw [hs] at hd
    exact hd⟩


/-- C30, the claim as stated fails: a session that joins room r1 with the empty
string as userId receives its joined reply and also the user-joined message of
its own join; when A, already in room r1 on connection 1, joins r1 again on
the same connection as A2, connection 1 receives the joined reply and a
user-joined message; and when C joins room r1 while the socket of participant A
is in its closing handshake and that of B is open, the joining session receives
the error reply instead of a joined reply and B receives nothing. -/
theorem joiner_receives_own_user_joined :
    (step ServerState.init (scenarioEvent 1 "join" "" "r1")).2
      = [Send.mk 1 (.joined (.str "") (.str "r1") [] { actions := [], historyIndex := -1 }),
         Send.mk 1 (.userJoined (.str "") (.num 7))] ∧
    (((step afterJoinDraw (scenarioEvent 1 "join" "A2" "r1")).2.map Send.dest = [1, 1]) ∧
      (step afterJoinDraw (scenarioEvent 1 "join" "A2" "r1")).2.getLast?
        = some (Send.mk 1 (.userJoined (.str "A2") (.num 7)))) ∧
    ((closingInRoom.clientOf 1).wsOpen = false ∧ (closingInRoom.clientOf 1).wsClosing = true ∧
      (closingInRoom.clientOf 2).wsOpen = true ∧
      (step closingInRoom (scenarioEvent 3 "join" "C" "r1")).2
        = [Send.mk 3 (.error "Invalid message format")]) := by
  decide

/-- C30 as amended: when the server handles a join whose userId is truthy, on a
connection that is not registered in the room under another userId, while no
other participant of the room has a socket in its closing handshake, the first
message sent is the joined reply, to the joining session, and the other messages
are one user-joined message naming the joiner for each entry of the participant
map of the room, in map order, that has another userId and an open handle; none
of these goes to the joining session, which holds the entry of its userId. These
are all the messages sent for an inbound message of type join. -/
theorem join_reply_and_notifications (st : ServerState) (c : ConnId) (m : Message) (env : Env)
    (htruthy : m.userId.truthy = true)
    (honly : ∀ room, RoomManager.getRoom st.rooms m.roomId = some room →
      ∀ p ∈ room.users, p.2 = c → p.1 = m.userId)
    (hsock : ∀ room, RoomManager.getRoom st.rooms m.roomId = some room →
      ∀ p ∈ room.users, p.2 ≠ c → (st.clientOf p.2).wsClosing = false) :
    ∃ room users canvas,
      RoomManager.getRoom (handleJoin st c m env).state.rooms m.roomId = some room ∧
      mapGet room.users m.userId = some c ∧
      (handleJoin st c m env).sends =
        Send.mk c (.joined m.userId m.roomId users canvas) ::
          (room.users.filter fun p =>
              decide (p.1 ≠ m.userId) && (st.clientOf p.2).wsOpen).map
            (fun p => Send.mk p.2 (.userJoined m.userId m.timestamp)) ∧
      (∀ p ∈ room.users, p.1 ≠ m.userId → p.2 ≠ c) ∧
      (∀ s ∈ (handleJoin st c m env).sends.tail,
        s.dest ≠ c ∧ s.msg = .userJoined m.userId m.timestamp) ∧
      onMessage st c (.decoded { m with type := .str "join" }) env
        = ((handleJoin st c m env).state, (handleJoin st c m env).sends) := by
  obtain ⟨hthrew, hsends⟩ := handleJoin_sends st c m env hsock
  obtain ⟨hself, hentries⟩ :=
    RoomManager.joinRoom_users st.rooms m.roomId m.userId c env.tRoom
  have hothers : ∀ p ∈ (RoomManager.joinRoom st.rooms m.roomId m.userId c env.tRoom).1.users,
      p.1 ≠ m.userId → p.2 ≠ c := by
    intro p hp hne hc
    rcases hentries p hp with h1 | ⟨room, hroom, hq⟩
    · rw [h1] at hne
      exact hne rfl
    · exact hne (honly room hroom p hq hc)
  have hbc : (RoomManager.joinRoom st.rooms m.roomId m.userId c env.tRoom).1.broadcast
      (handleJoin st c m env).state.clientOf (.userJoined m.userId m.timestamp) m.userId
      = ((RoomManager.joinRoom st.rooms m.roomId m.userId c env.tRoom).1.users.filter fun p =>
            decide (p.1 ≠ m.userId) && (st.clientOf p.2).wsOpen).map
          (fun p => Send.mk p.2 (.userJoined m.userId m.timestamp)) := by
    rw [broadcast_eq_filter_map]
    congr 1
    apply List.filter_congr
    intro p _
    rw [handleJoin_wsOpen]
    simp [htruthy]
  rw [hbc] at hsends
  refine ⟨_, _, _, RoomManager.joinRoom_get st.rooms m.roomId m.userId c env.tRoom,
    hself, hsends, hothers, ?_, ?_⟩
  · intro s hs
    rw [hsends, List.tail_cons, List.mem_map] at hs
    obtain ⟨p, hp, hsp⟩ := hs
    rw [List.mem_filter] at hp
    have hk := hp.2
    simp only [Bool.and_eq_true, decide_eq_true_eq] at hk
    rw [← hsp]
    exact ⟨hothers p hp.1 hk.1, rfl⟩
  · have hj : handleMessage st c { m with type := .str "join" } env = handleJoin st c m env := by
      rw [handleMessage_join]
      rfl
    rw [onMessage_of_not_threw _ _ _ _ (by rw [hj]; exact hthrew), hj]

/-- C30 as amended, for the join of C on connection 3 into the room of A and B:
the hypotheses hold, and the messages sent are the joined reply to connection 3
followed by user-joined C to connections 1 and 2. -/
theorem join_reply_and_notifications_witness :
    (scenarioMsg "join" "C" "r1").userId.truthy = true ∧
    RoomManager.getRoom twoInRoom.rooms (.str "r1") = some roomOfTwo ∧
    (∀ p ∈ roomOfTwo.users, p.2 = 3 → p.1 = .str "C") ∧
    (∀ p ∈ roomOfTwo.users, p.2 ≠ 3 → (twoInRoom.clientOf p.2).wsClosing = false) ∧
    (∃ room users canvas,
      RoomManager.getRoom (handleJoin twoInRoom 3 (scenarioMsg "join" "C" "r1")
        scenarioEnv).state.rooms (.str "r1") = some room ∧
      mapGet room.users (.str "C") = some 3 ∧
      (handleJoin twoInRoom 3 (scenarioMsg "join" "C" "r1") scenarioEnv).sends =
        Send.mk 3 (.joined (.str "C") (.str "r1") users canvas) ::
          (room.users.filter fun p =>
              decide (p.1 ≠ .str "C") && (twoInRoom.clientOf p.2).wsOpen).map
            (fun p => Send.mk p.2 (.userJoined (.str "C") (.num 7)))) :=
  have hroom : RoomManager.getRoom twoInRoom.rooms (.str "r1") = some roomOfTwo := by decide
  have honly : ∀ p ∈ roomOfTwo.users, p.2 = 3 → p.1 = .str "C" := by decide
  have hsock : ∀ p ∈ roomOfTwo.users, p.2 ≠ 3 → (twoInRoom.clientOf p.2).wsClosing = false := by
    decide
  ⟨by decide, hroom, honly, hsock, by
    obtain ⟨room, users, canvas, h1, h2, h3, _⟩ :=
      join_reply_and_notifications twoInRoom 3 (scenarioMsg "join" "C" "r1") scenarioEnv
        (by decide) (fun room h p hp hc => by
          have hr : some room = some roomOfTwo := h.symm.trans hroom
          cases hr
          exact honly p hp hc)
        (fun room h p hp hc => by
          have hr : some room = some roomOfTwo := h.symm.trans hroom
          cases hr
          exact hsock p hp hc)
    exact ⟨room, users, canvas, h1, h2, h3⟩⟩

end Canvas

/-! ## The index after the first record -/

namespace Canvas

namespace DrawingState

theorem pushAction_index_nonneg (s : DrawingState) (a : Action) (h : s.Inv)
    (hmax : 1 ≤ s.maxHistorySize) : 0 ≤ (s.pushAction a).historyIndex := by
  have h1 := pushAction_index_last s a h
  have h2 := (pushAction_length_bounds s a h hmax).2
  omega

theorem undo_index_nonneg (s : DrawingState) (h : 0 ≤ s.historyIndex) :
    0 ≤ s.undo.2.historyIndex := by
  unfold undo
  split
  · show 0 ≤ s.historyIndex - 1
    omega
  · exact h

theorem redo_index_nonneg (s : DrawingState) (h : 0 ≤ s.historyIndex) :
    0 ≤ s.redo.2.historyIndex := by
  unfold redo
  split
  · show 0 ≤ s.historyIndex + 1
    omega
  · exact h

theorem applyOp_index_nonneg (s : DrawingState) (op : HistoryOp) (h : s.Inv)
    (hmax : s.maxHistorySize = 100) (h0 : 0 ≤ s.historyIndex) :
    0 ≤ (s.applyOp op).historyIndex := by
  cases op with
  | recordAction a env => exact pushAction_index_nonneg s _ h (by omega)
  | undo => exact undo_index_nonneg s h0
  | redo => exact redo_index_nonneg s h0
  | clear env => exact pushAction_index_nonneg s _ h (by omega)

theorem runOps_index_nonneg (ops : List HistoryOp) (s : DrawingState) (h : s.Inv)
    (hmax : s.maxHistorySize = 100) (h0 : 0 ≤ s.historyIndex) :
    0 ≤ (s.runOps ops).historyIndex := by
  induction ops generalizing s with
  | nil => exact h0
  | cons op rest ih =>
    obtain ⟨h1, h2⟩ := applyOp_inv s op h hmax
    exact ih (s.applyOp op) h1 h2 (applyOp_index_nonneg s op h hmax h0)

theorem runOps_append (s : DrawingState) (ops1 ops2 : List HistoryOp) :
    s.runOps (ops1 ++ ops2) = (s.runOps ops1).runOps ops2 := by
  unfold runOps
  rw [List.foldl_append]

end DrawingState

/-- C36: on a fresh DrawingState, once a recordAction call has been made, after
every further sequence of recordAction, undo, redo and clear calls the
historyIndex is at least 0, getCurrentActionSequence() is not empty, and one
more undo() still leaves the index at 0 or above. -/
theorem index_stays_nonnegative_after_first_record (roomId : JsVal) (now : Nat)
    (before after : List HistoryOp) (a : ActionInput) (env : Env) :
    0 ≤ ((DrawingState.new roomId now).runOps
          (before ++ [.recordAction a env] ++ after)).historyIndex ∧
    ((DrawingState.new roomId now).runOps
          (before ++ [.recordAction a env] ++ after)).getCurrentActionSequence.1 ≠ [] ∧
    0 ≤ ((DrawingState.new roomId now).runOps
          (before ++ [.recordAction a env] ++ after)).undo.2.historyIndex := by
  obtain ⟨hi1, hm1⟩ :=
    DrawingState.runOps_inv before _ (DrawingState.new_inv roomId now) rfl
  have hrec : 0 ≤ ((DrawingState.new roomId now).runOps (before ++ [.recordAction a env])).historyIndex := by
    rw [DrawingState.runOps_append]
    exact DrawingState.pushAction_index_nonneg _ _ hi1 (by omega)
  obtain ⟨hi2, hm2⟩ :=
    DrawingState.runOps_inv (before ++ [.recordAction a env]) _
      (DrawingState.new_inv roomId now) rfl
  have h0 : 0 ≤ ((DrawingState.new roomId now).runOps
      (before ++ [.recordAction a env] ++ after)).historyIndex := by
    rw [DrawingState.runOps_append]
    exact DrawingState.runOps_index_nonneg after _ hi2 hm2 hrec
  obtain ⟨hi3, _⟩ :=
    DrawingState.runOps_inv (before ++ [.recordAction a env] ++ after) _
      (DrawingState.new_inv roomId now) rfl
  refine ⟨h0, ?_, DrawingState.undo_index_nonneg _ h0⟩
  intro hnil
  have hlen := (DrawingState.getCurrentActionSequence_length _ hi3)
  rw [hnil] at hlen
  simp only [List.length_nil, Nat.cast_zero] at hlen
  omega

end Canvas

/-! ## The rooms in which a connection is registered -/

namespace Canvas

theorem length_le_one_of_nodup_of_all_eq {α : Type} (xs : List α) (r : α)
    (hnd : xs.Nodup) (hall : ∀ x ∈ xs, x = r) : xs.length ≤ 1 := by
  cases xs with
  | nil => simp
  | cons x rest =>
    cases rest with
    | nil => simp
    | cons y rest2 =>
      exfalso
      have hx : x = r := hall x (by simp)
      have hy : y = r := hall y (by simp)
      rw [List.nodup_cons] at hnd
      exact hnd.1 (by rw [hx, hy]; simp)

theorem roomsOf_nodup (st : ServerState) (c : ConnId) (hk : st.RoomKeysUnique) :
    (st.roomsOf c).Nodup := by
  unfold ServerState.roomsOf
  exact List.Nodup.sublist (List.Sublist.map _ (List.filter_sublist _)) hk

theorem mem_roomsOf (st : ServerState) (c : ConnId) (r : JsVal) (h : r ∈ st.roomsOf c) :
    ∃ p ∈ st.rooms, p.1 = r ∧ ∃ q ∈ p.2.users, q.2 = c := by
  unfold ServerState.roomsOf at h
  rw [List.mem_map] at h
  obtain ⟨p, hp, hpr⟩ := h
  rw [List.mem_filter] at hp
  obtain ⟨hp1, hp2⟩ := hp
  rw [List.any_eq_true] at hp2
  obtain ⟨q, hq, hqc⟩ := hp2
  exact ⟨p, hp1, hpr, q, hq, of_decide_eq_true hqc⟩

theorem roomsOf_eq_nil (st : ServerState) (c : ConnId) (h : ¬ st.registered c) :
    st.roomsOf c = [] := by
  rw [List.eq_nil_iff_forall_not_mem]
  intro r hr
  obtain ⟨p, hp, _, q, hq, hqc⟩ := mem_roomsOf st c r hr
  exact h ⟨p, hp, q, hq, hqc⟩

theorem roomsOf_of_registeredOnlyAs (st : ServerState) (c : ConnId) (r u : JsVal)
    (hk : st.RoomKeysUnique) (h : st.registeredOnlyAs c r u) :
    (st.roomsOf c).length ≤ 1 ∧ ∀ x ∈ st.roomsOf c, x = r := by
  have hall : ∀ x ∈ st.roomsOf c, x = r := by
    intro x hx
    obtain ⟨p, hp, hpx, q, hq, hqc⟩ := mem_roomsOf st c x hx
    rw [← hpx]
    exact (h p hp q hq hqc).1
  exact ⟨length_le_one_of_nodup_of_all_eq _ r (roomsOf_nodup st c hk) hall, hall⟩

/-- The counterexample to C31: after connection 1 has joined room r1 and then
room r2, it is registered as a participant in both rooms. -/
theorem second_join_registers_in_second_room :
    joinedTwice.roomsOf 1 = [.str "r1", .str "r2"] ∧
    (joinedTwice.roomsOf 1).length = 2 ∧
    (joinedTwice.clientOf 1).roomId = .str "r2" := by
  decide

/-- C31 (amended): for every sequence of events in which the connection sends
exactly one join message, the connection is registered in no room before the
join, and at every later point it is registered in at most one room of the
registry, which is the room named by the join. -/
theorem single_join_registers_in_one_room (c : ConnId) (m : Message) (env : Env)
    (before after : List Event)
    (hb : ∀ e ∈ before, Event.isJoinOf c e = false)
    (ha : ∀ e ∈ after, Event.isJoinOf c e = false) :
    (runEvents ServerState.init before).roomsOf c = [] ∧
    ((runEvents ServerState.init
        (before ++ [.message c (.decoded { m with type := .str "join" }) env] ++ after)).roomsOf
          c).length ≤ 1 ∧
    ∀ r ∈ (runEvents ServerState.init
        (before ++ [.message c (.decoded { m with type := .str "join" }) env] ++ after)).roomsOf c,
      r = m.roomId := by
  have hnb := runEvents_not_registered before ServerState.init c hb (init_not_registered c)
  have hj := join_registers_only_as (runEvents ServerState.init before) c
    { m with type := .str "join" } env hnb
  have hstep : (step (runEvents ServerState.init before)
      (.message c (.decoded { m with type := .str "join" }) env)).1
        = (handleJoin (runEvents ServerState.init before) c { m with type := .str "join" }
            env).state := by
    rw [step_message, onMessage_state, handleMessage_of_join _ _ _ _ rfl]
  have hrun := runEvents_registeredOnlyAs after
    (handleJoin (runEvents ServerState.init before) c { m with type := .str "join" } env).state
    c m.roomId m.userId ha hj.1 hj.2.1 hj.2.2
  have hk := runEvents_keys
    (before ++ [.message c (.decoded { m with type := .str "join" }) env] ++ after)
    ServerState.init init_keys
  have hstate : runEvents ServerState.init
      (before ++ [.message c (.decoded { m with type := .str "join" }) env] ++ after)
      = runEvents (handleJoin (runEvents ServerState.init before) c
          { m with type := .str "join" } env).state after := by
    rw [runEvents_append, runEvents_append, runEvents_single, hstep]
  have hres := roomsOf_of_registeredOnlyAs _ c m.roomId m.userId hk (hstate ▸ hrun.1)
  exact ⟨roomsOf_eq_nil _ c hnb, hres.1, hres.2⟩

theorem single_join_registers_in_one_room_witness :
    (∀ e ∈ [scenarioEvent 2 "join" "B" "r2"], Event.isJoinOf 1 e = false) ∧
    (∀ e ∈ [scenarioEvent 1 "draw" "A" "r1", scenarioEvent 2 "join" "B" "r1"],
      Event.isJoinOf 1 e = false) ∧
    ((runEvents ServerState.init
        ([scenarioEvent 2 "join" "B" "r2"]
          ++ [.message 1 (.decoded { scenarioMsg "join" "A" "r1" with type := .str "join" })
                scenarioEnv]
          ++ [scenarioEvent 1 "draw" "A" "r1", scenarioEvent 2 "join" "B" "r1"])).roomsOf
          1).length ≤ 1 :=
  ⟨by decide, by decide,
   (single_join_registers_in_one_room 1 (scenarioMsg "join" "A" "r1") scenarioEnv
      [scenarioEvent 2 "join" "B" "r2"]
      [scenarioEvent 1 "draw" "A" "r1", scenarioEvent 2 "join" "B" "r1"]
      (by decide) (by decide)).2.1⟩

end Canvas

/-! ## The message queue of the client -/

namespace Canvas

namespace WebSocketManager

theorem send_open (m : WebSocketManager) (message : Message) (hc : m.connected = true)
    (ho : m.wsOpen = true) : m.send message = (m, [message]) := by
  unfold send
  rw [hc, ho]
  rfl

theorem send_disconnected (m : WebSocketManager) (message : Message)
    (hc : m.connected = false) :
    m.send message = ({ m with messageQueue := m.messageQueue ++ [message] }, []) := by
  unfold send
  rw [hc]
  rfl

theorem sendAll_disconnected (messages : List Message) (m : WebSocketManager)
    (hc : m.connected = false) :
    m.sendAll messages = ({ m with messageQueue := m.messageQueue ++ messages }, []) := by
  induction messages generalizing m with
  | nil =>
    unfold sendAll
    rw [List.append_nil]
  | cons message rest ih =>
    unfold sendAll
    rw [send_disconnected m message hc]
    simp only
    rw [ih { m with messageQueue := m.messageQueue ++ [message] } hc]
    simp only [List.append_assoc, List.singleton_append, List.append_nil, List.nil_append]

theorem flushQueue_open (fuel : Nat) (m : WebSocketManager) (hc : m.connected = true)
    (ho : m.wsOpen = true) (hf : m.messageQueue.length < fuel) :
    flushQueue fuel m = some ({ m with messageQueue := [] }, m.messageQueue) := by
  induction fuel generalizing m with
  | zero => omega
  | succ n ih =>
    obtain ⟨o, c, u, r, ra, mra, rd, q⟩ := m
    simp only at hc ho hf
    subst hc ho
    cases q with
    | nil => rfl
    | cons message rest =>
      unfold flushQueue
      simp only
      rw [send_open _ message rfl rfl]
      simp only [List.length_cons] at hf
      rw [ih _ rfl rfl (by simp only; omega)]
      rfl

theorem handleOpen_open (m : WebSocketManager) (env : ClientEnv) (fuel : Nat)
    (ho : m.wsOpen = true) (hf : m.messageQueue.length < fuel) :
    ∃ r : WebSocketManager,
      m.handleOpen env fuel = some (r, m.messageQueue ++ [r.joinRequest]) ∧
      r.messageQueue = [] ∧ r.connected = true ∧ r.wsOpen = true ∧
      r.reconnectAttempts = 0 ∧
      r.userId = (if m.userId.truthy then m.userId else generateUserId env) ∧
      r.roomId = m.roomId ∧
      r.maxReconnectAttempts = m.maxReconnectAttempts ∧
      r.reconnectDelay = m.reconnectDelay := by
  unfold handleOpen
  rw [flushQueue_open fuel { m with connected := true, reconnectAttempts := 0 } rfl ho hf]
  simp only [Option.map_some']
  by_cases hu : m.userId.truthy = true
  · simp only [hu, if_true]
    rw [send_open { m with connected := true, reconnectAttempts := 0, messageQueue := [] } _
      rfl ho]
    exact ⟨_, rfl, rfl, rfl, ho, rfl, rfl, rfl, rfl, rfl⟩
  · simp only [hu, Bool.false_eq_true, if_false]
    rw [send_open
      { m with connected := true, reconnectAttempts := 0, messageQueue := [],
               userId := generateUserId env } _ rfl ho]
    exact ⟨_, rfl, rfl, rfl, ho, rfl, rfl, rfl, rfl, rfl⟩

end WebSocketManager

/-- C37: messages passed to send while the manager is not connected are handed
to no socket and are appended to the queue in call order; when the socket is
open, handleOpen returns as soon as the loop is given more tests than the queue
has messages, it hands to the socket first the queued messages in the order in
which they were queued and, after all of them, the join request, and it leaves
the queue empty. The server handles the messages of a connection in the order of
arrival, and on a connection that has not joined yet a queued message other than
a join leaves the server state as it is. -/
theorem queued_messages_are_flushed_in_order_before_join (m : WebSocketManager)
    (messages : List Message) (env : ClientEnv) (fuel : Nat)
    (hc : m.connected = false)
    (hf : (m.messageQueue ++ messages).length < fuel) :
    (m.sendAll messages).2 = [] ∧
    (m.sendAll messages).1.messageQueue = m.messageQueue ++ messages ∧
    ∃ r : WebSocketManager,
      WebSocketManager.handleOpen { (m.sendAll messages).1 with wsOpen := true } env fuel
        = some (r, m.messageQueue ++ messages ++ [r.joinRequest]) ∧
      r.messageQueue = [] ∧
      r.joinRequest.type = .str "join" ∧
      ∀ (st : ServerState) (c : ConnId) (senv : Env) (q : Message),
        q ∈ m.messageQueue ++ messages → q.type ≠ .str "join" →
        (st.clientOf c).roomId.truthy = false →
        (handleMessage st c q senv).state = st := by
  rw [WebSocketManager.sendAll_disconnected messages m hc]
  refine ⟨rfl, rfl, ?_⟩
  obtain ⟨r, h1, h2, _⟩ := WebSocketManager.handleOpen_open
    { ({ m with messageQueue := m.messageQueue ++ messages } : WebSocketManager) with
      wsOpen := true } env fuel rfl hf
  refine ⟨r, h1, h2, rfl, ?_⟩
  intro st c senv q _ hq hr
  rw [handleMessage_unjoined st c q senv hr hq]

theorem queued_messages_are_flushed_in_order_before_join_witness :
    ({ WebSocketManager.new with userId := .str "A", roomId := .str "r1" }
        : WebSocketManager).connected = false ∧
    (({ WebSocketManager.new with userId := .str "A", roomId := .str "r1" }
        : WebSocketManager).messageQueue
      ++ [scenarioMsg "draw" "A" "r1", scenarioMsg "undo" "A" "r1"]).length < 3 ∧
    ∃ r : WebSocketManager,
      WebSocketManager.handleOpen queuedThenOpen scenarioClientEnv 3
        = some (r, [scenarioMsg "draw" "A" "r1", scenarioMsg "undo" "A" "r1"]
            ++ [r.joinRequest]) ∧
      r.messageQueue = [] ∧ r.joinRequest.type = .str "join" :=
  ⟨rfl, by decide,
   (queued_messages_are_flushed_in_order_before_join
      { WebSocketManager.new with userId := .str "A", roomId := .str "r1" }
      [scenarioMsg "draw" "A" "r1", scenarioMsg "undo" "A" "r1"] scenarioClientEnv 3
      rfl (by decide)).2.2.imp fun _ h => ⟨h.1, h.2.1, h.2.2.1⟩⟩

/-! ## The reconnect timer of the client -/

namespace WebSocketManager

theorem scheduleReconnect_bounds (m : WebSocketManager) :
    (scheduleReconnect m).2.maxReconnectAttempts = m.maxReconnectAttempts ∧
    (scheduleReconnect m).2.reconnectDelay = m.reconnectDelay := by
  unfold scheduleReconnect
  split
  · exact ⟨rfl, rfl⟩
  · exact ⟨rfl, rfl⟩

theorem scheduleReconnect_below (m : WebSocketManager)
    (h : m.reconnectAttempts < m.maxReconnectAttempts) :
    scheduleReconnect m
      = (some (m.reconnectDelay * (m.reconnectAttempts + 1)),
         { m with reconnectAttempts := m.reconnectAttempts + 1 }) := by
  unfold scheduleReconnect
  rw [if_pos h]

theorem scheduleReconnect_at_bound (m : WebSocketManager)
    (h : ¬ m.reconnectAttempts < m.maxReconnectAttempts) :
    scheduleReconnect m = (none, m) := by
  unfold scheduleReconnect
  rw [if_neg h]

theorem afterAttempts_spec (m : WebSocketManager) (hmax : m.maxReconnectAttempts = 5)
    (hdelay : m.reconnectDelay = 2000) (h0 : m.reconnectAttempts = 0) (k : Nat)
    (hk : k ≤ 5) :
    (m.afterAttempts k).reconnectAttempts = k ∧
    (m.afterAttempts k).maxReconnectAttempts = 5 ∧
    (m.afterAttempts k).reconnectDelay = 2000 := by
  induction k with
  | zero => exact ⟨h0, hmax, hdelay⟩
  | succ n ih =>
    obtain ⟨h1, h2, h3⟩ := ih (by omega)
    have hb := scheduleReconnect_bounds (m.afterAttempts n)
    have hlt : (m.afterAttempts n).reconnectAttempts
        < (m.afterAttempts n).maxReconnectAttempts := by omega
    have hs := scheduleReconnect_below (m.afterAttempts n) hlt
    show (scheduleReconnect (m.afterAttempts n)).2.reconnectAttempts = n + 1 ∧
      (scheduleReconnect (m.afterAttempts n)).2.maxReconnectAttempts = 5 ∧
      (scheduleReconnect (m.afterAttempts n)).2.reconnectDelay = 2000
    refine ⟨?_, by rw [hb.1, h2], by rw [hb.2, h3]⟩
    rw [hs]
    show (m.afterAttempts n).reconnectAttempts + 1 = n + 1
    rw [h1]

end WebSocketManager

/-- C35: in a manager with the bound 5 and the base delay 2000 that the
constructor sets, scheduleReconnect sets a timer exactly when reconnectAttempts
is below 5, its delay is 2000 times the incremented counter, and at the bound
nothing changes; counted from a counter of 0, the k-th consecutive call for k
from 1 to 5 sets the delay 2000 * k, which grows strictly with k, and the sixth
call sets no timer; handleOpen on an open socket returns with the counter at 0. -/
theorem reconnect_policy (m : WebSocketManager) (hmax : m.maxReconnectAttempts = 5)
    (hdelay : m.reconnectDelay = 2000) :
    ((m.scheduleReconnect.1.isSome = true) ↔ m.reconnectAttempts < 5) ∧
    (m.reconnectAttempts < 5 →
      m.scheduleReconnect
        = (some (2000 * (m.reconnectAttempts + 1)),
           { m with reconnectAttempts := m.reconnectAttempts + 1 })) ∧
    (¬ m.reconnectAttempts < 5 → m.scheduleReconnect = (none, m)) ∧
    (∀ k : Nat, 1 ≤ k → k ≤ 5 →
      (WebSocketManager.scheduleReconnect
        (WebSocketManager.afterAttempts { m with reconnectAttempts := 0 } (k - 1))).1
        = some (2000 * k)) ∧
    (∀ j k d1 d2 : Nat, 1 ≤ j → j < k → k ≤ 5 →
      (WebSocketManager.scheduleReconnect
        (WebSocketManager.afterAttempts { m with reconnectAttempts := 0 } (j - 1))).1
        = some d1 →
      (WebSocketManager.scheduleReconnect
        (WebSocketManager.afterAttempts { m with reconnectAttempts := 0 } (k - 1))).1
        = some d2 → d1 < d2) ∧
    (WebSocketManager.scheduleReconnect
        (WebSocketManager.afterAttempts { m with reconnectAttempts := 0 } 5)).1 = none ∧
    (∀ (env : ClientEnv) (fuel : Nat), m.wsOpen = true → m.messageQueue.length < fuel →
      ∃ r, m.handleOpen env fuel = some r ∧ r.1.reconnectAttempts = 0) ∧
    WebSocketManager.new.maxReconnectAttempts = 5 ∧
    WebSocketManager.new.reconnectDelay = 2000 ∧
    (m.scheduleReconnect.2.maxReconnectAttempts = 5 ∧
      m.scheduleReconnect.2.reconnectDelay = 2000) := by
  have hb := WebSocketManager.scheduleReconnect_bounds m
  have hkth : ∀ k : Nat, 1 ≤ k → k ≤ 5 →
      (WebSocketManager.scheduleReconnect
        (WebSocketManager.afterAttempts { m with reconnectAttempts := 0 } (k - 1))).1
        = some (2000 * k) := by
    intro k hk1 hk5
    obtain ⟨h1, h2, h3⟩ := WebSocketManager.afterAttempts_spec
      { m with reconnectAttempts := 0 } hmax hdelay rfl (k - 1) (by omega)
    rw [WebSocketManager.scheduleReconnect_below _ (by omega), h1, h3]
    have : k - 1 + 1 = k := by omega
    rw [this]
  refine ⟨?_, ?_, ?_, hkth, ?_, ?_, ?_, rfl, rfl, by rw [hb.1, hmax], by rw [hb.2, hdelay]⟩
  · constructor
    · intro h
      by_contra hn
      rw [WebSocketManager.scheduleReconnect_at_bound m (by omega)] at h
      simp at h
    · intro h
      rw [WebSocketManager.scheduleReconnect_below m (by omega)]
      rfl
  · intro h
    rw [WebSocketManager.scheduleReconnect_below m (by omega), hdelay]
  · intro h
    exact WebSocketManager.scheduleReconnect_at_bound m (by omega)
  · intro j k d1 d2 hj hjk hk h1 h2
    rw [hkth j hj (by omega)] at h1
    rw [hkth k (by omega) hk] at h2
    have e1 : 2000 * j = d1 := Option.some.inj h1
    have e2 : 2000 * k = d2 := Option.some.inj h2
    omega
  · obtain ⟨h1, h2, h3⟩ := WebSocketManager.afterAttempts_spec
      { m with reconnectAttempts := 0 } hmax hdelay rfl 5 (by omega)
    rw [WebSocketManager.scheduleReconnect_at_bound _ (by omega)]
  · intro env fuel ho hf
    obtain ⟨r, h1, _, _, _, h5, _⟩ := WebSocketManager.handleOpen_open m env fuel ho hf
    exact ⟨_, h1, h5⟩

theorem reconnect_policy_witness :
    WebSocketManager.new.maxReconnectAttempts = 5 ∧
    WebSocketManager.new.reconnectDelay = 2000 ∧
    WebSocketManager.new.scheduleReconnect
      = (some (2000 * (WebSocketManager.new.reconnectAttempts + 1)),
         { WebSocketManager.new with
           reconnectAttempts := WebSocketManager.new.reconnectAttempts + 1 }) :=
  ⟨rfl, rfl, (reconnect_policy WebSocketManager.new rfl rfl).2.1 (by decide)⟩

end Canvas

/-! ## Undo and redo in the client -/

namespace Canvas

namespace CanvasManager

theorem restoreState_historyStep (cm : CanvasManager) (step : Int) :
    (cm.restoreState step).historyStep = cm.historyStep ∧
    (cm.restoreState step).history = cm.history := by
  unfold restoreState
  split
  · split
    · exact ⟨rfl, rfl⟩
    · exact ⟨rfl, rfl⟩
  · exact ⟨rfl, rfl⟩

theorem undo_of_pos (cm : CanvasManager) (h : 0 < cm.historyStep) :
    cm.undo.1 = true ∧ cm.undo.2.historyStep = cm.historyStep - 1 ∧
    cm.undo.2.history = cm.history := by
  unfold undo
  rw [if_pos h]
  exact ⟨rfl, (restoreState_historyStep _ _).1, (restoreState_historyStep _ _).2⟩

theorem undo_of_not_pos (cm : CanvasManager) (h : ¬ 0 < cm.historyStep) :
    cm.undo = (false, cm) := by
  unfold undo
  rw [if_neg h]

theorem redo_of_below (cm : CanvasManager)
    (h : cm.historyStep < (cm.history.length : Int) - 1) :
    cm.redo.1 = true ∧ cm.redo.2.historyStep = cm.historyStep + 1 ∧
    cm.redo.2.history = cm.history := by
  unfold redo
  rw [if_pos h]
  exact ⟨rfl, (restoreState_historyStep _ _).1, (restoreState_historyStep _ _).2⟩

theorem redo_of_not_below (cm : CanvasManager)
    (h : ¬ cm.historyStep < (cm.history.length : Int) - 1) :
    cm.redo = (false, cm) := by
  unfold redo
  rw [if_neg h]

end CanvasManager

namespace App

theorem handleMessage_of_undo (app : App) (userId historyStep timestamp : JsVal) :
    app.handleMessage (.undo userId historyStep timestamp)
      = { app with canvasManager := app.canvasManager.undo.2 } := rfl

theorem handleMessage_of_redo (app : App) (userId historyStep timestamp : JsVal) :
    app.handleMessage (.redo userId historyStep timestamp)
      = { app with canvasManager := app.canvasManager.redo.2 } := rfl

end App

/-- The counterexample to C32: user A, whose local history stands at position 2,
asks for an undo. The position is 1 as soon as handleUndo returns, before any
message of the server has arrived; the request goes to the server, which sends
an undo message to A and to B; on receipt A is at position 0, two steps from
where it was, while B, who had the same history, is at position 1. -/
theorem own_undo_moves_position_before_server_message :
    actorApp.canvasManager.historyStep = 2 ∧
    (actorApp.handleUndo scenarioClientEnv).1.canvasManager.historyStep = 1 ∧
    (actorApp.handleUndo scenarioClientEnv).2
      = [{ Message.empty with
           type := .str "undo", userId := .str "A", roomId := .str "r1",
           timestamp := .num 9 }] ∧
    (step twoInRoom
        (.message 1
          (.decoded { Message.empty with
                      type := .str "undo", userId := .str "A", roomId := .str "r1",
                      timestamp := .num 9 })
          scenarioEnv)).2
      = [Send.mk 1 (.undo (.str "A") .undefined (.num 9)),
         Send.mk 2 (.undo (.str "A") .undefined (.num 9))] ∧
    ((actorApp.handleUndo scenarioClientEnv).1.handleMessage
        (.undo (.str "A") .undefined (.num 9))).canvasManager.historyStep = 0 ∧
    (observerApp.handleMessage
        (.undo (.str "A") .undefined (.num 9))).canvasManager.historyStep = 1 := by
  decide

/-- C32 (amended): in the client, a participant's own undo or redo request is
applied to the local history at once. handleUndo moves the local position one
step back and then passes the request to send when the position is above 0, and
does nothing and sends nothing otherwise; handleRedo does the same one step
forward when the position is below the last snapshot. A received undo or redo
message moves the local position by one step under the same guards, so a
participant who did not make the request has moved by exactly one step after
the server's message. -/
theorem own_undo_is_applied_locally_then_sent (app : App) (env : ClientEnv)
    (userId historyStep timestamp : JsVal) :
    (0 < app.canvasManager.historyStep →
      (app.handleUndo env).1.canvasManager.historyStep = app.canvasManager.historyStep - 1 ∧
      ((app.handleUndo env).1.wsManager, (app.handleUndo env).2)
        = app.wsManager.sendUndo env) ∧
    (¬ 0 < app.canvasManager.historyStep → app.handleUndo env = (app, [])) ∧
    (app.canvasManager.historyStep < (app.canvasManager.history.length : Int) - 1 →
      (app.handleRedo env).1.canvasManager.historyStep = app.canvasManager.historyStep + 1 ∧
      ((app.handleRedo env).1.wsManager, (app.handleRedo env).2)
        = app.wsManager.sendRedo env) ∧
    (¬ app.canvasManager.historyStep < (app.canvasManager.history.length : Int) - 1 →
      app.handleRedo env = (app, [])) ∧
    (app.handleMessage (.undo userId historyStep timestamp)).canvasManager.historyStep
      = (if 0 < app.canvasManager.historyStep then app.canvasManager.historyStep - 1
         else app.canvasManager.historyStep) ∧
    (app.handleMessage (.redo userId historyStep timestamp)).canvasManager.historyStep
      = (if app.canvasManager.historyStep < (app.canvasManager.history.length : Int) - 1
         then app.canvasManager.historyStep + 1 else app.canvasManager.historyStep) ∧
    (app.handleMessage (.undo userId historyStep timestamp)).wsManager = app.wsManager ∧
    (app.handleMessage (.redo userId historyStep timestamp)).wsManager = app.wsManager := by
  refine ⟨?_, ?_, ?_, ?_, ?_, ?_, rfl, rfl⟩
  · intro h
    obtain ⟨h1, h2, _⟩ := CanvasManager.undo_of_pos app.canvasManager h
    unfold App.handleUndo
    rw [if_pos h1]
    exact ⟨h2, rfl⟩
  · intro h
    have h1 := CanvasManager.undo_of_not_pos app.canvasManager h
    unfold App.handleUndo
    rw [h1]
    rfl
  · intro h
    obtain ⟨h1, h2, _⟩ := CanvasManager.redo_of_below app.canvasManager h
    unfold App.handleRedo
    rw [if_pos h1]
    exact ⟨h2, rfl⟩
  · intro h
    have h1 := CanvasManager.redo_of_not_below app.canvasManager h
    unfold App.handleRedo
    rw [h1]
    rfl
  · rw [App.handleMessage_of_undo]
    by_cases h : 0 < app.canvasManager.historyStep
    · rw [if_pos h]
      exact (CanvasManager.undo_of_pos app.canvasManager h).2.1
    · rw [if_neg h]
      show app.canvasManager.undo.2.historyStep = _
      rw [CanvasManager.undo_of_not_pos app.canvasManager h]
  · rw [App.handleMessage_of_redo]
    by_cases h : app.canvasManager.historyStep < (app.canvasManager.history.length : Int) - 1
    · rw [if_pos h]
      exact (CanvasManager.redo_of_below app.canvasManager h).2.1
    · rw [if_neg h]
      show app.canvasManager.redo.2.historyStep = _
      rw [CanvasManager.redo_of_not_below app.canvasManager h]

theorem own_undo_is_applied_locally_then_sent_witness :
    (0 : Int) < actorApp.canvasManager.historyStep ∧
    (actorApp.handleUndo scenarioClientEnv).1.canvasManager.historyStep
      = actorApp.canvasManager.historyStep - 1 ∧
    ((actorApp.handleUndo scenarioClientEnv).1.wsManager,
      (actorApp.handleUndo scenarioClientEnv).2)
        = actorApp.wsManager.sendUndo scenarioClientEnv :=
  ⟨by decide,
   (own_undo_is_applied_locally_then_sent actorApp scenarioClientEnv (.str "A") .undefined
      (.num 9)).1 (by decide)⟩

/-! ## The message types that the client dispatches -/

/-- C33: a clear message of the server is the one message type for which the
switch of the client has no case. It reaches the default branch and leaves the
client as it was, for every client and every clear message; every other message
that the server sends reaches the case of its own handler. In the scenario, A
asks for a clear in room r1, the server sends the clear message to A and to B,
and the canvas of B still shows the stroke it showed before, whereas the clear
method of its canvas manager would have left it blank. -/
theorem clear_message_reaches_default_branch (app : App) (userId timestamp : JsVal) :
    WebSocketManager.branchOf (OutMsg.clear userId timestamp).type = .unknownType ∧
    app.handleMessage (.clear userId timestamp) = app ∧
    (∀ msg : OutMsg, WebSocketManager.branchOf msg.type = .unknownType →
      ∃ u t, msg = .clear u t) ∧
    clearSends
      = [Send.mk 1 (.clear (.str "A") (.num 7)), Send.mk 2 (.clear (.str "A") (.num 7))] ∧
    observerWithStroke.canvasManager.pixels
      = [.line (.num 0) (.num 0) (.num 10) (.num 10) (.str "#000000") (.num 2)] ∧
    (observerWithStroke.handleMessage (.clear (.str "A") (.num 7))).canvasManager.pixels
      = [.line (.num 0) (.num 0) (.num 10) (.num 10) (.str "#000000") (.num 2)] ∧
    observerWithStroke.canvasManager.clear.pixels = [] := by
  refine ⟨rfl, rfl, ?_, by decide, by decide, by decide, by decide⟩
  intro msg h
  cases msg with
  | clear u t => exact ⟨u, t, rfl⟩
  | joined _ _ _ _ =>
    exact absurd (show WebSocketManager.branchOf (.str "joined") = .unknownType from h) (by decide)
  | userJoined _ _ =>
    exact absurd (show WebSocketManager.branchOf (.str "user-joined") = .unknownType from h) (by decide)
  | draw _ _ _ _ _ _ _ _ _ =>
    exact absurd (show WebSocketManager.branchOf (.str "draw") = .unknownType from h) (by decide)
  | cursor _ _ _ _ =>
    exact absurd (show WebSocketManager.branchOf (.str "cursor") = .unknownType from h) (by decide)
  | undo _ _ _ =>
    exact absurd (show WebSocketManager.branchOf (.str "undo") = .unknownType from h) (by decide)
  | redo _ _ _ =>
    exact absurd (show WebSocketManager.branchOf (.str "redo") = .unknownType from h) (by decide)
  | canvasSync _ _ =>
    exact absurd (show WebSocketManager.branchOf (.str "canvas-sync") = .unknownType from h) (by decide)
  | userLeft _ =>
    exact absurd (show WebSocketManager.branchOf (.str "user-left") = .unknownType from h) (by decide)
  | pong =>
    exact absurd (show WebSocketManager.branchOf (.str "pong") = .unknownType from h) (by decide)
  | error _ =>
    exact absurd (show WebSocketManager.branchOf (.str "error") = .unknownType from h) (by decide)

/-! ## The canvas state received by the client -/

/-- The counterexample to C34: B joins room r1 after A has drawn one stroke
there. The joined message that the server sends to B carries that stroke in
canvasState.actions, and after the client of B has handled the message its
canvas is blank and its history holds the one blank snapshot of the constructor;
the client of a user who was in the room when the stroke was drawn shows it. -/
theorem late_joiner_canvas_stays_blank :
    lateJoinSends.map (fun s => (s.dest, s.msg.type,
        s.msg.canvasState?.map fun cs => cs.actions))
      = [(2, .str "joined", some [scenarioStroke "A" "r1"]),
         (1, .str "user-joined", none)] ∧
    lateJoinSends.map (fun s => (App.new.handleMessage s.msg).canvasManager)
      = [CanvasManager.new, CanvasManager.new] ∧
    CanvasManager.new.pixels = [] ∧
    observerWithStroke.canvasManager.pixels
      = [.line (.num 0) (.num 0) (.num 10) (.num 10) (.str "#000000") (.num 2)] := by
  decide

/-- C34 (amended): on a joined message the client hands canvasState to the
onCanvasSync callback, and on a canvas-sync message it hands over the whole
message; the callback paints only when the value it gets has a truthy imageData,
and no value built by the server has one. So a joined message changes only the
roomId and the userId of the client, a canvas-sync message changes nothing, and
the canvas and the local history stay as they are whatever canvasState.actions
holds. -/
theorem canvas_state_without_image_leaves_canvas (app : App)
    (userId roomId timestamp : JsVal) (users : List UserView) (cs : CanvasState) :
    (∀ arg : SyncArg, arg.imageData.truthy = false) ∧
    (app.handleMessage (.joined userId roomId users cs)).canvasManager = app.canvasManager ∧
    (app.handleMessage (.joined userId roomId users cs)).wsManager
      = { app.wsManager with roomId := roomId, userId := userId } ∧
    app.handleMessage (.canvasSync cs timestamp) = app ∧
    ∀ st : ServerState, ∀ c : ConnId, ∀ m : Message, ∀ env : Env,
      ∀ s ∈ (handleJoin st c m env).sends ++ (handleSyncRequest st c m env).sends,
        (app.handleMessage s.msg).canvasManager = app.canvasManager := by
  have harg : ∀ arg : SyncArg, arg.imageData.truthy = false := by
    intro arg
    cases arg with
    | state _ => rfl
    | message _ => rfl
  refine ⟨harg, rfl, rfl, rfl, ?_⟩
  intro st c m env s hs
  rw [List.mem_append] at hs
  rcases hs with hs | hs
  · rcases handleJoin_sends_cases st c m env with ⟨_, hj⟩ | ⟨_, others, canvas, hj⟩
    · rw [hj] at hs
      exact absurd hs (List.not_mem_nil s)
    · rw [hj, List.mem_cons] at hs
      rcases hs with hs | hs
      · rw [hs]
        rfl
      · obtain ⟨p, _, hp, _⟩ := broadcast_mem _ _ _ _ s hs
        rw [hp]
        rfl
  · unfold handleSyncRequest at hs
    split at hs
    · exact absurd hs (List.not_mem_nil s)
    · rw [List.mem_singleton] at hs
      rw [hs]
      rfl

end Canvas
